import Mathlib

/-!
# AndadoraExchange: rates, wallet, withdrawal, loyalty tier, referrals and account numbers

A shallow embedding of the domain logic of the AndadoraExchange application
(`api/rates.js`, `api/nubanApi.js`, `context/AuthContext.js`, `utils/validateInput.js`
and the screens `WithdrawScreen.js`, `RateManagementScreen.js`, `UploadIDScreen.js`,
`AdminDashboardScreen.js`).

Conventions of the embedding.

* A number is a `Rat`: the decimal as it is written in the source or held in the data.
  The arithmetic of `calculateExchange` is IEEE 754 double arithmetic (`toDouble`,
  `mulDouble`, `subDouble`): an operand is read as the double nearest to it and the
  exact result of the operation is rounded to the nearest double.  Sums and differences
  of wallet amounts are computed exactly.  A numeric value that may be absent or `NaN`
  is an `Option Rat`, `none` being the value that the source's `x || 0` reads as `0`
  and that compares false with every number.
* A result object `{ success: true, data }` / `{ success: false, error }` is an
  `Except String _` value.
* The document store is explicit state.  A store call that can reject takes a
  `StoreFault` argument: `none` when the call completes, `some msg` when the call
  rejects with an error whose message is `msg`.
* Time stamps (`createdAt`, `updatedAt`, `lastUpdated`) are not part of the state.
* A name that a module uses without importing or declaring it does not resolve: the
  statement that evaluates it throws, and the enclosing `catch` block takes over.
-/

namespace AndadoraExchange

/-! ## JavaScript helpers -/

/-- The outcome of one store call as decided by the environment: `none` when the call
completes, `some msg` when the call rejects with an error of message `msg`. -/
abbrev StoreFault := Option String

/-- JavaScript `x || 0` on a numeric field: an absent or `NaN` value reads as `0`
(and `0 || 0` is `0`). -/
def orZero (x : Option Rat) : Rat := x.getD 0

/-- JavaScript `s || d` on strings: the empty string is falsy. -/
def orStr (s d : String) : String := if s = "" then d else s

/-- The decimal that `x.toFixed(d)` prints for the number `x`.  `toFixed` works on the
exact value of `x`: it takes the integer `n` for which `n / 10^d - x` is closest to
zero, the larger `n` on a tie, after moving the sign of a negative `x` in front. -/
def toFixed (x : Rat) (d : Nat) : Rat :=
  if x < 0 then -((⌊(-x) * 10 ^ d + 1 / 2⌋ : Int) : Rat) / 10 ^ d
  else ((⌊x * 10 ^ d + 1 / 2⌋ : Int) : Rat) / 10 ^ d

/-- Rounding to two decimal places, as the source does it: `toFixed(2)`. -/
def round2 (x : Rat) : Rat := toFixed x 2

/-- The integer nearest to `q`, the even one of the two when `q` lies half-way between
two integers. -/
def roundHalfEven (q : Rat) : Int :=
  let n := ⌊q⌋
  let r := q - n
  if r < 1 / 2 then n
  else if 1 / 2 < r then n + 1
  else if n % 2 = 0 then n else n + 1

/-- The IEEE 754 double nearest to `x` (round to nearest, ties to even): the value of a
JavaScript number written as the decimal `x`, and the result of an arithmetic operation
whose exact result is `x`.  A double is `n * 2 ^ e` with `|n| < 2 ^ 53` and
`e >= -1074`; `Int.log 2 |x|` is the exponent of the leading bit of `x`, and the
exponents below -1022 share the spacing `2 ^ -1074`.  Results of magnitude `2 ^ 1024`
and more, which JavaScript turns into `Infinity`, are left finite. -/
def toDouble (x : Rat) : Rat :=
  let e : Int := max (Int.log 2 |x|) (-1022) - 52
  roundHalfEven (x / 2 ^ e) * 2 ^ e

/-- JavaScript `a * b` on numbers: the double nearest to the product of the two
doubles. -/
def mulDouble (a b : Rat) : Rat := toDouble (toDouble a * toDouble b)

/-- JavaScript `a - b` on numbers: the double nearest to the difference of the two
doubles. -/
def subDouble (a b : Rat) : Rat := toDouble (toDouble a - toDouble b)

/-! ## Data model (documents of the store) -/

/-- A document of the `giftCardRates` collection.  The field `cardType` is only present
on the documents that `initializeDefaultRates` adds. -/
structure Rate where
  buyRate : Rat
  sellRate : Rat
  currency : Option String
  status : String
  updatedBy : Option String := none
  cardType : Option String := none
deriving DecidableEq, Repr

/-- A document of the `users` collection (the fields the wallet logic reads or writes). -/
structure UserProfile where
  uid : String
  walletBalance : Option Rat
  loyaltyTier : Option String
  transactionCount : Option Rat
  kycStatus : String
  referralCode : String
  referredBy : Option String
  referralEarnings : Option Rat
  totalReferrals : Option Rat
deriving DecidableEq, Repr

/-- A document of the `referrals` collection. -/
structure Referral where
  referrerId : String
  referredUserId : String
  referralCode : String
  status : String
  bonusAmount : Rat
deriving DecidableEq, Repr

/-- A document of the `transactions` collection. -/
structure Transaction where
  userId : String
  type : String
  amount : Rat
  status : String
  description : String
deriving DecidableEq, Repr

/-- A document of the `rateHistory` collection, written by `logRateChange`. -/
structure RateChange where
  cardType : String
  buyRate : Rat
  sellRate : Rat
  status : String
  currency : Option String
  updatedBy : Option String
  action : String
deriving DecidableEq, Repr

/-- A document of the `kycSubmissions` collection (image links left out). -/
structure KycSubmission where
  userId : String
  idType : String
  idNumber : String
  status : String
  reviewedBy : Option String := none
  rejectionReason : Option String := none
deriving DecidableEq, Repr

/-- A document of the `giftCardSubmissions` collection. -/
structure GiftCardSubmission where
  userId : String
  cardType : String
  cardValue : Rat
  calculatedAmount : Rat
  status : String
  reviewedBy : Option String := none
  approvedAmount : Option Rat := none
deriving DecidableEq, Repr

/-- The document store: each collection is a list of (document id, document) pairs;
`transactions` and `rateHistory` are only ever appended to and are kept as lists of
documents. -/
structure Store where
  users : List (String × UserProfile) := []
  referrals : List (String × Referral) := []
  transactions : List Transaction := []
  giftCardRates : List (String × Rate) := []
  rateHistory : List RateChange := []
  kycSubmissions : List (String × KycSubmission) := []
  giftCardSubmissions : List (String × GiftCardSubmission) := []
deriving DecidableEq, Repr

/-- Firestore `getDoc(doc(db, collection, id))`: the document stored under `id`, if it exists. -/
def getDoc {α : Type} (coll : List (String × α)) (id : String) : Option α :=
  match coll with
  | [] => none
  | (k, v) :: rest => if k = id then some v else getDoc rest id

/-- The collection after `updateDoc(doc(db, collection, id), fields)`, where `f` merges
the written fields into the stored document.  Firestore rejects an update of a
document that does not exist: the result is then `none`. -/
def updateDoc {α : Type} (coll : List (String × α)) (id : String) (f : α → α) :
    Option (List (String × α)) :=
  match coll with
  | [] => none
  | (k, v) :: rest =>
    if k = id then some ((k, f v) :: rest)
    else (updateDoc rest id f).map (fun r => (k, v) :: r)

/-- The collection after `addDoc(collection(db, name), data)`; `id` is the document id
that Firestore generates for the new document. -/
def addDoc {α : Type} (coll : List (String × α)) (id : String) (data : α) :
    List (String × α) :=
  coll ++ [(id, data)]

/-- The error code of Firestore's rejection of an update of a missing document. -/
def notFound : String := "not-found"

/-! ## `api/rates.js` -/

/-- Source function `RatesAPI.getRateByType(cardType)`; `fault` is the outcome of its
read of the rate document. -/
def getRateByType (fault : StoreFault) (db : Store) (cardType : String) :
    Except String Rate :=
  match fault with
  | some msg => .error (orStr msg "Failed to fetch rate")
  | none =>
    match getDoc db.giftCardRates cardType with
    | none => .error (orStr ("Rate not found for " ++ cardType) "Failed to fetch rate")
    | some rate => .ok rate

/-- The result data of `calculateExchange`.  `exchangeRate` is the decimal value of the
string produced by `exchangeRate.toFixed(4)`. -/
structure ExchangeData where
  cardType : String
  cardValue : Rat
  exchangeRate : Rat
  exchangeAmount : Rat
  tierBonus : Rat
  userTier : String
  currency : String
deriving DecidableEq, Repr

/-- The table `tierBonuses` of `calculateExchange`, looked up at `userTier`. -/
def tierBonuses (userTier : String) : Option Rat :=
  if userTier = "BRONZE" then some 1.0
  else if userTier = "SILVER" then some 1.05
  else if userTier = "GOLD" then some 1.1
  else none

/-- The multiplier `tierBonuses[userTier] || 1.0`. -/
def tierMultiplier (userTier : String) : Rat := (tierBonuses userTier).getD 1.0

/-- Source function `RatesAPI.calculateExchange(cardType, cardValue, userTier)`;
`fault` is the outcome of the read of the rate document.  The products and the
difference are those of JavaScript numbers, `toFixed` prints the exact value of its
double, and the fields of the result hold the decimals printed. -/
def calculateExchange (fault : StoreFault) (db : Store) (cardType : String)
    (cardValue : Rat) (userTier : String) : Except String ExchangeData :=
  match getRateByType fault db cardType with
  | .error e => .error (orStr e "Failed to calculate exchange")
  | .ok rate =>
    let exchangeRate := rate.buyRate
    let tierMultiplier := tierMultiplier userTier
    let exchangeRate := mulDouble exchangeRate tierMultiplier
    let exchangeAmount := toFixed (mulDouble cardValue exchangeRate) 2
    let bonus := toFixed (subDouble (mulDouble (mulDouble cardValue exchangeRate) tierMultiplier)
      (mulDouble cardValue rate.buyRate)) 2
    .ok { cardType := cardType
          cardValue := cardValue
          exchangeRate := toFixed exchangeRate 4
          exchangeAmount := exchangeAmount
          tierBonus := if bonus > 0 then bonus else 0
          userTier := userTier
          currency := orStr (rate.currency.getD "") "NGN" }

/-! ## `utils/constants.js` -/

/-- The bonus credited to a referrer, `REFERRAL_BONUS`. -/
def REFERRAL_BONUS : Rat := 5

/-! ## `context/AuthContext.js` -/

/-- The state that `AuthProvider` works on: the signed-in Firebase user (its `uid`),
the local copy `userProfile` of the profile, and the document store `db`. -/
structure AuthState where
  user : Option String
  userProfile : Option UserProfile
  db : Store
deriving DecidableEq, Repr

/-- JavaScript `x < 0` on a number that may be `NaN`: false for `NaN`. -/
def ltZero (x : Option Rat) : Bool :=
  match x with
  | some v => decide (v < 0)
  | none => false

/-- The `newBalance` of `updateWalletBalance`; `amount` is `none` for `NaN`. -/
def newBalance (currentBalance : Rat) (amount : Option Rat) (type : String) : Option Rat :=
  amount.map (fun a => if type = "add" then currentBalance + a else currentBalance - a)

/-- Source function `updateWalletBalance(amount, type)`: the state after the call and the returned
result (`newBalance` on success, the error message on failure). -/
def updateWalletBalance (fault : StoreFault) (s : AuthState) (amount : Option Rat)
    (type : String) : AuthState × Except String (Option Rat) :=
  match s.user, s.userProfile with
  | some uid, some profile =>
    let currentBalance := orZero profile.walletBalance
    let newBalance := newBalance currentBalance amount type
    if ltZero newBalance then (s, .error "Insufficient wallet balance")
    else
      match fault with
      | some msg => (s, .error msg)
      | none =>
        match updateDoc s.db.users uid (fun d => { d with walletBalance := newBalance }) with
        | none => (s, .error notFound)
        | some users =>
          ({ s with
              db := { s.db with users := users }
              userProfile := some { profile with walletBalance := newBalance } },
           .ok newBalance)
  | _, _ => (s, .error "No user logged in")

/-- The snapshot of the query of `completeReferralBonus`: the referrals of
`referredUserId` with status `pending`, in the order of the store. -/
def pendingReferrals (db : Store) (referredUserId : String) : List (String × Referral) :=
  db.referrals.filter (fun r => r.2.referredUserId = referredUserId ∧ r.2.status = "pending")

/-- The names that `context/AuthContext.js` imports from `firebase/firestore` (line 9);
the module declares no other Firestore function. -/
def firestoreImports : List String :=
  ["doc", "setDoc", "getDoc", "updateDoc", "collection", "addDoc"]

/-- The `try` block of `completeReferralBonus(referredUserId)` as it runs once the names
`getDocs`, `query` and `where` resolve.  The block makes up to five store calls (query,
read of the referrer, update of the referrer, update of the referral, append of the
transaction); `failAt = some i` makes the call number `i` reject, after which the
`catch` block ends the function.  Nothing is returned: the result is the store. -/
def completeReferralBonusBody (failAt : Option Nat) (db : Store) (referredUserId : String) :
    Store :=
  if failAt = some 0 then db
  else
    match pendingReferrals db referredUserId with
    | [] => db
    | (referralId, referralData) :: _ =>
      if failAt = some 1 then db
      else
        match getDoc db.users referralData.referrerId with
        | none => db
        | some referrerData =>
          if failAt = some 2 then db
          else
            match updateDoc db.users referralData.referrerId (fun d =>
                { d with
                    walletBalance := some (orZero referrerData.walletBalance + REFERRAL_BONUS)
                    referralEarnings := some (orZero referrerData.referralEarnings + REFERRAL_BONUS)
                    totalReferrals := some (orZero referrerData.totalReferrals + 1) }) with
            | none => db
            | some users =>
              let db1 := { db with users := users }
              if failAt = some 3 then db1
              else
                match updateDoc db1.referrals referralId (fun r => { r with status := "completed" }) with
                | none => db1
                | some referrals =>
                  let db2 := { db1 with referrals := referrals }
                  if failAt = some 4 then db2
                  else
                    { db2 with
                        transactions := db2.transactions ++
                          [{ userId := referralData.referrerId
                             type := "referral_bonus"
                             amount := REFERRAL_BONUS
                             status := "completed"
                             description := "Referral bonus earned" }] }

/-- Source function `completeReferralBonus(referredUserId)`.  Its first store call is
`getDocs(query(referralsRef, where(..), where(..)))`; a name that the module neither
imports nor declares does not resolve, the call then throws a `ReferenceError` inside
the `try` block, and the `catch` block logs it and ends the function with the store as
it was. -/
def completeReferralBonus (failAt : Option Nat) (db : Store) (referredUserId : String) :
    Store :=
  if "getDocs" ∈ firestoreImports ∧ "query" ∈ firestoreImports ∧ "where" ∈ firestoreImports then
    completeReferralBonusBody failAt db referredUserId
  else db

/-- The tier that `updateLoyaltyTier` computes from `transactionCount`. -/
def newTier (transactionCount : Rat) : String :=
  if transactionCount ≥ 50 then "GOLD"
  else if transactionCount ≥ 10 then "SILVER"
  else "BRONZE"

/-- Source function `updateLoyaltyTier()`; `fault` is the outcome of its store write.
Nothing is returned: the result is the state. -/
def updateLoyaltyTier (fault : StoreFault) (s : AuthState) : AuthState :=
  match s.user, s.userProfile with
  | some uid, some profile =>
    let transactionCount := orZero profile.transactionCount
    let newTier := newTier transactionCount
    if some newTier ≠ profile.loyaltyTier then
      match fault with
      | some _ => s
      | none =>
        match updateDoc s.db.users uid (fun d => { d with loyaltyTier := some newTier }) with
        | none => s
        | some users =>
          { s with
              db := { s.db with users := users }
              userProfile := some { profile with loyaltyTier := some newTier } }
    else s
  | _, _ => s

/-! ## `utils/validateInput.js` -/

/-- A validation result `{ isValid, error }`. -/
structure Validation where
  isValid : Bool
  error : Option String
deriving DecidableEq, Repr

/-- Source function `validateAmount(amount)`.  The built-in `parseFloat` is a parameter: its value is
`none` when the text does not start with a number (`NaN`). -/
def validateAmount (parseFloat : String → Option Rat) (amount : String) : Validation :=
  if amount = "" then { isValid := false, error := some "Amount is required" }
  else
    match parseFloat amount with
    | none => { isValid := false, error := some "Please enter a valid amount" }
    | some numAmount =>
      if numAmount ≤ 0 then { isValid := false, error := some "Please enter a valid amount" }
      else if numAmount < 10 then { isValid := false, error := some "Minimum amount is $10" }
      else { isValid := true, error := none }

/-- Source function `validateAccountNumber(accountNumber)`: the text must match `/^\d{10}$/`. -/
def validateAccountNumber (accountNumber : String) : Validation :=
  if accountNumber = "" then { isValid := false, error := some "Account number is required" }
  else if ¬ (accountNumber.length = 10 ∧ accountNumber.all Char.isDigit) then
    { isValid := false, error := some "Account number must be 10 digits" }
  else { isValid := true, error := none }

/-! ## `screens/WithdrawScreen.js` -/

/-- The component state of `WithdrawScreen` that validation and submission use. -/
structure WithdrawForm where
  amount : String
  accountNumber : String
  selectedBank : String
  accountName : String
  transferFee : Rat
  accountVerified : Bool
  error : String
  amountError : String
  accountError : String
deriving DecidableEq, Repr

/-- The balance test of `validateForm`:
`totalAmount > (userProfile?.walletBalance || 0)` with `totalAmount = numAmount + transferFee`. -/
def exceedsBalance (numAmount transferFee : Rat) (userProfile : Option UserProfile) : Bool :=
  let totalAmount := numAmount + transferFee
  decide (totalAmount > orZero (userProfile.bind (fun p => p.walletBalance)))

/-- Source function `validateForm()` of `WithdrawScreen`: the returned `isValid` and the form with the
error fields as set by the call. -/
def validateForm (parseFloat : String → Option Rat) (form : WithdrawForm)
    (userProfile : Option UserProfile) : Bool × WithdrawForm :=
  let isValid := true
  -- Validate amount
  let amountValidation := validateAmount parseFloat form.amount
  let (isValid, form) :=
    if ¬ amountValidation.isValid then
      (false, { form with amountError := amountValidation.error.getD "" })
    else
      match parseFloat form.amount with
      | some numAmount =>
        if exceedsBalance numAmount form.transferFee userProfile then
          (false, { form with amountError := "Insufficient wallet balance (including transfer fee)" })
        else (isValid, { form with amountError := "" })
      | none => (isValid, { form with amountError := "" })
  -- Validate account number
  let accountValidation := validateAccountNumber form.accountNumber
  let (isValid, form) :=
    if ¬ accountValidation.isValid then
      (false, { form with accountError := accountValidation.error.getD "" })
    else if ¬ form.accountVerified then
      (false, { form with accountError := "Please verify your account details" })
    else (isValid, { form with accountError := "" })
  -- Validate bank selection
  if form.selectedBank = "" then (false, { form with error := "Please select a bank" })
  else (isValid, form)

/-- The figures shown by `renderWithdrawalSummary` (`none` stands for `NaN`). -/
structure WithdrawalSummary where
  numAmount : Option Rat
  transferFee : Rat
  totalDeduction : Option Rat
  remainingBalance : Option Rat
deriving DecidableEq, Repr

/-- Source function `renderWithdrawalSummary()`: `none` when nothing is rendered, otherwise the
computed figures of the card. -/
def renderWithdrawalSummary (parseFloat : String → Option Rat) (form : WithdrawForm)
    (userProfile : Option UserProfile) : Option WithdrawalSummary :=
  if form.amount = "" ∨ form.amountError ≠ "" then none
  else
    let numAmount := parseFloat form.amount
    let totalDeduction := numAmount.map (fun a => a + form.transferFee)
    let remainingBalance :=
      totalDeduction.map (fun t => orZero (userProfile.bind (fun p => p.walletBalance)) - t)
    some { numAmount := numAmount
           transferFee := form.transferFee
           totalDeduction := totalDeduction
           remainingBalance := remainingBalance }

/-- What a run of `processWithdrawal` leaves behind: the form (its `error` field), the
`AuthProvider` state, and the title of the alert shown, if any. -/
structure WithdrawalRun where
  form : WithdrawForm
  auth : AuthState
  alert : Option String
deriving DecidableEq, Repr

/-- Source function `processWithdrawal()`.  `transfer` is the result object that the payment
aggregator call `flutterwaveAPI.initiateTransfer(transferData)` resolves to (the call
catches its own errors); `fault` is the outcome of the store write made by
`updateWalletBalance`. -/
def processWithdrawal (parseFloat : String → Option Rat) (transfer : Except String Unit)
    (fault : StoreFault) (form : WithdrawForm) (s : AuthState) : WithdrawalRun :=
  let numAmount := parseFloat form.amount
  match transfer with
  | .ok _ =>
    -- Deduct from wallet
    let totalDeduction := numAmount.map (fun a => a + form.transferFee)
    let walletResult := updateWalletBalance fault s totalDeduction "subtract"
    match walletResult.2 with
    | .ok _ => { form := form, auth := walletResult.1, alert := some "Withdrawal Initiated" }
    | .error _ =>
      { form := { form with
                    error := "Withdrawal initiated but wallet update failed. Please contact support." }
        auth := walletResult.1
        alert := none }
  | .error e =>
    { form := { form with error := orStr e "Withdrawal failed. Please try again." }
      auth := s
      alert := none }

/-! ## Two overlapping `updateWalletBalance` calls

`updateWalletBalance` is an `async` function with one `await`: the code up to the
`updateDoc` call runs without interruption, the write reaches the store while the
call is suspended, and the code after the `await` runs when the write has settled.
A call is therefore three steps, and other calls may run between them. -/

/-- Where one `updateWalletBalance` call stands. -/
inductive WalletCall where
  /-- Called with `amount` and `type`, nothing executed yet. -/
  | called (amount : Option Rat) (type : String)
  /-- The balance check has passed and `updateDoc` has been issued for `uid`. -/
  | issued (uid : String) (newBalance : Option Rat)
  /-- The write has been applied by the store; the call is still suspended. -/
  | written (newBalance : Option Rat)
  /-- The call has returned `result`. -/
  | returned (result : Except String (Option Rat))
deriving Repr

/-- One step of an `updateWalletBalance` call on the shared state.  `fault` is the
outcome of the call's store write. -/
def stepWalletCall (fault : StoreFault) (s : AuthState) (c : WalletCall) :
    AuthState × WalletCall :=
  match c with
  | .called amount type =>
    match s.user, s.userProfile with
    | some uid, some profile =>
      let currentBalance := orZero profile.walletBalance
      let newBalance := newBalance currentBalance amount type
      if ltZero newBalance then (s, .returned (.error "Insufficient wallet balance"))
      else (s, .issued uid newBalance)
    | _, _ => (s, .returned (.error "No user logged in"))
  | .issued uid newBalance =>
    match fault with
    | some msg => (s, .returned (.error msg))
    | none =>
      match updateDoc s.db.users uid (fun d => { d with walletBalance := newBalance }) with
      | none => (s, .returned (.error notFound))
      | some users => ({ s with db := { s.db with users := users } }, .written newBalance)
  | .written newBalance =>
    ({ s with userProfile := s.userProfile.map (fun prev => { prev with walletBalance := newBalance }) },
     .returned (.ok newBalance))
  | .returned result => (s, .returned result)

/-- Two calls in flight on one state. -/
structure TwoCalls where
  state : AuthState
  first : WalletCall
  second : WalletCall
deriving Repr

/-- Runs a schedule: each entry says which call takes its next step (`false` the first
call, `true` the second).  Store writes do not fail. -/
def runSchedule (t : TwoCalls) (schedule : List Bool) : TwoCalls :=
  match schedule with
  | [] => t
  | false :: rest =>
    let r := stepWalletCall none t.state t.first
    runSchedule { t with state := r.1, first := r.2 } rest
  | true :: rest =>
    let r := stepWalletCall none t.state t.second
    runSchedule { t with state := r.1, second := r.2 } rest

/-- The stored wallet balance of user `uid`, read as the source reads it. -/
def storedBalance (db : Store) (uid : String) : Rat :=
  orZero ((getDoc db.users uid).bind (fun p => p.walletBalance))

/-! ## Order of the loyalty tiers -/

/-- The position of a tier in the order BRONZE < SILVER < GOLD (the order of
`minTransactions` in `LOYALTY_TIERS`). -/
def tierRank (tier : String) : Nat :=
  if tier = "GOLD" then 2 else if tier = "SILVER" then 1 else 0

/-! ## `api/rates.js`: rate mutation -/

/-- The `rateData` argument of `updateRate`; `currency` and `updatedBy` are `none` when
the object has no such key. -/
structure RateData where
  buyRate : Rat
  sellRate : Rat
  status : String
  currency : Option String := none
  updatedBy : Option String := none
deriving DecidableEq, Repr

/-- Source function `RatesAPI.logRateChange(cardType, rateData)`: a rejected write of the
history record is caught and logged inside the function. -/
def logRateChange (fault : StoreFault) (db : Store) (cardType : String) (rateData : RateData) :
    Store :=
  match fault with
  | some _ => db
  | none =>
    { db with
        rateHistory := db.rateHistory ++
          [{ cardType := cardType
             buyRate := rateData.buyRate
             sellRate := rateData.sellRate
             status := rateData.status
             currency := rateData.currency
             updatedBy := rateData.updatedBy
             action := "rate_update" }] }

/-- The fields that `updateRate` writes into the rate record:
`{ ...rateData, lastUpdated, updatedBy: rateData.updatedBy || 'system' }`. -/
def mergeRateData (rateData : RateData) (r : Rate) : Rate :=
  { r with
      buyRate := rateData.buyRate
      sellRate := rateData.sellRate
      status := rateData.status
      currency := match rateData.currency with
        | some c => some c
        | none => r.currency
      updatedBy := some (orStr (rateData.updatedBy.getD "") "system") }

/-- Source function `RatesAPI.updateRate(cardType, rateData)`: `fault` is the outcome of
the write to the rate record, `logFault` that of the write of the history record. -/
def updateRate (fault logFault : StoreFault) (db : Store) (cardType : String)
    (rateData : RateData) : Store × Except String String :=
  match fault with
  | some msg => (db, .error (orStr msg "Failed to update rate"))
  | none =>
    match updateDoc db.giftCardRates cardType (mergeRateData rateData) with
    | none => (db, .error (orStr notFound "Failed to update rate"))
    | some rates =>
      -- Log rate change to history
      (logRateChange logFault { db with giftCardRates := rates } cardType rateData,
       .ok ("Rate updated for " ++ cardType))

/-! ## `screens/RateManagementScreen.js` -/

/-- The component state of `RateManagementScreen` that validation and submission use. -/
structure RateForm where
  selectedCard : String
  buyRate : String
  sellRate : String
  status : String
  error : String
  buyRateError : String
  sellRateError : String
deriving DecidableEq, Repr

namespace RateManagementScreen

/-- Source function `validateForm()` of `RateManagementScreen`: the returned `isValid`
and the form with the error fields as set by the call.  Each of the three blocks either
sets `isValid = false` or leaves it, so the returned flag is the conjunction of the
three outcomes; each outcome is paired with the error text that the block sets.  A text
that `parseFloat` reads as `NaN` compares false with every number. -/
def validateForm (parseFloat : String → Option Rat) (form : RateForm) : Bool × RateForm :=
  -- Validate buy rate
  let buyRateValidation := validateAmount parseFloat form.buyRate
  let buy : Bool × String :=
    if ¬ buyRateValidation.isValid then (false, "Please enter a valid buy rate")
    else
      match parseFloat form.buyRate with
      | some buyRateNum =>
        if buyRateNum ≤ 0 ∨ buyRateNum > 1 then (false, "Buy rate must be between 0 and 1")
        else (true, "")
      | none => (true, "")
  -- Validate sell rate
  let sellRateValidation := validateAmount parseFloat form.sellRate
  let sell : Bool × String :=
    if ¬ sellRateValidation.isValid then (false, "Please enter a valid sell rate")
    else
      match parseFloat form.sellRate with
      | some sellRateNum =>
        if sellRateNum ≤ 0 ∨ sellRateNum > 1 then (false, "Sell rate must be between 0 and 1")
        else if (match parseFloat form.buyRate with
                 | some buyRateNum => decide (sellRateNum ≤ buyRateNum)
                 | none => false) then
          (false, "Sell rate must be higher than buy rate")
        else (true, "")
      | none => (true, "")
  -- Validate card selection
  let card : Bool × String :=
    if form.selectedCard = "" then (false, "Please select a gift card type")
    else (true, form.error)
  (buy.1 && sell.1 && card.1,
   { form with buyRateError := buy.2, sellRateError := sell.2, error := card.2 })

/-- Source function `processRateUpdate()`, the handler of the `Update` button of the
confirmation alert; `user` is the signed-in administrator.  The alert is only shown
after `validateForm` has accepted the form, when both texts parse; a text that does not
parse would store `NaN`, which a `Rate` does not hold, and the store is left as it is
there. -/
def processRateUpdate (parseFloat : String → Option Rat) (fault logFault : StoreFault)
    (user : Option String) (form : RateForm) (db : Store) : RateForm × Store :=
  match user with
  | none => ({ form with error := "An unexpected error occurred" }, db)
  | some uid =>
    match parseFloat form.buyRate, parseFloat form.sellRate with
    | some buyRate, some sellRate =>
      let rateData : RateData :=
        { buyRate := buyRate
          sellRate := sellRate
          status := form.status
          currency := some "NGN"
          updatedBy := some uid }
      let result := updateRate fault logFault db form.selectedCard rateData
      match result.2 with
      | .ok _ => (form, result.1)
      | .error e => ({ form with error := orStr e "Failed to update rate" }, result.1)
    | _, _ => (form, db)

/-- Source function `handleUpdateRate()` followed by the administrator's answer to the
confirmation alert (`confirm`: the `Update` button is pressed).  When `validateForm`
rejects, the function returns before the alert and `processRateUpdate` is never run. -/
def handleUpdateRate (parseFloat : String → Option Rat) (fault logFault : StoreFault)
    (confirm : Bool) (user : Option String) (form : RateForm) (db : Store) :
    RateForm × Store :=
  let form := { form with error := "" }
  let validation := validateForm parseFloat form
  if ¬ validation.1 then (validation.2, db)
  else if confirm then processRateUpdate parseFloat fault logFault user validation.2 db
  else (validation.2, db)

end RateManagementScreen

/-! ## `api/nubanApi.js` -/

namespace NubanAPI

/-- The code points that `Number` skips as white space (ECMAScript `StrWhiteSpaceChar`). -/
def isStrWhiteSpace (c : Char) : Bool :=
  c.toNat ∈ [0x9, 0xA, 0xB, 0xC, 0xD, 0x20, 0xA0, 0x1680, 0x2000, 0x2001, 0x2002, 0x2003,
    0x2004, 0x2005, 0x2006, 0x2007, 0x2008, 0x2009, 0x200A, 0x2028, 0x2029, 0x202F, 0x205F,
    0x3000, 0xFEFF]

/-- JavaScript `Number(c)` on a one-character string: the value of a decimal digit, `0`
for a white-space character, otherwise `NaN` (`none`). -/
def Number (c : Char) : Option Nat :=
  if c.isDigit then some (c.toNat - 48)
  else if isStrWhiteSpace c then some 0
  else none

/-- The array `accountNumber.split('').map(Number)`: one entry per UTF-16 code unit, a
character outside the basic plane giving two surrogates, each `NaN`. -/
def digits (accountNumber : String) : List (Option Nat) :=
  accountNumber.toList.flatMap (fun c => if c.toNat > 0xFFFF then [none, none] else [Number c])

/-- The array `weights` of `validateNubanAlgorithm`. -/
def weights : List Nat := [3, 7, 3, 3, 7, 3, 3, 7, 3]

/-- The value of `sum` after the loop of `validateNubanAlgorithm`; a missing or `NaN`
entry among the first nine makes the sum `NaN` (`none`). -/
def weightedSum (digits : List (Option Nat)) : Option Nat :=
  (List.range 9).foldl
    (fun sum i =>
      match sum, (digits.get? i).join with
      | some acc, some d => some (acc + d * weights.getD i 0)
      | _, _ => none)
    (some 0)

/-- The `calculatedCheckDigit` of `validateNubanAlgorithm` for a numeric `sum`. -/
def calculatedCheckDigit (sum : Nat) : Nat :=
  let remainder := sum % 10
  if remainder = 0 then 0 else 10 - remainder

/-- Source function `NubanAPI.validateNubanAlgorithm(accountNumber)` on a string.  With a
`NaN` sum the computed digit is `NaN`, which is strictly equal to nothing. -/
def validateNubanAlgorithm (accountNumber : String) : Bool :=
  let digits := digits accountNumber
  let checkDigit := (digits.get? 9).join
  match weightedSum digits, checkDigit with
  | some sum, some checkDigit => calculatedCheckDigit sum == checkDigit
  | _, _ => false

/-- The `data` of a successful `NubanAPI.validateAccountNumber`. -/
structure AccountNumberValidation where
  accountNumber : String
  isValid : Bool
  message : String
deriving DecidableEq, Repr

/-- Source function `NubanAPI.validateAccountNumber(accountNumber)`. -/
def validateAccountNumber (accountNumber : String) : Except String AccountNumberValidation :=
  if accountNumber = "" then .error "Account number is required"
  else if ¬ (accountNumber.length = 10 ∧ accountNumber.toList.all Char.isDigit) then
    .error "Account number must be 10 digits"
  else
    let isValid := validateNubanAlgorithm accountNumber
    .ok { accountNumber := accountNumber
          isValid := isValid
          message := if isValid then "Valid account number format"
                     else "Invalid account number format" }

/-- The digit `d_i` of an account number: the value of its character at position `i`. -/
def digitAt (accountNumber : String) (i : Nat) : Nat :=
  (accountNumber.toList.getD i '0').toNat - 48

end NubanAPI

/-! ## `context/AuthContext.js`: profile updates -/

/-- Source function `loadUserProfile(userId)`: a rejected read is caught and logged. -/
def loadUserProfile (fault : StoreFault) (s : AuthState) (userId : String) : AuthState :=
  match fault with
  | some _ => s
  | none =>
    match getDoc s.db.users userId with
    | some data => { s with userProfile := some data }
    | none => s

/-- Source function `updateUserProfile(updates)` for `updates` without a `displayName`;
`updates` is given as the merge of the written fields into a profile.  `fault` is the
outcome of the write, `readFault` that of the reload of the profile. -/
def updateUserProfile (fault readFault : StoreFault) (s : AuthState)
    (updates : UserProfile → UserProfile) : AuthState × Except String Unit :=
  match s.user with
  | none => (s, .error "No user logged in")
  | some uid =>
    match fault with
    | some msg => (s, .error msg)
    | none =>
      match updateDoc s.db.users uid updates with
      | none => (s, .error notFound)
      | some users =>
        -- Reload profile
        (loadUserProfile readFault { s with db := { s.db with users := users } } uid, .ok ())

/-! ## `screens/UploadIDScreen.js` -/

/-- JavaScript truthiness of `userProfile?.referredBy`. -/
def wasReferred (userProfile : Option UserProfile) : Bool :=
  match userProfile.bind (fun p => p.referredBy) with
  | some referrer => decide (referrer ≠ "")
  | none => false

/-- The message that the `catch` block of `handleSubmitKYC` sets. -/
def kycSubmitError : String := "Failed to submit KYC documents. Please try again."

/-- Source function `handleSubmitKYC()` followed by the user's answer to the success
alert.  The function `completeReferralBonus` is the one handed out by `useAuth()`.
`valid` is the result of the screen's `validateForm()`, `uploadOk` says whether the
image uploads completed, `newId` is the id generated for the new submission, `addFault`
is the outcome of its write, `updFault` and `readFault` are the outcomes of the store
calls of `updateUserProfile`, and `pressOk` says whether the `OK` button of the alert
is pressed.  The result is the state and the error message set, if any. -/
def handleSubmitKYC (completeReferralBonus : Store → String → Store) (valid uploadOk : Bool)
    (newId : String) (addFault updFault readFault : StoreFault) (pressOk : Bool)
    (idType idNumber : String) (s : AuthState) : AuthState × Option String :=
  if ¬ valid then (s, none)
  else
    match s.user with
    | none => (s, some kycSubmitError)
    | some uid =>
      if ¬ uploadOk then (s, some kycSubmitError)
      else
        match addFault with
        | some _ => (s, some kycSubmitError)
        | none =>
          -- Create KYC submission document
          let kycData : KycSubmission :=
            { userId := uid, idType := idType, idNumber := idNumber.trim, status := "pending" }
          let s1 := { s with
            db := { s.db with kycSubmissions := addDoc s.db.kycSubmissions newId kycData } }
          -- Update user profile
          let s2 := (updateUserProfile updFault readFault s1
            (fun p => { p with kycStatus := "pending" })).1
          -- Check if user was referred and complete referral bonus
          if pressOk ∧ wasReferred s.userProfile then
            ({ s2 with db := completeReferralBonus s2.db uid }, none)
          else (s2, none)

/-! ## `screens/AdminDashboardScreen.js` -/

/-- Source function `handleGiftCardAction(submissionId, action, amount)`; `user` is the
signed-in administrator and `fault` the outcome of the write.  The result is the store
and the error message set, if any. -/
def handleGiftCardAction (fault : StoreFault) (user : Option String) (db : Store)
    (submissionId action : String) (amount : Rat) : Store × Option String :=
  match user with
  | none => (db, some ("Failed to " ++ action ++ " submission"))
  | some uid =>
    match fault with
    | some _ => (db, some ("Failed to " ++ action ++ " submission"))
    | none =>
      match updateDoc db.giftCardSubmissions submissionId (fun g =>
          { g with
              status := action
              reviewedBy := some uid
              approvedAmount :=
                if action = "approved" ∧ amount > 0 then some amount else g.approvedAmount }) with
      | none => (db, some ("Failed to " ++ action ++ " submission"))
      | some submissions => ({ db with giftCardSubmissions := submissions }, none)

/-- Source function `handleKycAction(kycId, action, reason)`; `user` is the signed-in
administrator, `fault` the outcome of the write to the submission and `userFault` that
of the write to the profile.  The result is the store and the error message set, if
any. -/
def handleKycAction (fault userFault : StoreFault) (user : Option String) (db : Store)
    (kycId action : String) (reason : Option String) : Store × Option String :=
  match user with
  | none => (db, some ("Failed to " ++ action ++ " KYC submission"))
  | some uid =>
    match fault with
    | some _ => (db, some ("Failed to " ++ action ++ " KYC submission"))
    | none =>
      match updateDoc db.kycSubmissions kycId (fun k =>
          { k with
              status := action
              reviewedBy := some uid
              rejectionReason :=
                if action = "rejected" ∧ reason.getD "" ≠ "" then reason
                else k.rejectionReason }) with
      | none => (db, some ("Failed to " ++ action ++ " KYC submission"))
      | some submissions =>
        let db1 := { db with kycSubmissions := submissions }
        -- Update user profile
        if action = "approved" then
          match userFault with
          | some _ => (db1, some ("Failed to " ++ action ++ " KYC submission"))
          | none =>
            match updateDoc db1.users kycId (fun p => { p with kycStatus := "approved" }) with
            | none => (db1, some ("Failed to " ++ action ++ " KYC submission"))
            | some users => ({ db1 with users := users }, none)
        else (db1, none)

/-! ## Repeated settlement calls -/

/-- The store after a run of settlement calls for `referredUserId`, one call for each
entry of `calls` (the entry says which store call of that call is rejected, if any);
`settle` is `completeReferralBonus` or its body. -/
def settleRepeatedly (settle : Option Nat → Store → String → Store)
    (calls : List (Option Nat)) (db : Store) (referredUserId : String) : Store :=
  calls.foldl (fun d failAt => settle failAt d referredUserId) db

/-! ## `api/rates.js`: default rates -/

/-- The array `GIFT_CARD_TYPES` of `utils/constants.js`. -/
def GIFT_CARD_TYPES : List String :=
  ["Amazon", "iTunes", "Google Play", "Steam", "PlayStation", "Xbox", "Walmart", "Target",
   "Best Buy", "eBay"]

/-- The table `defaultRates` of `initializeDefaultRates`, in the order of its keys. -/
def defaultRates : List (String × RateData) :=
  [("Amazon", { buyRate := 0.82, sellRate := 0.85, currency := some "NGN", status := "active" }),
   ("iTunes", { buyRate := 0.80, sellRate := 0.83, currency := some "NGN", status := "active" }),
   ("Google Play",
     { buyRate := 0.78, sellRate := 0.81, currency := some "NGN", status := "active" }),
   ("Steam", { buyRate := 0.75, sellRate := 0.78, currency := some "NGN", status := "active" }),
   ("PlayStation",
     { buyRate := 0.77, sellRate := 0.80, currency := some "NGN", status := "active" }),
   ("Xbox", { buyRate := 0.76, sellRate := 0.79, currency := some "NGN", status := "active" }),
   ("Walmart", { buyRate := 0.74, sellRate := 0.77, currency := some "NGN", status := "active" }),
   ("Target", { buyRate := 0.73, sellRate := 0.76, currency := some "NGN", status := "active" }),
   ("Best Buy", { buyRate := 0.72, sellRate := 0.75, currency := some "NGN", status := "active" }),
   ("eBay", { buyRate := 0.71, sellRate := 0.74, currency := some "NGN", status := "active" })]

/-- What the environment decides for the promise of one card type in
`initializeDefaultRates`: the outcome of its `updateDoc`, the outcome of its `addDoc`,
and the document id that Firestore generates for the added document. -/
structure RateWrite where
  updateFault : StoreFault
  addFault : StoreFault
  newId : String
deriving DecidableEq, Repr

/-- One promise of `initializeDefaultRates`: `updateDoc(rateRef, { ...rateData, .. })` on
the document named after the card type and, when that rejects,
`addDoc(collection(db, ratesCollection), { cardType, ...rateData, .. })`.  A rejected
`addDoc` rejects the promise and leaves the collection as it was. -/
def initializeRate (w : RateWrite) (rates : List (String × Rate)) (cardType : String)
    (rateData : RateData) : List (String × Rate) :=
  let updated : Option (List (String × Rate)) :=
    match w.updateFault with
    | some _ => none
    | none =>
      updateDoc rates cardType (fun r =>
        { r with
            buyRate := rateData.buyRate
            sellRate := rateData.sellRate
            currency := match rateData.currency with
              | some c => some c
              | none => r.currency
            status := rateData.status })
  match updated with
  | some rates => rates
  | none =>
    -- If document doesn't exist, create it
    match w.addFault with
    | some _ => rates
    | none =>
      addDoc rates w.newId
        { buyRate := rateData.buyRate
          sellRate := rateData.sellRate
          currency := rateData.currency
          status := rateData.status
          cardType := some cardType }

/-- Source function `RatesAPI.initializeDefaultRates()`; `writes` gives the outcomes of
the store calls of each card type.  The ten promises write ten different documents (the
one named after the card type, or a newly generated one), so the collection they leave
does not depend on the order in which they complete; they are run in the order of the
table.  A rejection that reaches `Promise.all` is caught and logged.  Nothing is
returned: the result is the store. -/
def initializeDefaultRates (writes : String → RateWrite) (db : Store) : Store :=
  { db with
      giftCardRates := defaultRates.foldl
        (fun rates entry => initializeRate (writes entry.1) rates entry.1 entry.2)
        db.giftCardRates }

/-- What the environment decides for one run of the body of `getCurrentRates`: the
outcome of its `getDocs` and the outcomes of the writes of `initializeDefaultRates`,
should that be called. -/
structure RatesRound where
  readFault : StoreFault
  writes : String → RateWrite

/-- Source function `RatesAPI.getCurrentRates()`.  The function calls itself after
`initializeDefaultRates()`; `fuel` bounds the number of runs of its body, `round` counts
them, and `env round` holds the outcomes of the store calls of run `round`.  The value
is `none` when `fuel` runs of the body have ended in a further call; otherwise it is
the store together with the returned result (`data` maps document ids to documents). -/
def getCurrentRates (fuel : Nat) (env : Nat → RatesRound) (round : Nat) (db : Store) :
    Option (Store × Except String (List (String × Rate))) :=
  match fuel with
  | 0 => none
  | fuel + 1 =>
    match (env round).readFault with
    | some msg => some (db, .error (orStr msg "Failed to fetch rates"))
    | none =>
      let rates := db.giftCardRates
      -- If no rates exist, create default rates
      if rates.length = 0 then
        getCurrentRates fuel env (round + 1) (initializeDefaultRates (env round).writes db)
      else some (db, .ok rates)

/-! ## `utils/validateInput.js`: referral codes -/

/-- JavaScript `s.charAt(i)` on ASCII text: the one-character string at position `i`, the
empty string when `i` is out of range. -/
def charAt (s : String) (i : Int) : String :=
  if 0 ≤ i ∧ i < s.length then ⟨[s.toList.getD i.toNat ' ']⟩ else ""

/-- JavaScript `s.slice(-n)` on text of the basic plane: the last `n` characters of `s`,
all of `s` when it is shorter. -/
def sliceLast (s : String) (n : Nat) : String := ⟨s.toList.drop (s.length - n)⟩

/-- JavaScript `s.toUpperCase()` on ASCII text: the letters `a` to `z` become `A` to
`Z`, every other ASCII character stays.  (Characters beyond ASCII, which JavaScript maps
by the Unicode tables, are left as they are.) -/
def toUpperCase (s : String) : String := ⟨s.toList.map Char.toUpper⟩

/-- Source function `validateReferralCode(code)`: the text must match
`/^[A-Z0-9]{6,8}$/`. -/
def validateReferralCode (code : String) : Validation :=
  if code = "" then { isValid := false, error := some "Referral code is required" }
  else if ¬ (6 ≤ code.length ∧ code.length ≤ 8 ∧
      code.toList.all (fun c => c.isUpper || c.isDigit)) then
    { isValid := false, error := some "Invalid referral code format" }
  else { isValid := true, error := none }

/-- Source function `generateReferralCode(userId)`; `random i` is the value of the call
of `Math.random()` in round `i` of the loop, a number from 0 up to but not including
1. -/
def generateReferralCode (random : Nat → Rat) (userId : String) : String :=
  let chars := "ABCDEFGHIJKLMNOPQRSTUVWXYZ0123456789"
  let result := (List.range 6).foldl
    (fun result i => result ++ charAt chars ⌊random i * chars.length⌋) ""
  result ++ toUpperCase (sliceLast userId 2)

/-! ## `context/AuthContext.js`: registration -/

/-- The collection after `setDoc(doc(db, collection, id), data)`: the document `id` is
created, or replaced when it exists. -/
def setDoc {α : Type} (coll : List (String × α)) (id : String) (data : α) :
    List (String × α) :=
  match coll with
  | [] => [(id, data)]
  | (k, v) :: rest => if k = id then (k, data) :: rest else (k, v) :: setDoc rest id data

/-- The message of the `ReferenceError` for a name that does not resolve (its wording is
the engine's; no caller reads it). -/
def referenceError (name : String) : String := name ++ " is not defined"

/-- The `try` block of `processReferral(referralCode, newUserId)` as it runs once the
names `getDocs`, `query` and `where` resolve: `queryFault` is the outcome of the query
for the owner of the code, `addFault` that of the write of the referral record and
`newId` the id generated for that record.  The result is the store and `referrerId` on
success, the error message on failure. -/
def processReferralBody (queryFault addFault : StoreFault) (newId : String) (db : Store)
    (referralCode newUserId : String) : Store × Except String String :=
  match queryFault with
  | some msg => (db, .error msg)
  | none =>
    -- Find user with this referral code
    match db.users.filter (fun u => u.2.referralCode = referralCode) with
    | [] => (db, .error "Invalid referral code")
    | (referrerId, _) :: _ =>
      -- Create referral record
      match addFault with
      | some msg => (db, .error msg)
      | none =>
        ({ db with
            referrals := addDoc db.referrals newId
              { referrerId := referrerId
                referredUserId := newUserId
                referralCode := referralCode
                status := "pending"
                bonusAmount := REFERRAL_BONUS } },
         .ok referrerId)

/-- Source function `processReferral(referralCode, newUserId)`.  Like
`completeReferralBonus` it starts with `getDocs(query(.., where(..)))`, names that the
module does not import: the call throws a `ReferenceError`, which the `catch` block
turns into a failure result. -/
def processReferral (queryFault addFault : StoreFault) (newId : String) (db : Store)
    (referralCode newUserId : String) : Store × Except String String :=
  if "getDocs" ∈ firestoreImports ∧ "query" ∈ firestoreImports ∧ "where" ∈ firestoreImports then
    processReferralBody queryFault addFault newId db referralCode newUserId
  else (db, .error (referenceError "getDocs"))

/-- Source function `register(email, password, referralCode)`.  `created` is the outcome
of `createUserWithEmailAndPassword` (the `uid` of the new account, or the message of
the error), `random` gives the values of `Math.random()`, `queryFault`, `addFault` and
`referralId` belong to `processReferral`, and `setFault` is the outcome of the write of
the profile.  Once the account exists the listener of `onAuthStateChanged` sets `user`.
The result is the state and the `uid` on success, the error message on failure. -/
def register (random : Nat → Rat) (created : Except String String)
    (queryFault addFault : StoreFault) (referralId : String) (setFault : StoreFault)
    (s : AuthState) (referralCode : Option String) : AuthState × Except String String :=
  match created with
  | .error msg => (s, .error msg)
  | .ok uid =>
    -- Generate unique referral code for new user
    let newUserReferralCode := generateReferralCode random uid
    -- Create user profile
    let userProfile : UserProfile :=
      { uid := uid
        walletBalance := some 0
        loyaltyTier := some "BRONZE"
        transactionCount := some 0
        kycStatus := "pending"
        referralCode := newUserReferralCode
        referredBy := none
        referralEarnings := some 0
        totalReferrals := some 0 }
    -- Handle referral if provided
    let referred : Store × Option String :=
      if referralCode.getD "" ≠ "" then
        let referralResult :=
          processReferral queryFault addFault referralId s.db (referralCode.getD "") uid
        match referralResult.2 with
        | .ok referrerId => (referralResult.1, some referrerId)
        | .error _ => (referralResult.1, none)
      else (s.db, none)
    let userProfile : UserProfile :=
      match referred.2 with
      | some referrerId => { userProfile with referredBy := some referrerId }
      | none => userProfile
    -- Save user profile to Firestore
    match setFault with
    | some msg => ({ s with user := some uid, db := referred.1 }, .error msg)
    | none =>
      ({ user := some uid
         userProfile := some userProfile
         db := { referred.1 with users := setDoc referred.1.users uid userProfile } },
       .ok uid)

/-! ## `screens/ProfileScreen.js` -/

/-- The component state `referralStats` of `ProfileScreen`. -/
structure ReferralStats where
  totalReferrals : Nat
  pendingReferrals : Nat
  completedReferrals : Nat
  totalEarnings : Rat
deriving DecidableEq, Repr

/-- Source function `loadReferralStats()` for the signed-in user `uid`: the new value of
`referralStats`, given its value `stats` before the call; a rejected query (`fault`) is
caught and leaves the value. -/
def loadReferralStats (fault : StoreFault) (db : Store) (uid : String) (stats : ReferralStats) :
    ReferralStats :=
  match fault with
  | some _ => stats
  | none =>
    let snapshot := db.referrals.filter (fun r => r.2.referrerId = uid)
    snapshot.foldl
      (fun acc doc =>
        let data := doc.2
        let acc := { acc with totalReferrals := acc.totalReferrals + 1 }
        if data.status = "pending" then
          { acc with pendingReferrals := acc.pendingReferrals + 1 }
        else if data.status = "completed" then
          { acc with
              completedReferrals := acc.completedReferrals + 1
              totalEarnings := acc.totalEarnings + data.bonusAmount }
        else acc)
      { totalReferrals := 0, pendingReferrals := 0, completedReferrals := 0, totalEarnings := 0 }

/-! ## Sequential runs of profile operations -/

/-- One call of `AuthContext` that writes to a profile once it is registered, with the
outcome of its store calls. -/
inductive ProfileOp where
  | completeReferralBonus (failAt : Option Nat) (referredUserId : String)
  | updateWalletBalance (fault : StoreFault) (amount : Option Rat) (type : String)
  | updateLoyaltyTier (fault : StoreFault)
deriving Repr

/-- The state after one call. -/
def applyProfileOp (s : AuthState) (op : ProfileOp) : AuthState :=
  match op with
  | .completeReferralBonus failAt referredUserId =>
    { s with db := completeReferralBonus failAt s.db referredUserId }
  | .updateWalletBalance fault amount type => (updateWalletBalance fault s amount type).1
  | .updateLoyaltyTier fault => updateLoyaltyTier fault s

/-- The state after a sequential run of calls. -/
def runProfileOps (s : AuthState) (ops : List ProfileOp) : AuthState :=
  ops.foldl applyProfileOp s

/-- The referral statistics of the stored profiles are consistent: every profile has
`referralEarnings = REFERRAL_BONUS * totalReferrals`, and its `totalReferrals` is the
number of completed referrals that `loadReferralStats` counts for it. -/
def ReferralStatsConsistent (db : Store) : Prop :=
  ∀ uid p, getDoc db.users uid = some p →
    orZero p.referralEarnings = REFERRAL_BONUS * orZero p.totalReferrals ∧
    orZero p.totalReferrals
      = ((loadReferralStats none db uid
          { totalReferrals := 0, pendingReferrals := 0, completedReferrals := 0,
            totalEarnings := 0 }).completedReferrals : Rat)

/-! ## `screens/GiftCardScreen.js` -/

/-- The component state of `GiftCardScreen` that validation uses; an image is given by
its location. -/
structure GiftCardForm where
  selectedCardType : String
  cardValue : String
  frontImage : Option String
  backImage : Option String
  error : String
  cardValueError : String
deriving DecidableEq, Repr

namespace GiftCardScreen

/-- Source function `validateForm()` of `GiftCardScreen`: the returned `isValid` and the
form with the error fields as set by the call.  Each of the four blocks either sets
`isValid = false` or leaves it, so the returned flag is the conjunction of the four
outcomes; of the calls of `setError` the last one decides the text. -/
def validateForm (parseFloat : String → Option Rat) (form : GiftCardForm) :
    Bool × GiftCardForm :=
  -- Validate card value
  let amountValidation := validateAmount parseFloat form.cardValue
  let value : Bool × String :=
    if ¬ amountValidation.isValid then (false, amountValidation.error.getD "")
    else (true, "")
  -- Validate card type
  let card : Bool × String :=
    if form.selectedCardType = "" then (false, "Please select a gift card type")
    else (true, form.error)
  -- Validate images
  let front : Bool × String :=
    if form.frontImage = none then (false, "Please upload the front image of your gift card")
    else (true, card.2)
  let back : Bool × String :=
    if form.backImage = none then (false, "Please upload the back image of your gift card")
    else (true, front.2)
  (value.1 && card.1 && front.1 && back.1,
   { form with cardValueError := value.2, error := back.2 })

end GiftCardScreen

/-! ## `context/AuthContext.js`: sessions -/

/-- Source function `login(email, password)`; `signedIn` is the outcome of
`signInWithEmailAndPassword` (the `uid` of the account, or the message of the error) and
`fault` that of the read of the profile.  Once the user is signed in the listener of
`onAuthStateChanged` sets `user`. -/
def login (signedIn : Except String String) (fault : StoreFault) (s : AuthState) :
    AuthState × Except String String :=
  match signedIn with
  | .error msg => (s, .error msg)
  | .ok uid => (loadUserProfile fault { s with user := some uid } uid, .ok uid)

/-- Source function `logout()`; `fault` is the outcome of `signOut`. -/
def logout (fault : Option String) (s : AuthState) : AuthState × Except String Unit :=
  match fault with
  | some msg => (s, .error msg)
  | none => ({ s with user := none, userProfile := none }, .ok ())

/-! ## Runs of the application -/

/-- One call of the application that writes to the store or to the session, with the
outcomes that the environment decides for it.  The administrator of `handleKycAction`
and of `handleGiftCardAction` is signed in on a session of their own and is given with
the call. -/
inductive AppOp where
  | register (random : Nat → Rat) (created : Except String String)
      (queryFault addFault : StoreFault) (referralId : String) (setFault : StoreFault)
      (referralCode : Option String)
  | login (signedIn : Except String String) (fault : StoreFault)
  | logout (fault : Option String)
  | handleSubmitKYC (failAt : Option Nat) (valid uploadOk : Bool) (newId : String)
      (addFault updFault readFault : StoreFault) (pressOk : Bool) (idType idNumber : String)
  | handleKycAction (fault userFault : StoreFault) (admin : Option String)
      (kycId action : String) (reason : Option String)
  | handleGiftCardAction (fault : StoreFault) (admin : Option String)
      (submissionId action : String) (amount : Rat)
  | completeReferralBonus (failAt : Option Nat) (referredUserId : String)
  | updateWalletBalance (fault : StoreFault) (amount : Option Rat) (type : String)
  | updateLoyaltyTier (fault : StoreFault)
  | updateUserProfile (fault readFault : StoreFault) (updates : UserProfile → UserProfile)
  | processWithdrawal (parseFloat : String → Option Rat) (transfer : Except String Unit)
      (fault : StoreFault) (form : WithdrawForm)
  | updateRate (fault logFault : StoreFault) (cardType : String) (rateData : RateData)
  | initializeDefaultRates (writes : String → RateWrite)

/-- The state after one call. -/
def applyAppOp (s : AuthState) (op : AppOp) : AuthState :=
  match op with
  | .register random created queryFault addFault referralId setFault referralCode =>
    (register random created queryFault addFault referralId setFault s referralCode).1
  | .login signedIn fault => (login signedIn fault s).1
  | .logout fault => (logout fault s).1
  | .handleSubmitKYC failAt valid uploadOk newId addFault updFault readFault pressOk idType
      idNumber =>
    (handleSubmitKYC (completeReferralBonus failAt) valid uploadOk newId addFault updFault
      readFault pressOk idType idNumber s).1
  | .handleKycAction fault userFault admin kycId action reason =>
    { s with db := (handleKycAction fault userFault admin s.db kycId action reason).1 }
  | .handleGiftCardAction fault admin submissionId action amount =>
    { s with db := (handleGiftCardAction fault admin s.db submissionId action amount).1 }
  | .completeReferralBonus failAt referredUserId =>
    { s with db := completeReferralBonus failAt s.db referredUserId }
  | .updateWalletBalance fault amount type => (updateWalletBalance fault s amount type).1
  | .updateLoyaltyTier fault => updateLoyaltyTier fault s
  | .updateUserProfile fault readFault updates =>
    (updateUserProfile fault readFault s updates).1
  | .processWithdrawal parseFloat transfer fault form =>
    (processWithdrawal parseFloat transfer fault form s).auth
  | .updateRate fault logFault cardType rateData =>
    { s with db := (updateRate fault logFault s.db cardType rateData).1 }
  | .initializeDefaultRates writes => { s with db := initializeDefaultRates writes s.db }

/-- The state after a sequential run of calls. -/
def runAppOps (s : AuthState) (ops : List AppOp) : AuthState :=
  ops.foldl applyAppOp s

/-! ## Sample data -/

/-- The default rate record of the card type `Amazon`. -/
def amazonRate : Rate :=
  { buyRate := 0.82, sellRate := 0.85, currency := some "NGN", status := "active" }

/-- A store that holds the `Amazon` rate record. -/
def sampleRates : Store := { giftCardRates := [("Amazon", amazonRate)] }

/-- A profile of user `u1` with wallet balance `b`, as `register` creates it. -/
def sampleProfile (b : Rat) : UserProfile :=
  { uid := "u1"
    walletBalance := some b
    loyaltyTier := some "BRONZE"
    transactionCount := some 0
    kycStatus := "pending"
    referralCode := "ABCDEFU1"
    referredBy := none
    referralEarnings := some 0
    totalReferrals := some 0 }

/-- User `u1` signed in with wallet balance `b`, the stored profile equal to the local
one. -/
def sampleState (b : Rat) : AuthState :=
  { user := some "u1"
    userProfile := some (sampleProfile b)
    db := { users := [("u1", sampleProfile b)] } }

/-! ## Sequential runs of wallet operations -/

/-- One wallet-affecting call of `AuthContext`, with the outcome of its store calls; the
amount is `none` for `NaN`. -/
inductive WalletOp where
  | updateWalletBalance (fault : StoreFault) (amount : Option Rat) (type : String)
  | completeReferralBonus (failAt : Option Nat) (referredUserId : String)
deriving Repr

/-- The state after one call. -/
def applyWalletOp (s : AuthState) (op : WalletOp) : AuthState :=
  match op with
  | .updateWalletBalance fault amount type => (updateWalletBalance fault s amount type).1
  | .completeReferralBonus failAt referredUserId =>
    { s with db := completeReferralBonus failAt s.db referredUserId }

/-- The amount of a wallet call is a number, not `NaN`; a settlement call has no
amount. -/
def hasNumericAmount (op : WalletOp) : Bool :=
  match op with
  | .updateWalletBalance _ amount _ => amount.isSome
  | .completeReferralBonus _ _ => true

/-- The state after a sequential run of calls. -/
def runWalletOps (s : AuthState) (ops : List WalletOp) : AuthState :=
  ops.foldl applyWalletOp s

/-- A wallet balance field holds a number that is not negative. -/
def NonnegBalance (w : Option Rat) : Prop := ∃ b, w = some b ∧ 0 ≤ b

/-- Every stored profile has a non-negative wallet balance. -/
def WalletsNonneg (db : Store) : Prop :=
  ∀ id p, (id, p) ∈ db.users → NonnegBalance p.walletBalance

/-- A store with user `u1` (wallet balance `b`) and a pending referral of user `u2` by
`u1`. -/
def referralStore (b : Rat) : Store :=
  { users := [("u1", sampleProfile b)]
    referrals := [("r1", { referrerId := "u1"
                           referredUserId := "u2"
                           referralCode := "ABCDEFU1"
                           status := "pending"
                           bonusAmount := REFERRAL_BONUS })] }

/-- User `u1` signed in on `referralStore b`. -/
def referralState (b : Rat) : AuthState :=
  { user := some "u1", userProfile := some (sampleProfile b), db := referralStore b }

/-- Two debits of 60 that have both been called on the state `s`. -/
def twoDebits (s : AuthState) : TwoCalls :=
  { state := s
    first := .called (some 60) "subtract"
    second := .called (some 60) "subtract" }

/-- What holds at every point of every interleaving of two debits of 60 by user `u`
against a balance of 100: the stored and the local balance are 100 or 40, each call
is at one of its five possible points, the local balance is 40 only after a call has
returned successfully, and a call has failed only after the other one has returned
successfully. -/
def DebitInv (u : String) (t : TwoCalls) : Prop :=
  t.state.user = some u ∧
  (∃ p, t.state.userProfile = some p ∧
    (p.walletBalance = some 100 ∨ p.walletBalance = some 40) ∧
    (p.walletBalance = some 40 →
      t.first = .returned (.ok (some 40)) ∨ t.second = .returned (.ok (some 40)))) ∧
  (∃ d, getDoc t.state.db.users u = some d ∧
    (d.walletBalance = some 100 ∨ d.walletBalance = some 40)) ∧
  (t.first = .called (some 60) "subtract" ∨ t.first = .issued u (some 40) ∨
    t.first = .written (some 40) ∨ t.first = .returned (.ok (some 40)) ∨
    (t.first = .returned (.error "Insufficient wallet balance") ∧
      t.second = .returned (.ok (some 40)))) ∧
  (t.second = .called (some 60) "subtract" ∨ t.second = .issued u (some 40) ∨
    t.second = .written (some 40) ∨ t.second = .returned (.ok (some 40)) ∨
    (t.second = .returned (.error "Insufficient wallet balance") ∧
      t.first = .returned (.ok (some 40))))

/-- A stand-in for `parseFloat` that reads the text `1000`. -/
def sampleParseFloat (text : String) : Option Rat := if text = "1000" then some 1000 else none

/-- A filled-in withdrawal form: amount 1000, transfer fee 50, a verified account. -/
def sampleForm : WithdrawForm :=
  { amount := "1000"
    accountNumber := "0123456789"
    selectedBank := "044"
    accountName := "Ada Obi"
    transferFee := 50
    accountVerified := true
    error := ""
    amountError := ""
    accountError := "" }

/-- A profile of user `u2`, who registered with the referral code of `u1` and has not
had an identity check yet. -/
def referredProfile : UserProfile :=
  { uid := "u2"
    walletBalance := some 0
    loyaltyTier := some "BRONZE"
    transactionCount := some 0
    kycStatus := "pending"
    referralCode := "GHIJKLU2"
    referredBy := some "u1"
    referralEarnings := some 0
    totalReferrals := some 0 }

/-- User `u2` signed in; the store holds `u1` (wallet balance 100), `u2` and the pending
referral `r1` of `u2` by `u1`. -/
def kycReferralState : AuthState :=
  { user := some "u2"
    userProfile := some referredProfile
    db := { referralStore 100 with
      users := [("u1", sampleProfile 100), ("u2", referredProfile)] } }

/-- A rate-update form with the buy rate 0.82 and the sell rate 0.85 for `Amazon`. -/
def sampleRateForm : RateForm :=
  { selectedCard := "Amazon"
    buyRate := "0.82"
    sellRate := "0.85"
    status := "active"
    error := ""
    buyRateError := ""
    sellRateError := "" }

/-- A stand-in for `parseFloat` that reads the texts of the rates used in the samples. -/
def rateParseFloat (text : String) : Option Rat :=
  if text = "0.82" then some 0.82
  else if text = "0.85" then some 0.85
  else if text = "0.80" then some 0.80
  else none

/-- A pending gift-card submission of user `u1`: an `Amazon` card of 100, calculated at
82. -/
def sampleSubmission : GiftCardSubmission :=
  { userId := "u1"
    cardType := "Amazon"
    cardValue := 100
    calculatedAmount := 82
    status := "pending" }

/-- A store with user `u1` (wallet balance 100) and the pending submission `g1`. -/
def giftCardStore : Store :=
  { users := [("u1", sampleProfile 100)]
    giftCardSubmissions := [("g1", sampleSubmission)] }

/-- A store whose `Amazon` rate record has been set to `inactive`. -/
def inactiveRates : Store :=
  { giftCardRates := [("Amazon", { amazonRate with status := "inactive" })] }

/-- A store that holds the `Amazon` rate record with another sell rate and status, next
to a user and a submission. -/
def otherRates : Store :=
  { giftCardStore with
      giftCardRates := [("Amazon", { amazonRate with sellRate := 0.9, status := "inactive" })] }

/-- A stand-in for `parseFloat` that reads the texts `100` and `-100`. -/
def giftCardParseFloat (text : String) : Option Rat :=
  if text = "100" then some 100
  else if text = "-100" then some (-100)
  else none

/-- A filled-in gift-card form for an `Amazon` card with the value text `cardValue`. -/
def sampleGiftCardForm (cardValue : String) : GiftCardForm :=
  { selectedCardType := "Amazon"
    cardValue := cardValue
    frontImage := some "front.jpg"
    backImage := some "back.jpg"
    error := ""
    cardValueError := "" }

/-- Store outcomes under which every write of `initializeDefaultRates` completes; the
document added for the card type `t` gets the id `auto:t`. -/
def acceptWrites (cardType : String) : RateWrite :=
  { updateFault := none, addFault := none, newId := "auto:" ++ cardType }

/-- Store outcomes under which every write is rejected, as for a signed-in user whom the
rules of the store do not allow to write rates. -/
def denyWrites (_ : String) : RateWrite :=
  { updateFault := some "permission-denied", addFault := some "permission-denied", newId := "" }

/-- Runs of `getCurrentRates` in which every read completes and every write is
rejected. -/
def denyRounds (_ : Nat) : RatesRound := { readFault := none, writes := denyWrites }

/-- Sample values of `Math.random()`: call `i` gives `i / 7`. -/
def sampleRandom (i : Nat) : Rat := i / 7

/-- Nobody signed in, on the store with user `u1` (wallet balance 100) and the pending
referral of `u2` by `u1`. -/
def signedOutState : AuthState :=
  { user := none, userProfile := none, db := referralStore 100 }

/-- The empty value of `referralStats`, the initial state of `ProfileScreen`. -/
def noReferralStats : ReferralStats :=
  { totalReferrals := 0, pendingReferrals := 0, completedReferrals := 0, totalEarnings := 0 }

/-- A run of the application on `kycReferralState`: the referred user `u2` submits the
identity documents and presses `OK`, the administrator approves the submission `k1`,
and a settlement is requested once more. -/
def sampleRun : List AppOp :=
  [.handleSubmitKYC none true true "k1" none none none true "nin" "12345678",
   .handleKycAction none none (some "admin") "k1" "approved" none,
   .completeReferralBonus none "u2"]

/-! ## Lemmas on the helpers -/

theorem toFixed_of_nonneg (x : Rat) (d : Nat) (hx : 0 ≤ x) :
    toFixed x d = ((⌊x * 10 ^ d + 1 / 2⌋ : Int) : Rat) / 10 ^ d := by
  unfold toFixed
  rw [if_neg (not_lt.mpr hx)]

/-- A value `n / 10^d` with `n` a natural number is left unchanged by `toFixed`. -/
theorem toFixed_of_scaled (n d : Nat) : toFixed ((n : Rat) / 10 ^ d) d = (n : Rat) / 10 ^ d := by
  have hpos : (0 : Rat) < 10 ^ d := by positivity
  rw [toFixed_of_nonneg _ _ (by positivity)]
  have h1 : (n : Rat) / 10 ^ d * 10 ^ d = ((n : Int) : Rat) := by
    field_simp
  rw [h1]
  have h2 : ⌊((n : Int) : Rat) + 1 / 2⌋ = (n : Int) := by
    rw [Int.floor_eq_iff]
    constructor <;> norm_num
  rw [h2]
  simp

/-- The value of `toFixed` on a non-negative number, from the two bounds that pin down
the rounded integer. -/
theorem toFixed_eq_of_bounds (x : Rat) (d : Nat) (n : Int) (hx : 0 ≤ x)
    (hlo : (n : Rat) ≤ x * 10 ^ d + 1 / 2) (hhi : x * 10 ^ d + 1 / 2 < (n : Rat) + 1) :
    toFixed x d = (n : Rat) / 10 ^ d := by
  rw [toFixed_of_nonneg x d hx]
  have h : ⌊x * 10 ^ d + 1 / 2⌋ = n := by
    rw [Int.floor_eq_iff]
    exact ⟨hlo, hhi⟩
  rw [h]

/-- The rounded value is a multiple of `10^-d` no further than half a unit of the last
place from the argument: `toFixed` rounds to the nearest decimal with `d` places. -/
theorem toFixed_nearest (x : Rat) (d : Nat) :
    (∃ n : Int, toFixed x d = (n : Rat) / 10 ^ d) ∧ |toFixed x d - x| ≤ 1 / (2 * 10 ^ d) := by
  have hpos : (0 : Rat) < 10 ^ d := by positivity
  have hscale : ∀ (n : Int) (y : Rat), |(n : Rat) - y| ≤ 1 / 2 →
      |((n : Rat) - y) / 10 ^ d| ≤ 1 / (2 * 10 ^ d) := by
    intro n y h
    rw [abs_div, abs_of_pos hpos, div_le_div_iff₀ hpos (by positivity)]
    calc |(n : Rat) - y| * (2 * 10 ^ d) ≤ 1 / 2 * (2 * 10 ^ d) := by gcongr
      _ = 1 * 10 ^ d := by ring
  unfold toFixed
  split_ifs with hneg
  · refine ⟨⟨-⌊-x * 10 ^ d + 1 / 2⌋, by push_cast; ring⟩, ?_⟩
    have h1 := Int.floor_le (-x * 10 ^ d + 1 / 2)
    have h2 := Int.lt_floor_add_one (-x * 10 ^ d + 1 / 2)
    have e : -((⌊-x * 10 ^ d + 1 / 2⌋ : Int) : Rat) / 10 ^ d - x
        = (((-⌊-x * 10 ^ d + 1 / 2⌋ : Int) : Rat) - x * 10 ^ d) / 10 ^ d := by
      push_cast
      field_simp
      ring
    rw [e]
    apply hscale
    rw [abs_le]
    push_cast
    constructor <;> linarith
  · refine ⟨⟨⌊x * 10 ^ d + 1 / 2⌋, rfl⟩, ?_⟩
    have h1 := Int.floor_le (x * 10 ^ d + 1 / 2)
    have h2 := Int.lt_floor_add_one (x * 10 ^ d + 1 / 2)
    have e : ((⌊x * 10 ^ d + 1 / 2⌋ : Int) : Rat) / 10 ^ d - x
        = (((⌊x * 10 ^ d + 1 / 2⌋ : Int) : Rat) - x * 10 ^ d) / 10 ^ d := by
      field_simp
      ring
    rw [e]
    apply hscale
    rw [abs_le]
    constructor <;> linarith

/-! ## Lemmas on double arithmetic -/

/-- The rounded integer, from the two bounds that pin it down. -/
theorem roundHalfEven_eq_of_lt (q : Rat) (n : Int) (h1 : (n : Rat) - 1 / 2 < q)
    (h2 : q < n + 1 / 2) : roundHalfEven q = n := by
  unfold roundHalfEven
  by_cases hq : (n : Rat) ≤ q
  · have hfloor : ⌊q⌋ = n := by
      rw [Int.floor_eq_iff]
      constructor <;> linarith
    simp only [hfloor]
    rw [if_pos (by linarith)]
  · have hfloor : ⌊q⌋ = n - 1 := by
      rw [Int.floor_eq_iff]
      push_cast
      constructor <;> linarith
    simp only [hfloor]
    push_cast
    rw [if_neg (by linarith), if_pos (by linarith)]
    ring

/-- Rounding to the nearest integer moves a number by at most one half. -/
theorem abs_roundHalfEven_sub_le (q : Rat) : |(roundHalfEven q : Rat) - q| ≤ 1 / 2 := by
  have h1 := Int.floor_le q
  have h2 := Int.lt_floor_add_one q
  unfold roundHalfEven
  simp only
  rw [abs_le]
  split_ifs with ha hb hc
  · constructor <;> linarith
  · push_cast
    constructor <;> linarith
  · constructor <;> linarith
  · push_cast
    constructor <;> linarith

/-- The exponent of the leading bit, from the two powers of two that enclose `x`. -/
theorem int_log_eq_of_bounds (x : Rat) (k : Int) (hlo : (2 : Rat) ^ k ≤ x)
    (hhi : x < 2 ^ (k + 1)) : Int.log 2 x = k := by
  have hpos : 0 < x := lt_of_lt_of_le (by positivity) hlo
  have h1 : k ≤ Int.log 2 x := (Int.zpow_le_iff_le_log (by norm_num) hpos).mp (by exact_mod_cast hlo)
  have h2 : Int.log 2 x < k + 1 := (Int.lt_zpow_iff_log_lt (by norm_num) hpos).mp (by exact_mod_cast hhi)
  omega

/-- The double nearest to `x`, from the exponent `k` of its leading bit and the two
bounds that pin down the rounded mantissa `n`. -/
theorem toDouble_eq_of_bounds (x : Rat) (k n : Int) (hk : -1022 ≤ k)
    (hlo : (2 : Rat) ^ k ≤ |x|) (hhi : |x| < 2 ^ (k + 1))
    (h1 : (n : Rat) - 1 / 2 < x / 2 ^ (k - 52)) (h2 : x / 2 ^ (k - 52) < n + 1 / 2) :
    toDouble x = n * 2 ^ (k - 52) := by
  unfold toDouble
  simp only
  rw [int_log_eq_of_bounds |x| k hlo hhi, max_eq_left hk, roundHalfEven_eq_of_lt _ n h1 h2]

/-- Rounding to the nearest double changes a number of magnitude `2 ^ -1022` or more by
at most the fraction `2 ^ -53` of it. -/
theorem toDouble_rel_error (x : Rat) (hx : 1 / 2 ^ 1022 ≤ |x|) :
    |toDouble x - x| ≤ |x| / 2 ^ 53 := by
  have hpos : 0 < |x| := lt_of_lt_of_le (by positivity) hx
  have hk : -1022 ≤ Int.log 2 |x| := by
    apply (Int.zpow_le_iff_le_log (by norm_num) hpos).mp
    have h : ((2 : ℕ) : Rat) ^ (-1022 : Int) = 1 / 2 ^ 1022 := by
      rw [zpow_neg, one_div]
      norm_cast
    rw [h]
    exact hx
  have hlog : ((2 : ℕ) : Rat) ^ Int.log 2 |x| ≤ |x| := Int.zpow_log_le_self (by norm_num) hpos
  unfold toDouble
  simp only
  rw [max_eq_left hk]
  generalize Int.log 2 |x| = k at hlog
  have h2 : (0 : Rat) < 2 ^ (k - 52) := by positivity
  have hround := abs_roundHalfEven_sub_le (x / 2 ^ (k - 52))
  have e : (roundHalfEven (x / 2 ^ (k - 52)) : Rat) * 2 ^ (k - 52) - x
      = ((roundHalfEven (x / 2 ^ (k - 52)) : Rat) - x / 2 ^ (k - 52)) * 2 ^ (k - 52) := by
    field_simp
  rw [e, abs_mul, abs_of_pos h2]
  have hk2 : (2 : Rat) ^ (k - 52) = 2 ^ k / 2 ^ 52 := by
    rw [zpow_sub₀ (by norm_num)]
    norm_cast
  have hlog2 : (2 : Rat) ^ k ≤ |x| := by exact_mod_cast hlog
  calc |(roundHalfEven (x / 2 ^ (k - 52)) : Rat) - x / 2 ^ (k - 52)| * 2 ^ (k - 52)
      ≤ 1 / 2 * 2 ^ (k - 52) := by gcongr
    _ = 2 ^ k / 2 ^ 53 := by
      rw [hk2]
      ring
    _ ≤ |x| / 2 ^ 53 := by gcongr

/-- A number within half of `x` of it has at least half its magnitude. -/
theorem abs_lower_of_near (x y A : Rat) (hA : A ≤ 3 / 2) (h : |y - x| ≤ (A - 1) * |x|) :
    |x| / 2 ≤ |y| := by
  have h1 : |x| - |y| ≤ |y - x| := by
    rw [abs_sub_comm y x]
    exact abs_sub_abs_le_abs_sub x y
  have h2 : (A - 1) * |x| ≤ 1 / 2 * |x| := by
    apply mul_le_mul_of_nonneg_right _ (abs_nonneg x)
    linarith
  linarith

/-- A number within `(A - 1) |x|` of `x` has at most `A` times its magnitude. -/
theorem abs_upper_of_near (x y A : Rat) (h : |y - x| ≤ (A - 1) * |x|) : |y| ≤ A * |x| := by
  have h1 : |y| - |x| ≤ |y - x| := abs_sub_abs_le_abs_sub y x
  linarith

/-- Rounding a number that is within the relative error `A - 1` of `x` gives a double
within the relative error `A * (1 + 2 ^ -53) - 1` of `x`. -/
theorem toDouble_near (x y A : Rat) (hA : A ≤ 3 / 2)
    (h : |y - x| ≤ (A - 1) * |x|) (hx : 1 / 2 ^ 1021 ≤ |x|) :
    |toDouble y - x| ≤ (A * (1 + 1 / 2 ^ 53) - 1) * |x| := by
  have hlow := abs_lower_of_near x y A hA h
  have hup := abs_upper_of_near x y A h
  have hy : 1 / 2 ^ 1022 ≤ |y| := by
    have : (1 : Rat) / 2 ^ 1022 = 1 / 2 ^ 1021 / 2 := by norm_num
    rw [this]
    linarith
  have hrel := toDouble_rel_error y hy
  have htri : |toDouble y - x| ≤ |toDouble y - y| + |y - x| := by
    have : toDouble y - x = (toDouble y - y) + (y - x) := by ring
    rw [this]
    exact abs_add _ _
  have h3 : |y| / 2 ^ 53 ≤ A * |x| / 2 ^ 53 := by gcongr
  calc |toDouble y - x| ≤ |toDouble y - y| + |y - x| := htri
    _ ≤ A * |x| / 2 ^ 53 + (A - 1) * |x| := by linarith
    _ = (A * (1 + 1 / 2 ^ 53) - 1) * |x| := by ring

/-- Relative errors of two factors combine to that of the product. -/
theorem mul_near (a b a0 b0 A B : Rat) (hA1 : 1 ≤ A) (hB1 : 1 ≤ B)
    (ha : |a - a0| ≤ (A - 1) * |a0|) (hb : |b - b0| ≤ (B - 1) * |b0|) :
    |a * b - a0 * b0| ≤ (A * B - 1) * |a0 * b0| := by
  have e : a * b - a0 * b0 = (a - a0) * b0 + a0 * (b - b0) + (a - a0) * (b - b0) := by ring
  have hA0 : 0 ≤ A - 1 := by linarith
  have hB0 : 0 ≤ B - 1 := by linarith
  have t1 : |(a - a0) * b0| ≤ (A - 1) * |a0| * |b0| := by
    rw [abs_mul]
    exact mul_le_mul_of_nonneg_right ha (abs_nonneg _)
  have t2 : |a0 * (b - b0)| ≤ |a0| * ((B - 1) * |b0|) := by
    rw [abs_mul]
    exact mul_le_mul_of_nonneg_left hb (abs_nonneg _)
  have t3 : |(a - a0) * (b - b0)| ≤ (A - 1) * |a0| * ((B - 1) * |b0|) := by
    rw [abs_mul]
    exact mul_le_mul ha hb (abs_nonneg _) (mul_nonneg hA0 (abs_nonneg _))
  rw [e, abs_mul a0 b0]
  calc |(a - a0) * b0 + a0 * (b - b0) + (a - a0) * (b - b0)|
      ≤ |(a - a0) * b0| + |a0 * (b - b0)| + |(a - a0) * (b - b0)| := abs_add_three _ _ _
    _ ≤ (A - 1) * |a0| * |b0| + |a0| * ((B - 1) * |b0|)
        + (A - 1) * |a0| * ((B - 1) * |b0|) := by linarith
    _ = (A * B - 1) * (|a0| * |b0|) := by ring

/-- The relative error of a double product of two approximate factors. -/
theorem mulDouble_near (a b a0 b0 A B : Rat) (hA1 : 1 ≤ A) (hA : A ≤ 9 / 8) (hB1 : 1 ≤ B)
    (hB : B ≤ 9 / 8) (ha : |a - a0| ≤ (A - 1) * |a0|) (hb : |b - b0| ≤ (B - 1) * |b0|)
    (ha0 : 1 / 2 ^ 1021 ≤ |a0|) (hb0 : 1 / 2 ^ 1021 ≤ |b0|)
    (hab : 1 / 2 ^ 1021 ≤ |a0 * b0|) :
    |mulDouble a b - a0 * b0|
      ≤ (A * (1 + 1 / 2 ^ 53) * (B * (1 + 1 / 2 ^ 53)) * (1 + 1 / 2 ^ 53) - 1) * |a0 * b0| := by
  have hU : (1 : Rat) ≤ 1 + 1 / 2 ^ 53 := by norm_num
  have hU2 : (1 : Rat) + 1 / 2 ^ 53 ≤ 65 / 64 := by norm_num
  have hAU1 : 1 ≤ A * (1 + 1 / 2 ^ 53) := by nlinarith
  have hBU1 : 1 ≤ B * (1 + 1 / 2 ^ 53) := by nlinarith
  have hAU : A * (1 + 1 / 2 ^ 53) ≤ 73 / 64 := by nlinarith
  have hBU : B * (1 + 1 / 2 ^ 53) ≤ 73 / 64 := by nlinarith
  have h1 := toDouble_near a0 a A (by linarith) ha ha0
  have h2 := toDouble_near b0 b B (by linarith) hb hb0
  have h3 := mul_near (toDouble a) (toDouble b) a0 b0 _ _ hAU1 hBU1 h1 h2
  unfold mulDouble
  exact toDouble_near (a0 * b0) (toDouble a * toDouble b) _ (by nlinarith) h3 hab

/-- Zero is a double. -/
theorem toDouble_zero : toDouble 0 = 0 := by
  simp [toDouble, roundHalfEven]

/-- A double product with the factor zero is zero. -/
theorem mulDouble_zero_left (b : Rat) : mulDouble 0 b = 0 := by
  simp [mulDouble, toDouble_zero]

/-- A double product with the factor zero is zero. -/
theorem mulDouble_zero_right (a : Rat) : mulDouble a 0 = 0 := by
  simp [mulDouble, toDouble_zero]

/-- The double product of the card value, the buy rate and a multiplier between 1 and 2
is within the fraction `2 ^ -50` of the exact product, for a buy rate and a card value
that are zero or of a magnitude between `2 ^ -500` and `2 ^ 500`. -/
theorem exchange_product_near (v b m : Rat) (hm : 1 ≤ m ∧ m ≤ 2)
    (hb : b = 0 ∨ (1 / 2 ^ 500 ≤ |b| ∧ |b| ≤ 2 ^ 500))
    (hv : v = 0 ∨ (1 / 2 ^ 500 ≤ |v| ∧ |v| ≤ 2 ^ 500)) :
    |mulDouble v (mulDouble b m) - v * b * m| ≤ |v * b * m| / 2 ^ 50 := by
  rcases hb with rfl | hb
  · simp [mulDouble_zero_left, mulDouble_zero_right]
  rcases hv with rfl | hv
  · simp [mulDouble_zero_left]
  have hm0 : |m| = m := abs_of_pos (by linarith)
  have hsmall : (1 : Rat) / 2 ^ 1021 ≤ 1 / 2 ^ 500 := by norm_num
  have hb1 : 1 / 2 ^ 1021 ≤ |b| := le_trans hsmall hb.1
  have hv1 : 1 / 2 ^ 1021 ≤ |v| := le_trans hsmall hv.1
  have hm1 : 1 / 2 ^ 1021 ≤ |m| := by
    rw [hm0]
    exact le_trans (by norm_num) hm.1
  have hbm : 1 / 2 ^ 500 ≤ |b * m| := by
    rw [abs_mul, hm0]
    calc (1 : Rat) / 2 ^ 500 ≤ |b| := hb.1
      _ = |b| * 1 := by ring
      _ ≤ |b| * m := mul_le_mul_of_nonneg_left hm.1 (abs_nonneg b)
  have hbm1 : 1 / 2 ^ 1021 ≤ |b * m| := le_trans hsmall hbm
  have hvbm : 1 / 2 ^ 1021 ≤ |v * (b * m)| := by
    rw [abs_mul]
    calc (1 : Rat) / 2 ^ 1021 ≤ 1 / 2 ^ 500 * (1 / 2 ^ 500) := by norm_num
      _ ≤ |v| * |b * m| := mul_le_mul hv.1 hbm (by positivity) (abs_nonneg v)
  have hzero : ∀ x : Rat, |x - x| ≤ (1 - 1) * |x| := by
    intro x
    simp
  have h1 := mulDouble_near b m b m 1 1 le_rfl (by norm_num) le_rfl (by norm_num) (hzero b)
    (hzero m) hb1 hm1 hbm1
  have h2 := mulDouble_near v (mulDouble b m) v (b * m) 1 _ le_rfl (by norm_num)
    (by norm_num) (by norm_num) (hzero v) h1 hv1 hbm1 hvbm
  have e : v * b * m = v * (b * m) := by ring
  rw [e]
  refine le_trans h2 ?_
  have hdiv : |v * (b * m)| / 2 ^ 50 = 1 / 2 ^ 50 * |v * (b * m)| := by ring
  rw [hdiv]
  exact mul_le_mul_of_nonneg_right (by norm_num) (abs_nonneg _)

/-- The multiplier of every tier lies between 1 and 2. -/
theorem tierMultiplier_bounds (t : String) : 1 ≤ tierMultiplier t ∧ tierMultiplier t ≤ 2 := by
  unfold tierMultiplier tierBonuses
  split_ifs <;> norm_num

/-- The double that the decimal `0.82` denotes. -/
theorem toDouble_buyRate : toDouble 0.82 = (7385903388887613 / 2 ^ 53) := by
  rw [toDouble_eq_of_bounds _ (-1) 7385903388887613 (by norm_num) (by norm_num [abs_of_pos, abs_of_neg])
    (by norm_num [abs_of_pos, abs_of_neg]) (by norm_num) (by norm_num)]
  norm_num

/-- The double that the decimal `1.05` denotes. -/
theorem toDouble_silver : toDouble 1.05 = (4728779608739021 / 2 ^ 52) := by
  rw [toDouble_eq_of_bounds _ (0) 4728779608739021 (by norm_num) (by norm_num [abs_of_pos, abs_of_neg])
    (by norm_num [abs_of_pos, abs_of_neg]) (by norm_num) (by norm_num)]
  norm_num

/-- The number 1 is a double. -/
theorem toDouble_one : toDouble 1 = 1 := by
  rw [toDouble_eq_of_bounds _ (0) 4503599627370496 (by norm_num) (by norm_num [abs_of_pos, abs_of_neg])
    (by norm_num [abs_of_pos, abs_of_neg]) (by norm_num) (by norm_num)]
  norm_num

/-- The number 100 is a double. -/
theorem toDouble_hundred : toDouble 100 = 100 := by
  rw [toDouble_eq_of_bounds _ (6) 7036874417766400 (by norm_num) (by norm_num [abs_of_pos, abs_of_neg])
    (by norm_num [abs_of_pos, abs_of_neg]) (by norm_num) (by norm_num)]
  norm_num

/-- The number 25 is a double. -/
theorem toDouble_twentyFive : toDouble 25 = 25 := by
  rw [toDouble_eq_of_bounds _ (4) 7036874417766400 (by norm_num) (by norm_num [abs_of_pos, abs_of_neg])
    (by norm_num [abs_of_pos, abs_of_neg]) (by norm_num) (by norm_num)]
  norm_num

/-- The number -100 is a double. -/
theorem toDouble_negHundred : toDouble (-100) = (-100) := by
  rw [toDouble_eq_of_bounds _ (6) (-7036874417766400) (by norm_num) (by norm_num [abs_of_pos, abs_of_neg])
    (by norm_num [abs_of_pos, abs_of_neg]) (by norm_num) (by norm_num)]
  norm_num

/-- The exchange rate of the SILVER tier at the buy rate `0.82`: the double product of `0.82` and `1.05`. -/
theorem mulDouble_rate_silver : mulDouble 0.82 1.05 = (3877599279165997 / 2 ^ 52) := by
  unfold mulDouble
  rw [toDouble_buyRate, toDouble_silver]
  rw [toDouble_eq_of_bounds _ (-1) 7755198558331994 (by norm_num) (by norm_num [abs_of_pos, abs_of_neg])
    (by norm_num [abs_of_pos, abs_of_neg]) (by norm_num) (by norm_num)]
  norm_num

/-- The SILVER exchange rate is a double. -/
theorem toDouble_rate_silver : toDouble (3877599279165997 / 2 ^ 52) = (3877599279165997 / 2 ^ 52) := by
  rw [toDouble_eq_of_bounds _ (-1) 7755198558331994 (by norm_num) (by norm_num [abs_of_pos, abs_of_neg])
    (by norm_num [abs_of_pos, abs_of_neg]) (by norm_num) (by norm_num)]
  norm_num

/-- The double product of 100 and the SILVER exchange rate. -/
theorem mulDouble_hundred_silver : mulDouble 100 (3877599279165997 / 2 ^ 52) = (3029374436848435 / 2 ^ 45) := by
  unfold mulDouble
  rw [toDouble_hundred, toDouble_rate_silver]
  rw [toDouble_eq_of_bounds _ (6) 6058748873696870 (by norm_num) (by norm_num [abs_of_pos, abs_of_neg])
    (by norm_num [abs_of_pos, abs_of_neg]) (by norm_num) (by norm_num)]
  norm_num

/-- The double product of 25 and the SILVER exchange rate: just below 21.525. -/
theorem mulDouble_twentyFive_silver : mulDouble 25 (3877599279165997 / 2 ^ 52) = (3029374436848435 / 2 ^ 47) := by
  unfold mulDouble
  rw [toDouble_twentyFive, toDouble_rate_silver]
  rw [toDouble_eq_of_bounds _ (4) 6058748873696870 (by norm_num) (by norm_num [abs_of_pos, abs_of_neg])
    (by norm_num [abs_of_pos, abs_of_neg]) (by norm_num) (by norm_num)]
  norm_num

/-- The SILVER amount for 100 is a double. -/
theorem toDouble_amount_silver : toDouble (3029374436848435 / 2 ^ 45) = (3029374436848435 / 2 ^ 45) := by
  rw [toDouble_eq_of_bounds _ (6) 6058748873696870 (by norm_num) (by norm_num [abs_of_pos, abs_of_neg])
    (by norm_num [abs_of_pos, abs_of_neg]) (by norm_num) (by norm_num)]
  norm_num

/-- The SILVER amount for 100 multiplied by `1.05` once more. -/
theorem mulDouble_amount_silver : mulDouble (3029374436848435 / 2 ^ 45) 1.05 = (3180843158690857 / 2 ^ 45) := by
  unfold mulDouble
  rw [toDouble_amount_silver, toDouble_silver]
  rw [toDouble_eq_of_bounds _ (6) 6361686317381714 (by norm_num) (by norm_num [abs_of_pos, abs_of_neg])
    (by norm_num [abs_of_pos, abs_of_neg]) (by norm_num) (by norm_num)]
  norm_num

/-- The double product of 100 and `0.82`. -/
theorem mulDouble_hundred_buyRate : mulDouble 100 0.82 = 82 := by
  unfold mulDouble
  rw [toDouble_hundred, toDouble_buyRate]
  rw [toDouble_eq_of_bounds _ (6) 5770237022568448 (by norm_num) (by norm_num [abs_of_pos, abs_of_neg])
    (by norm_num [abs_of_pos, abs_of_neg]) (by norm_num) (by norm_num)]
  norm_num

/-- The twice multiplied amount is a double. -/
theorem toDouble_twice_silver : toDouble (3180843158690857 / 2 ^ 45) = (3180843158690857 / 2 ^ 45) := by
  rw [toDouble_eq_of_bounds _ (6) 6361686317381714 (by norm_num) (by norm_num [abs_of_pos, abs_of_neg])
    (by norm_num [abs_of_pos, abs_of_neg]) (by norm_num) (by norm_num)]
  norm_num

/-- The number 82 is a double. -/
theorem toDouble_eightyTwo : toDouble 82 = 82 := by
  rw [toDouble_eq_of_bounds _ (6) 5770237022568448 (by norm_num) (by norm_num [abs_of_pos, abs_of_neg])
    (by norm_num [abs_of_pos, abs_of_neg]) (by norm_num) (by norm_num)]
  norm_num

/-- The double difference from which the SILVER bonus for 100 is rounded: just above 8.405. -/
theorem subDouble_bonus_silver : subDouble (3180843158690857 / 2 ^ 45) 82 = (295724647406633 / 2 ^ 45) := by
  unfold subDouble
  rw [toDouble_twice_silver, toDouble_eightyTwo]
  rw [toDouble_eq_of_bounds _ (3) 4731594358506128 (by norm_num) (by norm_num [abs_of_pos, abs_of_neg])
    (by norm_num [abs_of_pos, abs_of_neg]) (by norm_num) (by norm_num)]
  norm_num

/-- The exchange rate of the BRONZE tier at the buy rate `0.82`. -/
theorem mulDouble_rate_bronze : mulDouble 0.82 1 = (7385903388887613 / 2 ^ 53) := by
  unfold mulDouble
  rw [toDouble_buyRate, toDouble_one]
  rw [toDouble_eq_of_bounds _ (-1) 7385903388887613 (by norm_num) (by norm_num [abs_of_pos, abs_of_neg])
    (by norm_num [abs_of_pos, abs_of_neg]) (by norm_num) (by norm_num)]
  norm_num

/-- The BRONZE exchange rate is a double. -/
theorem toDouble_rate_bronze : toDouble (7385903388887613 / 2 ^ 53) = (7385903388887613 / 2 ^ 53) := by
  rw [toDouble_eq_of_bounds _ (-1) 7385903388887613 (by norm_num) (by norm_num [abs_of_pos, abs_of_neg])
    (by norm_num [abs_of_pos, abs_of_neg]) (by norm_num) (by norm_num)]
  norm_num

/-- The double product of -100 and the BRONZE exchange rate. -/
theorem mulDouble_negHundred_bronze : mulDouble (-100) (7385903388887613 / 2 ^ 53) = (-82) := by
  unfold mulDouble
  rw [toDouble_negHundred, toDouble_rate_bronze]
  rw [toDouble_eq_of_bounds _ (6) (-5770237022568448) (by norm_num) (by norm_num [abs_of_pos, abs_of_neg])
    (by norm_num [abs_of_pos, abs_of_neg]) (by norm_num) (by norm_num)]
  norm_num

/-- The number -82 is a double. -/
theorem toDouble_negEightyTwo : toDouble (-82) = (-82) := by
  rw [toDouble_eq_of_bounds _ (6) (-5770237022568448) (by norm_num) (by norm_num [abs_of_pos, abs_of_neg])
    (by norm_num [abs_of_pos, abs_of_neg]) (by norm_num) (by norm_num)]
  norm_num

/-- The product of -82 and 1. -/
theorem mulDouble_negEightyTwo_one : mulDouble (-82) 1 = (-82) := by
  unfold mulDouble
  rw [toDouble_negEightyTwo, toDouble_one]
  rw [toDouble_eq_of_bounds _ (6) (-5770237022568448) (by norm_num) (by norm_num [abs_of_pos, abs_of_neg])
    (by norm_num [abs_of_pos, abs_of_neg]) (by norm_num) (by norm_num)]
  norm_num

/-- The double product of -100 and `0.82`. -/
theorem mulDouble_negHundred_buyRate : mulDouble (-100) 0.82 = (-82) := by
  unfold mulDouble
  rw [toDouble_negHundred, toDouble_buyRate]
  rw [toDouble_eq_of_bounds _ (6) (-5770237022568448) (by norm_num) (by norm_num [abs_of_pos, abs_of_neg])
    (by norm_num [abs_of_pos, abs_of_neg]) (by norm_num) (by norm_num)]
  norm_num

/-! ## Lemmas on the exchange calculation -/

theorem tierMultiplier_bronze : tierMultiplier "BRONZE" = 1 := by
  simp [tierMultiplier, tierBonuses]
  norm_num

theorem tierMultiplier_silver : tierMultiplier "SILVER" = 1.05 := by
  simp [tierMultiplier, tierBonuses]

theorem tierMultiplier_gold : tierMultiplier "GOLD" = 1.1 := by
  simp [tierMultiplier, tierBonuses]

/-- What `calculateExchange` returns once the rate record has been read. -/
theorem calculateExchange_of_rate (db : Store) (cardType : String) (rate : Rate) (v : Rat)
    (t : String) (hrate : getDoc db.giftCardRates cardType = some rate) :
    calculateExchange none db cardType v t = .ok
      { cardType := cardType
        cardValue := v
        exchangeRate := toFixed (mulDouble rate.buyRate (tierMultiplier t)) 4
        exchangeAmount := toFixed (mulDouble v (mulDouble rate.buyRate (tierMultiplier t))) 2
        tierBonus :=
          if toFixed (subDouble
              (mulDouble (mulDouble v (mulDouble rate.buyRate (tierMultiplier t)))
                (tierMultiplier t))
              (mulDouble v rate.buyRate)) 2 > 0
          then toFixed (subDouble
              (mulDouble (mulDouble v (mulDouble rate.buyRate (tierMultiplier t)))
                (tierMultiplier t))
              (mulDouble v rate.buyRate)) 2
          else 0
        userTier := t
        currency := orStr (rate.currency.getD "") "NGN" } := by
  simp [calculateExchange, getRateByType, hrate]

/-- A rejected read of the rate record makes `calculateExchange` fail. -/
theorem calculateExchange_of_fault (msg : String) (db : Store) (cardType : String) (v : Rat)
    (t : String) : ∃ e, calculateExchange (some msg) db cardType v t = .error e := by
  simp [calculateExchange, getRateByType]

/-! ## Lemmas on the store -/

theorem getDoc_mem {α : Type} (coll : List (String × α)) (id : String) (v : α)
    (h : getDoc coll id = some v) : (id, v) ∈ coll := by
  induction coll with
  | nil => simp [getDoc] at h
  | cons kv rest ih =>
    obtain ⟨k, w⟩ := kv
    unfold getDoc at h
    split_ifs at h with hk
    · injection h with h
      subst h
      subst hk
      exact List.mem_cons_self _ _
    · exact List.mem_cons_of_mem _ (ih h)

/-- An update of an existing document succeeds, and the document then reads back as the
merged document. -/
theorem updateDoc_of_getDoc {α : Type} (coll : List (String × α)) (id : String) (f : α → α)
    (v : α) (h : getDoc coll id = some v) :
    ∃ coll', updateDoc coll id f = some coll' ∧ getDoc coll' id = some (f v) := by
  induction coll with
  | nil => simp [getDoc] at h
  | cons kv rest ih =>
    obtain ⟨k, w⟩ := kv
    unfold getDoc at h
    unfold updateDoc
    split_ifs at h ⊢ with hk
    · injection h with h
      subst h
      exact ⟨_, rfl, by simp [getDoc, hk]⟩
    · obtain ⟨coll', h1, h2⟩ := ih h
      exact ⟨_, by rw [h1]; rfl, by simp [getDoc, hk, h2]⟩

/-- An update only succeeds on an existing document. -/
theorem getDoc_of_updateDoc {α : Type} (coll coll' : List (String × α)) (id : String)
    (f : α → α) (h : updateDoc coll id f = some coll') :
    ∃ v, getDoc coll id = some v ∧ getDoc coll' id = some (f v) := by
  induction coll generalizing coll' with
  | nil => simp [updateDoc] at h
  | cons kv rest ih =>
    obtain ⟨k, w⟩ := kv
    unfold updateDoc at h
    split_ifs at h with hk
    · injection h with h
      subst h
      exact ⟨w, by simp [getDoc, hk], by simp [getDoc, hk]⟩
    · cases hr : updateDoc rest id f with
      | none => simp [hr] at h
      | some r =>
        simp [hr] at h
        subst h
        obtain ⟨v, h1, h2⟩ := ih r hr
        exact ⟨v, by simp [getDoc, hk, h1], by simp [getDoc, hk, h2]⟩

/-- A property of all documents of a collection survives an update that establishes it
on the updated document. -/
theorem updateDoc_forall {α : Type} (P : α → Prop) (coll coll' : List (String × α))
    (id : String) (f : α → α) (h : updateDoc coll id f = some coll')
    (hall : ∀ k v, (k, v) ∈ coll → P v) (hf : ∀ v, P (f v)) :
    ∀ k v, (k, v) ∈ coll' → P v := by
  induction coll generalizing coll' with
  | nil => simp [updateDoc] at h
  | cons kv rest ih =>
    obtain ⟨k0, w⟩ := kv
    unfold updateDoc at h
    split_ifs at h with hk
    · injection h with h
      subst h
      intro k v hmem
      rcases List.mem_cons.mp hmem with heq | hmem
      · injection heq with _ hv
        subst hv
        exact hf w
      · exact hall k v (List.mem_cons_of_mem _ hmem)
    · cases hr : updateDoc rest id f with
      | none => simp [hr] at h
      | some r =>
        simp [hr] at h
        subst h
        intro k v hmem
        rcases List.mem_cons.mp hmem with heq | hmem
        · injection heq with hk' hv
          subst hv
          exact hall k0 v (List.mem_cons_self _ _)
        · exact ih r hr (fun k v hm => hall k v (List.mem_cons_of_mem _ hm)) k v hmem

/-! ## Exchange calculation -/

/-- C1 (counterexample): at the `Amazon` buy rate `0.82`, the card value 25 and the tier
SILVER the exact product is 21.525, which `round2` rounds to 21.53, while the double
product lies just below 21.525 and `calculateExchange` returns the exchange amount
21.52. -/
theorem calculateExchange_below_rounding_tie :
    ∃ d, calculateExchange none sampleRates "Amazon" 25 "SILVER" = .ok d ∧
      d.exchangeAmount = 21.52 ∧
      round2 (25 * amazonRate.buyRate * 1.05) = 21.53 ∧
      d.exchangeAmount ≠ round2 (25 * amazonRate.buyRate * 1.05) := by
  have hrate : getDoc sampleRates.giftCardRates "Amazon" = some amazonRate := by
    simp [sampleRates, getDoc]
  have hcode : toFixed (mulDouble 25 (mulDouble 0.82 1.05)) 2 = 21.52 := by
    rw [mulDouble_rate_silver, mulDouble_twentyFive_silver,
      toFixed_eq_of_bounds _ 2 2152 (by norm_num) (by norm_num) (by norm_num)]
    norm_num
  have hspec : round2 (25 * amazonRate.buyRate * 1.05) = 21.53 := by
    unfold round2
    rw [toFixed_eq_of_bounds _ 2 2153 (by norm_num [amazonRate]) (by norm_num [amazonRate])
      (by norm_num [amazonRate])]
    norm_num
  refine ⟨_, calculateExchange_of_rate sampleRates "Amazon" amazonRate 25 "SILVER" hrate,
    ?_, hspec, ?_⟩
  · simp only [tierMultiplier_silver, amazonRate, hcode]
  · rw [hspec]
    simp only [tierMultiplier_silver, amazonRate, hcode]
    norm_num

/-- C1 (amended): with a rate record of buy rate `b` in the store, `calculateExchange`
succeeds when the read of the record completes, and every successful call returns as
`exchangeAmount` the decimal that `toFixed(2)` prints for the double product of `v` and
the double product of `b` and `m`, with `m = 1.0` for BRONZE, `1.05` for SILVER and
`1.1` for GOLD.  For `b` and `v` that are zero or of a magnitude between `2 ^ -500` and
`2 ^ 500` this amount differs from the exact product `v * b * m` by at most
`0.005 + |v * b * m| / 2 ^ 50`, and from `round2 (v * b * m)` by at most
`0.01 + |v * b * m| / 2 ^ 50`; for `b = 0.82`, `v = 100` and SILVER the returned
`exchangeRate` is `0.861` and the `exchangeAmount` is `86.10`. -/
theorem calculateExchange_exchangeAmount (db : Store) (cardType : String) (rate : Rate)
    (v : Rat) (t : String) (hrate : getDoc db.giftCardRates cardType = some rate)
    (hb : rate.buyRate = 0 ∨ (1 / 2 ^ 500 ≤ |rate.buyRate| ∧ |rate.buyRate| ≤ 2 ^ 500))
    (hv : v = 0 ∨ (1 / 2 ^ 500 ≤ |v| ∧ |v| ≤ 2 ^ 500)) :
    (∃ d, calculateExchange none db cardType v t = .ok d) ∧
    ∀ (fault : StoreFault) (d : ExchangeData),
      calculateExchange fault db cardType v t = .ok d →
        d.exchangeAmount
          = toFixed (mulDouble v (mulDouble rate.buyRate (tierMultiplier t))) 2 ∧
        (t = "BRONZE" → |d.exchangeAmount - v * rate.buyRate * 1.0|
          ≤ 1 / 200 + |v * rate.buyRate * 1.0| / 2 ^ 50) ∧
        (t = "SILVER" → |d.exchangeAmount - v * rate.buyRate * 1.05|
          ≤ 1 / 200 + |v * rate.buyRate * 1.05| / 2 ^ 50) ∧
        (t = "GOLD" → |d.exchangeAmount - v * rate.buyRate * 1.1|
          ≤ 1 / 200 + |v * rate.buyRate * 1.1| / 2 ^ 50) ∧
        |d.exchangeAmount - round2 (v * rate.buyRate * tierMultiplier t)|
          ≤ 1 / 100 + |v * rate.buyRate * tierMultiplier t| / 2 ^ 50 ∧
        (rate.buyRate = 0.82 → v = 100 → t = "SILVER" →
          d.exchangeRate = 0.861 ∧ d.exchangeAmount = 86.10) := by
  refine ⟨⟨_, calculateExchange_of_rate db cardType rate v t hrate⟩, ?_⟩
  intro fault d hok
  cases fault with
  | some msg =>
    obtain ⟨e, he⟩ := calculateExchange_of_fault msg db cardType v t
    rw [he] at hok
    cases hok
  | none =>
    rw [calculateExchange_of_rate db cardType rate v t hrate] at hok
    injection hok with hd
    subst hd
    have hnear := exchange_product_near v rate.buyRate (tierMultiplier t)
      (tierMultiplier_bounds t) hb hv
    have hfixed := (toFixed_nearest
      (mulDouble v (mulDouble rate.buyRate (tierMultiplier t))) 2).2
    have hexact : |toFixed (mulDouble v (mulDouble rate.buyRate (tierMultiplier t))) 2
        - v * rate.buyRate * tierMultiplier t|
        ≤ 1 / 200 + |v * rate.buyRate * tierMultiplier t| / 2 ^ 50 := by
      have htri : toFixed (mulDouble v (mulDouble rate.buyRate (tierMultiplier t))) 2
          - v * rate.buyRate * tierMultiplier t
          = (toFixed (mulDouble v (mulDouble rate.buyRate (tierMultiplier t))) 2
              - mulDouble v (mulDouble rate.buyRate (tierMultiplier t)))
            + (mulDouble v (mulDouble rate.buyRate (tierMultiplier t))
              - v * rate.buyRate * tierMultiplier t) := by ring
      rw [htri]
      refine le_trans (abs_add _ _) ?_
      have h200 : (1 : Rat) / (2 * 10 ^ 2) = 1 / 200 := by norm_num
      rw [h200] at hfixed
      linarith
    refine ⟨rfl, ?_, ?_, ?_, ?_, ?_⟩
    · intro ht
      subst ht
      have e10 : (1.0 : Rat) = 1 := by norm_num
      simp only [tierMultiplier_bronze] at hexact ⊢
      rw [e10]
      exact hexact
    · intro ht
      subst ht
      simp only [tierMultiplier_silver] at hexact ⊢
      exact hexact
    · intro ht
      subst ht
      simp only [tierMultiplier_gold] at hexact ⊢
      exact hexact
    · dsimp only
      have hround := (toFixed_nearest (v * rate.buyRate * tierMultiplier t) 2).2
      have h200 : (1 : Rat) / (2 * 10 ^ 2) = 1 / 200 := by norm_num
      rw [h200] at hround
      have htri : toFixed (mulDouble v (mulDouble rate.buyRate (tierMultiplier t))) 2
          - round2 (v * rate.buyRate * tierMultiplier t)
          = (toFixed (mulDouble v (mulDouble rate.buyRate (tierMultiplier t))) 2
              - v * rate.buyRate * tierMultiplier t)
            - (toFixed (v * rate.buyRate * tierMultiplier t) 2
              - v * rate.buyRate * tierMultiplier t) := by
        unfold round2
        ring
      rw [htri]
      refine le_trans (abs_sub _ _) ?_
      linarith
    · intro hb' hv' ht
      subst ht
      simp only [tierMultiplier_silver, hb', hv']
      constructor
      · rw [mulDouble_rate_silver,
          toFixed_eq_of_bounds _ 4 8610 (by norm_num) (by norm_num) (by norm_num)]
        norm_num
      · rw [mulDouble_rate_silver, mulDouble_hundred_silver,
          toFixed_eq_of_bounds _ 2 8610 (by norm_num) (by norm_num) (by norm_num)]
        norm_num

/-- The statement of C1 (amended) at the `Amazon` rate record (buy rate `0.82`), card
value `100` and tier SILVER. -/
theorem calculateExchange_exchangeAmount_witness :
    getDoc sampleRates.giftCardRates "Amazon" = some amazonRate ∧
    ((∃ d, calculateExchange none sampleRates "Amazon" 100 "SILVER" = .ok d) ∧
    ∀ (fault : StoreFault) (d : ExchangeData),
      calculateExchange fault sampleRates "Amazon" 100 "SILVER" = .ok d →
        d.exchangeAmount
          = toFixed (mulDouble 100 (mulDouble amazonRate.buyRate (tierMultiplier "SILVER"))) 2 ∧
        ("SILVER" = "BRONZE" → |d.exchangeAmount - 100 * amazonRate.buyRate * 1.0|
          ≤ 1 / 200 + |100 * amazonRate.buyRate * 1.0| / 2 ^ 50) ∧
        ("SILVER" = "SILVER" → |d.exchangeAmount - 100 * amazonRate.buyRate * 1.05|
          ≤ 1 / 200 + |100 * amazonRate.buyRate * 1.05| / 2 ^ 50) ∧
        ("SILVER" = "GOLD" → |d.exchangeAmount - 100 * amazonRate.buyRate * 1.1|
          ≤ 1 / 200 + |100 * amazonRate.buyRate * 1.1| / 2 ^ 50) ∧
        |d.exchangeAmount - round2 (100 * amazonRate.buyRate * tierMultiplier "SILVER")|
          ≤ 1 / 100 + |100 * amazonRate.buyRate * tierMultiplier "SILVER"| / 2 ^ 50 ∧
        (amazonRate.buyRate = 0.82 → (100 : Rat) = 100 → "SILVER" = "SILVER" →
          d.exchangeRate = 0.861 ∧ d.exchangeAmount = 86.10)) :=
  ⟨by simp [sampleRates, getDoc],
   calculateExchange_exchangeAmount sampleRates "Amazon" amazonRate 100 "SILVER"
    (by simp [sampleRates, getDoc])
    (Or.inr (by norm_num [amazonRate, abs_of_pos]))
    (Or.inr (by norm_num [abs_of_pos]))⟩

/-- C2 (the code at `b = 0.82`, `v = 100`, SILVER): the returned `tierBonus` is `8.41`,
the rounded value of `v * b * (m * m - 1)`, while `round2 (v * b * (m - 1))` is `4.10`. -/
theorem calculateExchange_tierBonus_silver :
    (∃ d, calculateExchange none sampleRates "Amazon" 100 "SILVER" = .ok d ∧
      d.tierBonus = 8.41 ∧
      d.tierBonus = round2 (100 * 0.82 * (1.05 * 1.05 - 1)) ∧
      d.tierBonus ≠ round2 (100 * 0.82 * (1.05 - 1)) ∧
      d.tierBonus ≠ 1.64) ∧
    round2 (100 * 0.82 * (1.05 - 1)) = 4.10 := by
  have hrate : getDoc sampleRates.giftCardRates "Amazon" = some amazonRate := by
    simp [sampleRates, getDoc]
  have hcode : toFixed (subDouble (mulDouble (mulDouble 100 (mulDouble 0.82 1.05)) 1.05)
      (mulDouble 100 0.82)) 2 = 8.41 := by
    rw [mulDouble_rate_silver, mulDouble_hundred_silver, mulDouble_amount_silver,
      mulDouble_hundred_buyRate, subDouble_bonus_silver,
      toFixed_eq_of_bounds _ 2 841 (by norm_num) (by norm_num) (by norm_num)]
    norm_num
  have hcode2 : round2 (100 * 0.82 * (1.05 * 1.05 - 1)) = 8.41 := by
    unfold round2
    rw [toFixed_eq_of_bounds _ 2 841 (by norm_num) (by norm_num) (by norm_num)]
    norm_num
  have hspec : round2 (100 * 0.82 * (1.05 - 1)) = 4.10 := by
    unfold round2
    rw [toFixed_eq_of_bounds _ 2 410 (by norm_num) (by norm_num) (by norm_num)]
    norm_num
  refine ⟨⟨_, calculateExchange_of_rate sampleRates "Amazon" amazonRate 100 "SILVER" hrate,
    ?_, ?_, ?_, ?_⟩, hspec⟩
  · simp only [tierMultiplier_silver, amazonRate, hcode]
    norm_num
  · simp only [tierMultiplier_silver, amazonRate, hcode, hcode2]
    norm_num
  · simp only [tierMultiplier_silver, amazonRate, hcode, hspec]
    norm_num
  · simp only [tierMultiplier_silver, amazonRate, hcode]
    norm_num

/-! ## Wallet balance -/

/-- C3: when the signed-in user's current balance is `B` and `B - d < 0`,
`updateWalletBalance(d, 'subtract')` returns the failure `Insufficient wallet balance`
and leaves the whole state as it was: no store write is made, and the stored and the
local wallet balance are unchanged (the local one is still `B`). -/
theorem updateWalletBalance_insufficient (fault : StoreFault) (s : AuthState) (uid : String)
    (profile : UserProfile) (B d : Rat) (hu : s.user = some uid)
    (hp : s.userProfile = some profile) (hB : orZero profile.walletBalance = B)
    (hlt : B - d < 0) :
    (updateWalletBalance fault s (some d) "subtract").2 = .error "Insufficient wallet balance" ∧
    (updateWalletBalance fault s (some d) "subtract").1 = s ∧
    (updateWalletBalance fault s (some d) "subtract").1.db = s.db ∧
    storedBalance (updateWalletBalance fault s (some d) "subtract").1.db uid
      = storedBalance s.db uid ∧
    orZero (((updateWalletBalance fault s (some d) "subtract").1.userProfile).bind
      (fun p => p.walletBalance)) = B := by
  have h : updateWalletBalance fault s (some d) "subtract"
      = (s, .error "Insufficient wallet balance") := by
    unfold updateWalletBalance
    rw [hu, hp]
    simp [newBalance, ltZero, hB, hlt]
  rw [h]
  refine ⟨rfl, rfl, rfl, rfl, ?_⟩
  simp [hp, hB]

/-- The statement of C3 for a balance of 50 and a debit of 100. -/
theorem updateWalletBalance_insufficient_witness :
    (updateWalletBalance none (sampleState 50) (some 100) "subtract").2
      = .error "Insufficient wallet balance" ∧
    (updateWalletBalance none (sampleState 50) (some 100) "subtract").1 = sampleState 50 ∧
    (updateWalletBalance none (sampleState 50) (some 100) "subtract").1.db
      = (sampleState 50).db ∧
    storedBalance (updateWalletBalance none (sampleState 50) (some 100) "subtract").1.db "u1"
      = storedBalance (sampleState 50).db "u1" ∧
    orZero (((updateWalletBalance none (sampleState 50) (some 100) "subtract").1.userProfile).bind
      (fun p => p.walletBalance)) = 50 :=
  updateWalletBalance_insufficient none (sampleState 50) "u1" (sampleProfile 50) 50 100 rfl rfl
    (by simp [sampleProfile, orZero]) (by norm_num)

/-- The balance that `updateWalletBalance` is about to write is a non-negative number
once the check `newBalance < 0` has not fired. -/
theorem newBalance_nonneg (currentBalance amount : Rat) (type : String)
    (h : ltZero (newBalance currentBalance (some amount) type) = false) :
    NonnegBalance (newBalance currentBalance (some amount) type) := by
  simp only [newBalance, Option.map_some', ltZero, decide_eq_false_iff_not, not_lt] at h
  exact ⟨_, rfl, h⟩

theorem updateWalletBalance_preserves_nonneg (fault : StoreFault) (s : AuthState)
    (amount : Rat) (type : String) (h : WalletsNonneg s.db) :
    WalletsNonneg (updateWalletBalance fault s (some amount) type).1.db := by
  unfold updateWalletBalance
  split
  · rename_i uid profile _ _
    simp only
    split_ifs with hlt
    · exact h
    · cases fault with
      | some msg => exact h
      | none =>
        simp only
        split
        · exact h
        · rename_i users hupd
          exact updateDoc_forall (fun (p : UserProfile) => NonnegBalance p.walletBalance) _ _ _ _ hupd h
            (fun _ => newBalance_nonneg _ _ _ (by simpa using hlt))
  · exact h

/-- The `users` collection after the body of `completeReferralBonus`: untouched, or the
result of the one update of the referrer's document. -/
theorem completeReferralBonusBody_users (failAt : Option Nat) (db : Store)
    (referredUserId : String) :
    (completeReferralBonusBody failAt db referredUserId).users = db.users ∨
    ∃ referrerId referrerData users,
      getDoc db.users referrerId = some referrerData ∧
      updateDoc db.users referrerId (fun d =>
        { d with
            walletBalance := some (orZero referrerData.walletBalance + REFERRAL_BONUS)
            referralEarnings := some (orZero referrerData.referralEarnings + REFERRAL_BONUS)
            totalReferrals := some (orZero referrerData.totalReferrals + 1) }) = some users ∧
      (completeReferralBonusBody failAt db referredUserId).users = users := by
  unfold completeReferralBonusBody
  repeat' split
  all_goals first
    | exact Or.inl rfl
    | (refine Or.inr ⟨?_, ?_, ?_, ?_, ?_, ?_⟩
       rotate_left 3
       · assumption
       · assumption
       · first
         | rfl
         | (dsimp only
            split <;> rfl))

theorem completeReferralBonusBody_preserves_nonneg (failAt : Option Nat) (db : Store)
    (referredUserId : String) (h : WalletsNonneg db) :
    WalletsNonneg (completeReferralBonusBody failAt db referredUserId) := by
  rcases completeReferralBonusBody_users failAt db referredUserId with
    heq | ⟨rid, rdata, users, hget, hupd, heq⟩
  · intro id p hmem
    rw [heq] at hmem
    exact h id p hmem
  · intro id p hmem
    rw [heq] at hmem
    obtain ⟨b, hb, hb0⟩ := h rid rdata (getDoc_mem _ _ _ hget)
    refine updateDoc_forall (fun (p : UserProfile) => NonnegBalance p.walletBalance) _ _ _ _ hupd h ?_ id p hmem
    intro v
    refine ⟨_, rfl, ?_⟩
    rw [hb]
    simp only [orZero, Option.getD_some, REFERRAL_BONUS]
    linarith

/-- The invariant survives `completeReferralBonus` whether or not the names of its query
resolve. -/
theorem completeReferralBonus_preserves_nonneg (failAt : Option Nat) (db : Store)
    (referredUserId : String) (h : WalletsNonneg db) :
    WalletsNonneg (completeReferralBonus failAt db referredUserId) := by
  unfold completeReferralBonus
  split_ifs
  · exact completeReferralBonusBody_preserves_nonneg failAt db referredUserId h
  · exact h

/-- C4 (counterexample): an amount that is `NaN` passes the check `newBalance < 0`.  The
call `updateWalletBalance(NaN, 'subtract')` on a balance of 100 reports success and
stores `NaN` as the wallet balance, which is not a number `>= 0`. -/
theorem walletBalance_nan_amount :
    WalletsNonneg (sampleState 100).db ∧
    (updateWalletBalance none (sampleState 100) none "subtract").2 = .ok none ∧
    (getDoc (runWalletOps (sampleState 100)
      [.updateWalletBalance none none "subtract"]).db.users "u1").map
        (fun p => p.walletBalance) = some none ∧
    ¬ WalletsNonneg (runWalletOps (sampleState 100)
      [.updateWalletBalance none none "subtract"]).db := by
  have hrun : runWalletOps (sampleState 100) [.updateWalletBalance none none "subtract"]
      = { user := some "u1"
          userProfile := some { sampleProfile 100 with walletBalance := none }
          db := { users := [("u1", { sampleProfile 100 with walletBalance := none })] } } := by
    simp [runWalletOps, applyWalletOp, updateWalletBalance, sampleState, newBalance, ltZero,
      updateDoc]
  refine ⟨?_, ?_, ?_, ?_⟩
  · intro id p hmem
    simp only [sampleState, List.mem_singleton, Prod.mk.injEq] at hmem
    rw [hmem.2]
    exact ⟨100, rfl, by norm_num⟩
  · simp [updateWalletBalance, sampleState, newBalance, ltZero, updateDoc]
  · rw [hrun]
    simp [getDoc]
  · rw [hrun]
    intro h
    obtain ⟨b, hb, -⟩ := h "u1" { sampleProfile 100 with walletBalance := none }
      (List.mem_singleton.mpr rfl)
    cases hb

/-- C4 (amended): if every stored profile has a wallet balance `>= 0`, then after any
sequential run of `updateWalletBalance` calls whose amounts are numbers (any number, any
type, the write completing or rejected) and `completeReferralBonus` calls (any store
call of it rejected or none) every stored profile still has a wallet balance `>= 0`. -/
theorem walletBalance_nonneg_invariant (s : AuthState) (ops : List WalletOp)
    (h : WalletsNonneg s.db) (hnum : ∀ op ∈ ops, hasNumericAmount op = true) :
    WalletsNonneg (runWalletOps s ops).db := by
  induction ops generalizing s with
  | nil => exact h
  | cons op rest ih =>
    simp only [runWalletOps, List.foldl_cons]
    apply ih _ _ (fun o ho => hnum o (List.mem_cons_of_mem _ ho))
    have hop := hnum op (List.mem_cons_self _ _)
    cases op with
    | updateWalletBalance fault amount type =>
      cases amount with
      | none => simp [hasNumericAmount] at hop
      | some a => exact updateWalletBalance_preserves_nonneg fault s a type h
    | completeReferralBonus failAt referredUserId =>
      exact completeReferralBonus_preserves_nonneg failAt s.db referredUserId h

/-- The statement of C4 (amended) on a run of two debits, a referral settlement and a
negative credit. -/
theorem walletBalance_nonneg_invariant_witness :
    WalletsNonneg (referralState 100).db ∧
    WalletsNonneg (runWalletOps (referralState 100)
      [.updateWalletBalance none (some 60) "subtract",
       .updateWalletBalance none (some 60) "subtract",
       .completeReferralBonus none "u2",
       .updateWalletBalance (some "unavailable") (some 5) "add",
       .updateWalletBalance none (some (-200)) "add"]).db :=
  have h : WalletsNonneg (referralState 100).db := by
    intro id p hmem
    simp only [referralState, referralStore, List.mem_singleton, Prod.mk.injEq] at hmem
    rw [hmem.2]
    exact ⟨100, rfl, by norm_num⟩
  ⟨h, walletBalance_nonneg_invariant (referralState 100) _ h (by
    intro op hop
    simp only [List.mem_cons, List.mem_singleton, List.not_mem_nil, or_false] at hop
    rcases hop with rfl | rfl | rfl | rfl | rfl <;> rfl)⟩

/-! ## Overlapping debits -/

theorem stepWalletCall_returned (fault : StoreFault) (s : AuthState)
    (result : Except String (Option Rat)) :
    stepWalletCall fault s (.returned result) = (s, .returned result) := rfl

theorem DebitInv_step_first (u : String) (t : TwoCalls) (h : DebitInv u t) :
    DebitInv u { t with state := (stepWalletCall none t.state t.first).1
                        first := (stepWalletCall none t.state t.first).2 } := by
  obtain ⟨st, c1, c2⟩ := t
  obtain ⟨hu, ⟨p, hp, hpw, hp40⟩, ⟨d, hd, hdw⟩, hf, hs⟩ := h
  simp only at hu hp hp40 hd hf hs
  rcases hf with hf | hf | hf | hf | ⟨hf, hf2⟩
  · subst hf
    rcases hpw with hw | hw
    · have hstep : stepWalletCall none st (.called (some 60) "subtract")
          = (st, .issued u (some 40)) := by
        simp [stepWalletCall, hu, hp, hw, newBalance, ltZero, orZero]
        norm_num
      rw [hstep]
      refine ⟨hu, ⟨p, hp, Or.inl hw, ?_⟩, ⟨d, hd, hdw⟩, Or.inr (Or.inl rfl), ?_⟩
      · intro h40
        rw [hw] at h40
        simp at h40
      · simpa using hs
    · have hstep : stepWalletCall none st (.called (some 60) "subtract")
          = (st, .returned (.error "Insufficient wallet balance")) := by
        simp [stepWalletCall, hu, hp, hw, newBalance, ltZero, orZero]
        norm_num
      rw [hstep]
      have hc2 : c2 = .returned (.ok (some 40)) := by simpa using hp40 hw
      subst hc2
      refine ⟨hu, ⟨p, hp, Or.inr hw, fun _ => Or.inr rfl⟩, ⟨d, hd, hdw⟩,
        Or.inr (Or.inr (Or.inr (Or.inr ⟨rfl, rfl⟩))), Or.inr (Or.inr (Or.inr (Or.inl rfl)))⟩
  · subst hf
    obtain ⟨users, hupd, hget⟩ := updateDoc_of_getDoc st.db.users u
      (fun d => { d with walletBalance := some 40 }) d hd
    have hstep : stepWalletCall none st (.issued u (some 40))
        = ({ st with db := { st.db with users := users } }, .written (some 40)) := by
      simp [stepWalletCall, hupd]
    rw [hstep]
    refine ⟨hu, ⟨p, hp, hpw, ?_⟩, ⟨_, hget, Or.inr rfl⟩, Or.inr (Or.inr (Or.inl rfl)), ?_⟩
    · simpa using hp40
    · simpa using hs
  · subst hf
    have hstep : stepWalletCall none st (.written (some 40))
        = ({ st with userProfile := some { p with walletBalance := some 40 } },
            .returned (.ok (some 40))) := by
      simp [stepWalletCall, hp]
    rw [hstep]
    refine ⟨hu, ⟨_, rfl, Or.inr rfl, fun _ => Or.inl rfl⟩, ⟨d, hd, hdw⟩,
      Or.inr (Or.inr (Or.inr (Or.inl rfl))), ?_⟩
    simp only [reduceCtorEq, and_false, or_false] at hs
    simp only [and_true]
    tauto
  · subst hf
    exact ⟨hu, ⟨p, hp, hpw, hp40⟩, ⟨d, hd, hdw⟩, Or.inr (Or.inr (Or.inr (Or.inl rfl))), hs⟩
  · subst hf
    subst hf2
    exact ⟨hu, ⟨p, hp, hpw, hp40⟩, ⟨d, hd, hdw⟩,
      Or.inr (Or.inr (Or.inr (Or.inr ⟨rfl, rfl⟩))), hs⟩

theorem DebitInv_swap (u : String) (t : TwoCalls) (h : DebitInv u t) :
    DebitInv u { t with first := t.second, second := t.first } := by
  obtain ⟨hu, ⟨p, hp, hpw, hp40⟩, hd, hf, hs⟩ := h
  exact ⟨hu, ⟨p, hp, hpw, fun h => (hp40 h).symm⟩, hd, hs, hf⟩

theorem DebitInv_step_second (u : String) (t : TwoCalls) (h : DebitInv u t) :
    DebitInv u { t with state := (stepWalletCall none t.state t.second).1
                        second := (stepWalletCall none t.state t.second).2 } :=
  DebitInv_swap u _ (DebitInv_step_first u _ (DebitInv_swap u t h))

theorem DebitInv_runSchedule (u : String) (schedule : List Bool) (t : TwoCalls)
    (h : DebitInv u t) : DebitInv u (runSchedule t schedule) := by
  induction schedule generalizing t with
  | nil => exact h
  | cons b rest ih =>
    cases b with
    | false => exact ih _ (DebitInv_step_first u t h)
    | true => exact ih _ (DebitInv_step_second u t h)

/-- The three steps of one call, run without interruption, are the sequential
`updateWalletBalance`. -/
theorem stepWalletCall_thrice (s : AuthState) (amount : Option Rat) (type : String) :
    let r1 := stepWalletCall none s (.called amount type)
    let r2 := stepWalletCall none r1.1 r1.2
    let r3 := stepWalletCall none r2.1 r2.2
    r3 = ((updateWalletBalance none s amount type).1,
          .returned (updateWalletBalance none s amount type).2) := by
  obtain ⟨user, userProfile, db⟩ := s
  cases user with
  | none => simp [stepWalletCall, updateWalletBalance]
  | some uid =>
    cases userProfile with
    | none => simp [stepWalletCall, updateWalletBalance]
    | some profile =>
      by_cases hlt : ltZero (newBalance (orZero profile.walletBalance) amount type) = true
      · simp [stepWalletCall, updateWalletBalance, hlt]
      · cases hupd : updateDoc db.users uid
            (fun d => { d with
              walletBalance := newBalance (orZero profile.walletBalance) amount type }) with
        | none => simp [stepWalletCall, updateWalletBalance, hlt, hupd]
        | some users => simp [stepWalletCall, updateWalletBalance, hlt, hupd]

/-- C5 (counterexample): against a balance of 100, when the second debit of 60 makes
its balance check before the first one has updated the local profile, both calls
return success, and the stored balance ends at 40. -/
theorem overlapping_debits_both_succeed :
    (runSchedule (twoDebits (sampleState 100)) [false, true, false, true, false, true]).first
      = .returned (.ok (some 40)) ∧
    (runSchedule (twoDebits (sampleState 100)) [false, true, false, true, false, true]).second
      = .returned (.ok (some 40)) ∧
    storedBalance
      (runSchedule (twoDebits (sampleState 100)) [false, true, false, true, false, true]).state.db
      "u1" = 40 := by
  have hrun : runSchedule (twoDebits (sampleState 100)) [false, true, false, true, false, true]
      = { state := sampleState 40
          first := .returned (.ok (some 40))
          second := .returned (.ok (some 40)) } := by
    simp [runSchedule, twoDebits, stepWalletCall, sampleState, sampleProfile, newBalance,
      ltZero, orZero, updateDoc]
    norm_num
  rw [hrun]
  refine ⟨rfl, rfl, ?_⟩
  simp [storedBalance, sampleState, sampleProfile, getDoc, orZero]

/-- C5 (amended): two debits of 60 by the signed-in user against a local and stored
balance of 100.  At every point of every interleaving of their steps the stored
balance is 100 or 40, hence never negative, and a call has failed only with
`Insufficient wallet balance` and only after the other call had returned success, so
the two debits never both fail.  Run one after the other, the first call succeeds and
the second fails with `Insufficient wallet balance`; run in alternation, so that the
second call checks the balance before the first has updated the local profile, both
calls succeed and the stored balance ends at 40. -/
theorem overlapping_debits_safe (s : AuthState) (u : String) (p d : UserProfile)
    (schedule : List Bool) (hu : s.user = some u) (hp : s.userProfile = some p)
    (hpw : p.walletBalance = some 100) (hd : getDoc s.db.users u = some d)
    (hdw : d.walletBalance = some 100) :
    (storedBalance (runSchedule (twoDebits s) schedule).state.db u = 100 ∨
      storedBalance (runSchedule (twoDebits s) schedule).state.db u = 40) ∧
    0 ≤ storedBalance (runSchedule (twoDebits s) schedule).state.db u ∧
    (∀ e, (runSchedule (twoDebits s) schedule).first = .returned (.error e) →
      e = "Insufficient wallet balance" ∧
      (runSchedule (twoDebits s) schedule).second = .returned (.ok (some 40))) ∧
    (∀ e, (runSchedule (twoDebits s) schedule).second = .returned (.error e) →
      e = "Insufficient wallet balance" ∧
      (runSchedule (twoDebits s) schedule).first = .returned (.ok (some 40))) ∧
    (runSchedule (twoDebits s) [false, false, false, true, true, true]).first
      = .returned (.ok (some 40)) ∧
    (runSchedule (twoDebits s) [false, false, false, true, true, true]).second
      = .returned (.error "Insufficient wallet balance") ∧
    storedBalance (runSchedule (twoDebits s) [false, false, false, true, true, true]).state.db u
      = 40 ∧
    (runSchedule (twoDebits s) [false, true, false, true, false, true]).first
      = .returned (.ok (some 40)) ∧
    (runSchedule (twoDebits s) [false, true, false, true, false, true]).second
      = .returned (.ok (some 40)) ∧
    storedBalance (runSchedule (twoDebits s) [false, true, false, true, false, true]).state.db u
      = 40 := by
  have hinit : DebitInv u (twoDebits s) :=
    ⟨hu, ⟨p, hp, Or.inl hpw, fun h => by rw [hpw] at h; simp at h⟩, ⟨d, hd, Or.inl hdw⟩,
      Or.inl rfl, Or.inl rfl⟩
  obtain ⟨-, -, ⟨d', hd', hdw'⟩, hf, hsnd⟩ := DebitInv_runSchedule u schedule _ hinit
  have hstored : storedBalance (runSchedule (twoDebits s) schedule).state.db u = 100 ∨
      storedBalance (runSchedule (twoDebits s) schedule).state.db u = 40 := by
    unfold storedBalance
    rw [hd']
    rcases hdw' with h | h
    · exact Or.inl (by simp [h, orZero])
    · exact Or.inr (by simp [h, orZero])
  obtain ⟨users, hupd, hget⟩ := updateDoc_of_getDoc s.db.users u
    (fun d => { d with walletBalance := some 40 }) d hd
  have hserial : runSchedule (twoDebits s) [false, false, false, true, true, true]
      = { state := { s with db := { s.db with users := users }
                            userProfile := some { p with walletBalance := some 40 } }
          first := .returned (.ok (some 40))
          second := .returned (.error "Insufficient wallet balance") } := by
    have hs1 : stepWalletCall none s (.called (some 60) "subtract")
        = (s, .issued u (some 40)) := by
      simp [stepWalletCall, hu, hp, hpw, newBalance, ltZero, orZero]
      norm_num
    have hs2 : stepWalletCall none s (.issued u (some 40))
        = ({ s with db := { s.db with users := users } }, .written (some 40)) := by
      simp [stepWalletCall, hupd]
    have hs3 : stepWalletCall none { s with db := { s.db with users := users } }
        (.written (some 40))
        = ({ s with db := { s.db with users := users }
                    userProfile := some { p with walletBalance := some 40 } },
           .returned (.ok (some 40))) := by
      simp [stepWalletCall, hp]
    have hs4 : stepWalletCall none
        { s with db := { s.db with users := users }
                 userProfile := some { p with walletBalance := some 40 } }
        (.called (some 60) "subtract")
        = ({ s with db := { s.db with users := users }
                    userProfile := some { p with walletBalance := some 40 } },
           .returned (.error "Insufficient wallet balance")) := by
      simp [stepWalletCall, hu, newBalance, ltZero, orZero]
      norm_num
    simp only [runSchedule, twoDebits, hs1, hs2, hs3, hs4, stepWalletCall_returned]
  obtain ⟨users2, hupd2, hget2⟩ := updateDoc_of_getDoc users u
    (fun d => { d with walletBalance := some 40 }) _ hget
  have hoverlap : runSchedule (twoDebits s) [false, true, false, true, false, true]
      = { state := { s with db := { s.db with users := users2 }
                            userProfile := some { p with walletBalance := some 40 } }
          first := .returned (.ok (some 40))
          second := .returned (.ok (some 40)) } := by
    have hs1 : stepWalletCall none s (.called (some 60) "subtract")
        = (s, .issued u (some 40)) := by
      simp [stepWalletCall, hu, hp, hpw, newBalance, ltZero, orZero]
      norm_num
    have hs2 : stepWalletCall none s (.issued u (some 40))
        = ({ s with db := { s.db with users := users } }, .written (some 40)) := by
      simp [stepWalletCall, hupd]
    have hs3 : stepWalletCall none { s with db := { s.db with users := users } }
        (.issued u (some 40))
        = ({ s with db := { s.db with users := users2 } }, .written (some 40)) := by
      simp [stepWalletCall, hupd2]
    have hs4 : stepWalletCall none { s with db := { s.db with users := users2 } }
        (.written (some 40))
        = ({ s with db := { s.db with users := users2 }
                    userProfile := some { p with walletBalance := some 40 } },
           .returned (.ok (some 40))) := by
      simp [stepWalletCall, hp]
    have hs5 : stepWalletCall none
        { s with db := { s.db with users := users2 }
                 userProfile := some { p with walletBalance := some 40 } }
        (.written (some 40))
        = ({ s with db := { s.db with users := users2 }
                    userProfile := some { p with walletBalance := some 40 } },
           .returned (.ok (some 40))) := by
      simp [stepWalletCall]
    simp only [runSchedule, twoDebits, hs1, hs2, hs3, hs4, hs5]
  refine ⟨hstored, ?_, ?_, ?_, ?_, ?_, ?_, ?_, ?_, ?_⟩
  · rcases hstored with h | h <;> rw [h] <;> norm_num
  · intro e he
    rcases hf with h | h | h | h | ⟨h, h'⟩ <;> rw [h] at he
    · cases he
    · cases he
    · cases he
    · cases he
    · injection he with he
      injection he with he
      exact ⟨he.symm, h'⟩
  · intro e he
    rcases hsnd with h | h | h | h | ⟨h, h'⟩ <;> rw [h] at he
    · cases he
    · cases he
    · cases he
    · cases he
    · injection he with he
      injection he with he
      exact ⟨he.symm, h'⟩
  · rw [hserial]
  · rw [hserial]
  · rw [hserial]
    simp [storedBalance, hget, orZero]
  · rw [hoverlap]
  · rw [hoverlap]
  · rw [hoverlap]
    simp [storedBalance, hget2, orZero]

/-- The statement of C5 (amended) on the interleaving in which the two calls alternate. -/
theorem overlapping_debits_safe_witness :
    (sampleState 100).user = some "u1" ∧
    0 ≤ storedBalance
      (runSchedule (twoDebits (sampleState 100)) [false, true, false, true, false, true]).state.db
      "u1" ∧
    (runSchedule (twoDebits (sampleState 100)) [false, false, false, true, true, true]).second
      = .returned (.error "Insufficient wallet balance") :=
  ⟨rfl,
   (overlapping_debits_safe (sampleState 100) "u1" (sampleProfile 100) (sampleProfile 100)
      [false, true, false, true, false, true] rfl rfl rfl (by simp [sampleState, getDoc])
      rfl).2.1,
   (overlapping_debits_safe (sampleState 100) "u1" (sampleProfile 100) (sampleProfile 100)
      [false, true, false, true, false, true] rfl rfl rfl (by simp [sampleState, getDoc])
      rfl).2.2.2.2.2.1⟩

/-! ## Success and failure of `updateWalletBalance` -/

/-- A failed `updateWalletBalance` leaves the state as it was. -/
theorem updateWalletBalance_error (fault : StoreFault) (s : AuthState) (amount : Option Rat)
    (type : String) (e : String) (h : (updateWalletBalance fault s amount type).2 = .error e) :
    (updateWalletBalance fault s amount type).1 = s := by
  cases hu : s.user with
  | none => simp [updateWalletBalance, hu]
  | some uid =>
    cases hp : s.userProfile with
    | none => simp [updateWalletBalance, hu, hp]
    | some profile =>
      by_cases hlt : ltZero (newBalance (orZero profile.walletBalance) amount type) = true
      · simp [updateWalletBalance, hu, hp, hlt]
      · cases fault with
        | some msg => simp [updateWalletBalance, hu, hp, hlt]
        | none =>
          cases hupd : updateDoc s.db.users uid (fun d =>
              { d with walletBalance := newBalance (orZero profile.walletBalance) amount type }) with
          | none => simp [updateWalletBalance, hu, hp, hlt, hupd]
          | some users => simp [updateWalletBalance, hu, hp, hlt, hupd] at h

/-- A successful `updateWalletBalance` by user `uid`: the write was not rejected, the
returned balance is `newBalance` and is not negative, and it is the balance that the
stored document and the local profile hold afterwards. -/
theorem updateWalletBalance_ok (fault : StoreFault) (s : AuthState) (uid : String)
    (profile : UserProfile) (amount : Option Rat) (type : String) (nb : Option Rat)
    (hu : s.user = some uid) (hp : s.userProfile = some profile)
    (h : (updateWalletBalance fault s amount type).2 = .ok nb) :
    fault = none ∧ nb = newBalance (orZero profile.walletBalance) amount type ∧
    ltZero nb = false ∧
    (∃ doc, getDoc s.db.users uid = some doc ∧
      getDoc (updateWalletBalance fault s amount type).1.db.users uid
        = some { doc with walletBalance := nb }) ∧
    (updateWalletBalance fault s amount type).1.userProfile
      = some { profile with walletBalance := nb } := by
  by_cases hlt : ltZero (newBalance (orZero profile.walletBalance) amount type) = true
  · simp [updateWalletBalance, hu, hp, hlt] at h
  · cases fault with
    | some msg => simp [updateWalletBalance, hu, hp, hlt] at h
    | none =>
      cases hupd : updateDoc s.db.users uid (fun d =>
          { d with walletBalance := newBalance (orZero profile.walletBalance) amount type }) with
      | none => simp [updateWalletBalance, hu, hp, hlt, hupd] at h
      | some users =>
        obtain ⟨doc, h1, h2⟩ := getDoc_of_updateDoc _ _ _ _ hupd
        have hrun : updateWalletBalance none s amount type
            = ({ s with
                  db := { s.db with users := users }
                  userProfile := some { profile with
                    walletBalance := newBalance (orZero profile.walletBalance) amount type } },
               .ok (newBalance (orZero profile.walletBalance) amount type)) := by
          simp [updateWalletBalance, hu, hp, hlt, hupd]
        rw [hrun] at h ⊢
        injection h with h
        subst h
        exact ⟨rfl, rfl, by simpa using hlt, ⟨doc, h1, h2⟩, rfl⟩

/-- A call of `updateWalletBalance` by a signed-in user whose document exists succeeds when the
new balance is not negative and the write is not rejected. -/
theorem updateWalletBalance_of_sufficient (s : AuthState) (uid : String)
    (profile doc : UserProfile) (amount : Option Rat) (type : String)
    (hu : s.user = some uid) (hp : s.userProfile = some profile)
    (hdoc : getDoc s.db.users uid = some doc)
    (hnb : ltZero (newBalance (orZero profile.walletBalance) amount type) = false) :
    (updateWalletBalance none s amount type).2
      = .ok (newBalance (orZero profile.walletBalance) amount type) := by
  obtain ⟨users, hupd, -⟩ := updateDoc_of_getDoc s.db.users uid (fun d =>
    { d with walletBalance := newBalance (orZero profile.walletBalance) amount type }) doc hdoc
  simp [updateWalletBalance, hu, hp, hnb, hupd]

/-! ## Withdrawal -/

/-- The `amountError` that `validateForm` leaves, and that a form it accepts has passed
the amount block: the later blocks do not touch `amountError` and never turn a rejection
into an acceptance. -/
theorem validateForm_amount (parseFloat : String → Option Rat) (form : WithdrawForm)
    (userProfile : Option UserProfile) (a : Rat) (hparse : parseFloat form.amount = some a)
    (hvalid : (validateAmount parseFloat form.amount).isValid = true) :
    (validateForm parseFloat form userProfile).2.amountError
      = (if exceedsBalance a form.transferFee userProfile
         then "Insufficient wallet balance (including transfer fee)" else "") ∧
    ((validateForm parseFloat form userProfile).1 = true →
      exceedsBalance a form.transferFee userProfile = false) := by
  unfold validateForm
  simp only [hvalid, hparse]
  cases hex : exceedsBalance a form.transferFee userProfile <;>
    simp only [not_true_eq_false, if_false, if_true, Bool.false_eq_true] <;>
    constructor <;> (repeat' split) <;> simp_all

/-- C6: for a signed-in user with local balance `B` whose document exists, and with the
store write not rejected, the balance test `a + f <= B` of `validateForm` passes exactly
when `updateWalletBalance(a + f, 'subtract')` succeeds; for an amount that
`validateAmount` accepts, `validateForm` leaves no amount error exactly in that case. -/
theorem validateForm_agrees_with_updateWalletBalance (s : AuthState) (uid : String)
    (profile doc : UserProfile) (a f B : Rat) (hu : s.user = some uid)
    (hp : s.userProfile = some profile) (hdoc : getDoc s.db.users uid = some doc)
    (hB : orZero profile.walletBalance = B) :
    (exceedsBalance a f s.userProfile = false ↔ a + f ≤ B) ∧
    (exceedsBalance a f s.userProfile = false ↔
      ∃ nb, (updateWalletBalance none s (some (a + f)) "subtract").2 = .ok nb) ∧
    (∀ (parseFloat : String → Option Rat) (form : WithdrawForm),
      parseFloat form.amount = some a → form.transferFee = f →
      (validateAmount parseFloat form.amount).isValid = true →
      ((validateForm parseFloat form s.userProfile).2.amountError = "" ↔
        ∃ nb, (updateWalletBalance none s (some (a + f)) "subtract").2 = .ok nb)) := by
  have htest : exceedsBalance a f s.userProfile = false ↔ a + f ≤ B := by
    simp [exceedsBalance, hp, hB]
  have hcommit : (∃ nb, (updateWalletBalance none s (some (a + f)) "subtract").2 = .ok nb)
      ↔ a + f ≤ B := by
    constructor
    · rintro ⟨nb, hnb⟩
      obtain ⟨-, hval, hlt, -, -⟩ := updateWalletBalance_ok none s uid profile _ _ nb hu hp hnb
      rw [hval, hB] at hlt
      simp [newBalance, ltZero] at hlt
      linarith
    · intro hle
      refine ⟨_, updateWalletBalance_of_sufficient s uid profile doc _ _ hu hp hdoc ?_⟩
      rw [hB]
      simp [newBalance, ltZero]
      linarith
  refine ⟨htest, htest.trans hcommit.symm, ?_⟩
  intro parseFloat form hparse hfee hvalid
  obtain ⟨herr, -⟩ := validateForm_amount parseFloat form s.userProfile a hparse hvalid
  rw [herr, hfee, hcommit, ← htest]
  cases exceedsBalance a f s.userProfile <;> simp

/-- The statement of C6 for amount 1000, fee 50 and balance 1050. -/
theorem validateForm_agrees_with_updateWalletBalance_witness :
    (exceedsBalance 1000 50 (sampleState 1050).userProfile = false ↔ (1000 : Rat) + 50 ≤ 1050) ∧
    (exceedsBalance 1000 50 (sampleState 1050).userProfile = false ↔
      ∃ nb, (updateWalletBalance none (sampleState 1050) (some (1000 + 50)) "subtract").2
        = .ok nb) :=
  ⟨(validateForm_agrees_with_updateWalletBalance (sampleState 1050) "u1" (sampleProfile 1050)
      (sampleProfile 1050) 1000 50 1050 rfl rfl (by simp [sampleState, getDoc])
      (by simp [sampleProfile, orZero])).1,
   (validateForm_agrees_with_updateWalletBalance (sampleState 1050) "u1" (sampleProfile 1050)
      (sampleProfile 1050) 1000 50 1050 rfl rfl (by simp [sampleState, getDoc])
      (by simp [sampleProfile, orZero])).2.1⟩

/-- C7: for an amount `a` that `validateAmount` accepts, a transfer fee `f` and a wallet
balance `B` with `a + f > B`, `validateForm` returns `false` and sets the amount error
`Insufficient wallet balance (including transfer fee)`, whatever the other fields of
the form are. -/
theorem validateForm_rejects_insufficient (parseFloat : String → Option Rat)
    (form : WithdrawForm) (userProfile : Option UserProfile) (a B : Rat)
    (hparse : parseFloat form.amount = some a)
    (hvalid : (validateAmount parseFloat form.amount).isValid = true)
    (hB : orZero (userProfile.bind (fun p => p.walletBalance)) = B)
    (hgt : a + form.transferFee > B) :
    (validateForm parseFloat form userProfile).1 = false ∧
    (validateForm parseFloat form userProfile).2.amountError
      = "Insufficient wallet balance (including transfer fee)" := by
  have hex : exceedsBalance a form.transferFee userProfile = true := by
    simp [exceedsBalance, hB, hgt]
  obtain ⟨herr, hacc⟩ := validateForm_amount parseFloat form userProfile a hparse hvalid
  constructor
  · cases hv : (validateForm parseFloat form userProfile).1 with
    | false => rfl
    | true =>
      have := hacc hv
      rw [hex] at this
      cases this
  · rw [herr, hex]
    rfl

/-- The statement of C7 for amount 1000, fee 50 and balance 900. -/
theorem validateForm_rejects_insufficient_witness :
    (1000 : Rat) + sampleForm.transferFee > 900 ∧
    (validateForm sampleParseFloat sampleForm (some (sampleProfile 900))).1 = false ∧
    (validateForm sampleParseFloat sampleForm (some (sampleProfile 900))).2.amountError
      = "Insufficient wallet balance (including transfer fee)" :=
  ⟨by norm_num [sampleForm],
   validateForm_rejects_insufficient sampleParseFloat sampleForm (some (sampleProfile 900))
    1000 900 (by simp [sampleParseFloat, sampleForm])
    (by simp [validateAmount, sampleParseFloat, sampleForm]; norm_num)
    (by simp [sampleProfile, orZero]) (by norm_num [sampleForm])⟩

/-- What `processWithdrawal` does after a transfer that was initiated. -/
theorem processWithdrawal_of_transfer (parseFloat : String → Option Rat) (fault : StoreFault)
    (form : WithdrawForm) (s : AuthState) :
    (processWithdrawal parseFloat (.ok ()) fault form s).auth
      = (updateWalletBalance fault s
          ((parseFloat form.amount).map (fun a => a + form.transferFee)) "subtract").1 ∧
    (∀ nb, (updateWalletBalance fault s
          ((parseFloat form.amount).map (fun a => a + form.transferFee)) "subtract").2 = .ok nb →
      (processWithdrawal parseFloat (.ok ()) fault form s).alert = some "Withdrawal Initiated" ∧
      (processWithdrawal parseFloat (.ok ()) fault form s).form = form) ∧
    (∀ e, (updateWalletBalance fault s
          ((parseFloat form.amount).map (fun a => a + form.transferFee)) "subtract").2 = .error e →
      (processWithdrawal parseFloat (.ok ()) fault form s).alert = none ∧
      (processWithdrawal parseFloat (.ok ()) fault form s).form.error
        = "Withdrawal initiated but wallet update failed. Please contact support.") := by
  unfold processWithdrawal
  simp only
  refine ⟨?_, ?_, ?_⟩
  · split <;> rfl
  · intro nb h
    rw [h]
    exact ⟨rfl, rfl⟩
  · intro e h
    rw [h]
    exact ⟨rfl, rfl⟩

/-- What `processWithdrawal` does after a transfer that failed. -/
theorem processWithdrawal_of_failed_transfer (parseFloat : String → Option Rat) (e : String)
    (fault : StoreFault) (form : WithdrawForm) (s : AuthState) :
    processWithdrawal parseFloat (.error e) fault form s
      = { form := { form with error := orStr e "Withdrawal failed. Please try again." }
          auth := s
          alert := none } := rfl

/-- C8: for the amount `a` read from the form, the fee `f = transferFee` and the local
balance `B`, the withdrawal summary (shown when the amount is filled in and has no
error) computes `totalDeduction = a + f` and `remainingBalance = B - (a + f)`; every
run of `processWithdrawal` on the same form and state that ends in `Withdrawal
Initiated` has stored exactly that `remainingBalance` as the user's wallet balance, and
such a run exists when `a + f <= B`. -/
theorem withdrawalSummary_matches_debit (parseFloat : String → Option Rat)
    (form : WithdrawForm) (s : AuthState) (uid : String) (profile : UserProfile) (a B : Rat)
    (hu : s.user = some uid) (hp : s.userProfile = some profile)
    (hparse : parseFloat form.amount = some a) (hB : orZero profile.walletBalance = B) :
    (form.amount ≠ "" → form.amountError = "" →
      renderWithdrawalSummary parseFloat form s.userProfile
        = some { numAmount := some a
                 transferFee := form.transferFee
                 totalDeduction := some (a + form.transferFee)
                 remainingBalance := some (B - (a + form.transferFee)) }) ∧
    (∀ sm, renderWithdrawalSummary parseFloat form s.userProfile = some sm →
      sm.totalDeduction = some (a + form.transferFee) ∧
      sm.remainingBalance = some (B - (a + form.transferFee))) ∧
    (∀ (transfer : Except String Unit) (fault : StoreFault),
      (processWithdrawal parseFloat transfer fault form s).alert = some "Withdrawal Initiated" →
      (getDoc (processWithdrawal parseFloat transfer fault form s).auth.db.users uid).bind
        (fun d => d.walletBalance) = some (B - (a + form.transferFee))) ∧
    (∀ doc, getDoc s.db.users uid = some doc → a + form.transferFee ≤ B →
      (processWithdrawal parseFloat (.ok ()) none form s).alert = some "Withdrawal Initiated") := by
  have hsum : ∀ sm, renderWithdrawalSummary parseFloat form s.userProfile = some sm →
      sm = { numAmount := some a
             transferFee := form.transferFee
             totalDeduction := some (a + form.transferFee)
             remainingBalance := some (B - (a + form.transferFee)) } := by
    intro sm hsm
    unfold renderWithdrawalSummary at hsm
    split_ifs at hsm with hshow
    simp only [hparse, hp, Option.map_some', Option.some_bind, hB] at hsm
    injection hsm with hsm
    exact hsm.symm
  refine ⟨?_, ?_, ?_, ?_⟩
  · intro hne herr
    unfold renderWithdrawalSummary
    rw [if_neg (by simp [hne, herr])]
    simp only [hparse, hp, Option.map_some', Option.some_bind, hB]
  · intro sm hsm
    rw [hsum sm hsm]
    exact ⟨rfl, rfl⟩
  · intro transfer fault halert
    cases transfer with
    | error e =>
      rw [processWithdrawal_of_failed_transfer] at halert
      cases halert
    | ok u =>
      obtain ⟨hauth, -, hfail⟩ := processWithdrawal_of_transfer parseFloat fault form s
      rw [hparse] at hauth hfail
      simp only [Option.map_some'] at hauth hfail
      cases hres : (updateWalletBalance fault s (some (a + form.transferFee)) "subtract").2 with
      | error e =>
        rw [(hfail e hres).1] at halert
        cases halert
      | ok nb =>
        obtain ⟨-, hval, -, ⟨doc, -, hget⟩, -⟩ :=
          updateWalletBalance_ok fault s uid profile _ _ nb hu hp hres
        rw [hauth, hget, hval, hB]
        simp [newBalance]
  · intro doc hdoc hle
    obtain ⟨-, hok, -⟩ := processWithdrawal_of_transfer parseFloat none form s
    rw [hparse] at hok
    simp only [Option.map_some'] at hok
    refine (hok _ (updateWalletBalance_of_sufficient s uid profile doc _ _ hu hp hdoc ?_)).1
    rw [hB]
    simp [newBalance, ltZero]
    linarith

/-- The statement of C8 for amount 1000, fee 50 and balance 1050. -/
theorem withdrawalSummary_matches_debit_witness :
    renderWithdrawalSummary sampleParseFloat sampleForm (sampleState 1050).userProfile
      = some { numAmount := some 1000
               transferFee := sampleForm.transferFee
               totalDeduction := some (1000 + sampleForm.transferFee)
               remainingBalance := some (1050 - (1000 + sampleForm.transferFee)) } ∧
    (processWithdrawal sampleParseFloat (.ok ()) none sampleForm (sampleState 1050)).alert
      = some "Withdrawal Initiated" :=
  ⟨(withdrawalSummary_matches_debit sampleParseFloat sampleForm (sampleState 1050) "u1"
      (sampleProfile 1050) 1000 1050 rfl rfl (by simp [sampleParseFloat, sampleForm])
      (by simp [sampleProfile, orZero])).1 (by simp [sampleForm]) (by simp [sampleForm]),
   (withdrawalSummary_matches_debit sampleParseFloat sampleForm (sampleState 1050) "u1"
      (sampleProfile 1050) 1000 1050 rfl rfl (by simp [sampleParseFloat, sampleForm])
      (by simp [sampleProfile, orZero])).2.2.2 (sampleProfile 1050)
      (by simp [sampleState, getDoc]) (by norm_num [sampleForm])⟩

/-- C9 (counterexample): the transfer is initiated and the wallet is not debited.
With amount 1000 and fee 50, a transfer that succeeds followed by a rejected store
write leaves the balance of 1050 untouched, and a transfer that succeeds against a
balance of 900 leaves the balance at 900; both runs end with the message `Withdrawal
initiated but wallet update failed. Please contact support.` -/
theorem processWithdrawal_transfer_without_debit :
    ((processWithdrawal sampleParseFloat (.ok ()) (some "unavailable") sampleForm
        (sampleState 1050)).auth = sampleState 1050 ∧
      (processWithdrawal sampleParseFloat (.ok ()) (some "unavailable") sampleForm
        (sampleState 1050)).form.error
        = "Withdrawal initiated but wallet update failed. Please contact support.") ∧
    ((processWithdrawal sampleParseFloat (.ok ()) none sampleForm (sampleState 900)).auth
        = sampleState 900 ∧
      (processWithdrawal sampleParseFloat (.ok ()) none sampleForm (sampleState 900)).form.error
        = "Withdrawal initiated but wallet update failed. Please contact support.") := by
  have h1 : updateWalletBalance (some "unavailable") (sampleState 1050)
      ((sampleParseFloat sampleForm.amount).map (fun a => a + sampleForm.transferFee))
      "subtract" = (sampleState 1050, .error "unavailable") := by
    simp [updateWalletBalance, sampleState, sampleParseFloat, sampleForm, sampleProfile,
      newBalance, ltZero, orZero]
    norm_num
  have h2 : updateWalletBalance none (sampleState 900)
      ((sampleParseFloat sampleForm.amount).map (fun a => a + sampleForm.transferFee))
      "subtract" = (sampleState 900, .error "Insufficient wallet balance") := by
    simp [updateWalletBalance, sampleState, sampleParseFloat, sampleForm, sampleProfile,
      newBalance, ltZero, orZero]
    norm_num
  obtain ⟨ha1, -, hf1⟩ := processWithdrawal_of_transfer sampleParseFloat (some "unavailable")
    sampleForm (sampleState 1050)
  obtain ⟨ha2, -, hf2⟩ := processWithdrawal_of_transfer sampleParseFloat none
    sampleForm (sampleState 900)
  rw [h1] at ha1 hf1
  rw [h2] at ha2 hf2
  exact ⟨⟨ha1, (hf1 _ rfl).2⟩, ⟨ha2, (hf2 _ rfl).2⟩⟩

/-- C9 (amended): in a run of `processWithdrawal` by a signed-in user with local balance
`B`, amount `a` and fee `f`: if `initiateTransfer` failed the state is left unchanged,
so the wallet is never debited without a successful transfer; if it succeeded, the
wallet is debited exactly when `updateWalletBalance(a + f, 'subtract')` succeeds, the
stored balance then being `B - (a + f)`, and when that call fails the state is left
unchanged and the error `Withdrawal initiated but wallet update failed. Please contact
support.` is set. -/
theorem processWithdrawal_debit (parseFloat : String → Option Rat) (form : WithdrawForm)
    (s : AuthState) (uid : String) (profile : UserProfile) (a B : Rat) (fault : StoreFault)
    (hu : s.user = some uid) (hp : s.userProfile = some profile)
    (hparse : parseFloat form.amount = some a) (hB : orZero profile.walletBalance = B) :
    (∀ e, (processWithdrawal parseFloat (.error e) fault form s).auth = s) ∧
    (∀ transfer, (processWithdrawal parseFloat transfer fault form s).auth ≠ s →
      transfer = .ok ()) ∧
    (∀ nb, (updateWalletBalance fault s (some (a + form.transferFee)) "subtract").2 = .ok nb →
      (getDoc (processWithdrawal parseFloat (.ok ()) fault form s).auth.db.users uid).bind
        (fun d => d.walletBalance) = some (B - (a + form.transferFee)) ∧
      (processWithdrawal parseFloat (.ok ()) fault form s).alert
        = some "Withdrawal Initiated") ∧
    (∀ e, (updateWalletBalance fault s (some (a + form.transferFee)) "subtract").2 = .error e →
      (processWithdrawal parseFloat (.ok ()) fault form s).auth = s ∧
      (processWithdrawal parseFloat (.ok ()) fault form s).alert = none ∧
      (processWithdrawal parseFloat (.ok ()) fault form s).form.error
        = "Withdrawal initiated but wallet update failed. Please contact support.") := by
  obtain ⟨hauth, hok, hfail⟩ := processWithdrawal_of_transfer parseFloat fault form s
  rw [hparse] at hauth hok hfail
  simp only [Option.map_some'] at hauth hok hfail
  refine ⟨fun e => rfl, ?_, ?_, ?_⟩
  · intro transfer hne
    cases transfer with
    | error e => exact absurd rfl hne
    | ok u => rfl
  · intro nb hres
    obtain ⟨-, hval, -, ⟨doc, -, hget⟩, -⟩ :=
      updateWalletBalance_ok fault s uid profile _ _ nb hu hp hres
    refine ⟨?_, (hok nb hres).1⟩
    rw [hauth, hget, hval, hB]
    simp [newBalance]
  · intro e hres
    refine ⟨?_, (hfail e hres).1, (hfail e hres).2⟩
    rw [hauth]
    exact updateWalletBalance_error fault s _ _ e hres

/-- The statement of C9 (amended) for amount 1000, fee 50 and balance 1050: after a
successful transfer and a completed write the stored balance is 0. -/
theorem processWithdrawal_debit_witness :
    (sampleState 1050).user = some "u1" ∧
    (getDoc (processWithdrawal sampleParseFloat (.ok ()) none sampleForm
        (sampleState 1050)).auth.db.users "u1").bind (fun d => d.walletBalance)
      = some (1050 - (1000 + sampleForm.transferFee)) :=
  ⟨rfl,
   ((processWithdrawal_debit sampleParseFloat sampleForm (sampleState 1050) "u1"
      (sampleProfile 1050) 1000 1050 none rfl rfl (by simp [sampleParseFloat, sampleForm])
      (by simp [sampleProfile, orZero])).2.2.1 _
      (updateWalletBalance_of_sufficient (sampleState 1050) "u1" (sampleProfile 1050)
        (sampleProfile 1050) _ _ rfl rfl (by simp [sampleState, getDoc])
        (by simp [newBalance, ltZero, sampleProfile, orZero, sampleForm]; norm_num))).1⟩

/-! ## Loyalty tier -/

/-- C10: for a transaction count `c` (a natural number) the tier computed by
`updateLoyaltyTier` is GOLD if `c >= 50`, SILVER if `10 <= c < 50` and BRONZE if
`c < 10`; 9 gives BRONZE, 10 and 49 give SILVER, 50 gives GOLD; and after a call of
`updateLoyaltyTier` that does not fail (the profile already has the tier, or the write
is not rejected and the user's document exists) the local profile's `loyaltyTier` is
that tier, and so is the stored one when it was written. -/
theorem updateLoyaltyTier_tier (c : Nat) :
    (50 ≤ c → newTier c = "GOLD") ∧
    (10 ≤ c → c < 50 → newTier c = "SILVER") ∧
    (c < 10 → newTier c = "BRONZE") ∧
    newTier 9 = "BRONZE" ∧ newTier 10 = "SILVER" ∧ newTier 49 = "SILVER" ∧
    newTier 50 = "GOLD" ∧
    (∀ (fault : StoreFault) (s : AuthState) (uid : String) (profile doc : UserProfile),
      s.user = some uid → s.userProfile = some profile →
      profile.transactionCount = some (c : Rat) →
      (profile.loyaltyTier = some (newTier c) ∨
        (fault = none ∧ getDoc s.db.users uid = some doc)) →
      (∃ p, (updateLoyaltyTier fault s).userProfile = some p ∧
        p.loyaltyTier = some (newTier c)) ∧
      (profile.loyaltyTier ≠ some (newTier c) →
        ∃ d, getDoc (updateLoyaltyTier fault s).db.users uid = some d ∧
          d.loyaltyTier = some (newTier c))) := by
  refine ⟨?_, ?_, ?_, ?_, ?_, ?_, ?_, ?_⟩
  · intro h
    have : (50 : Rat) ≤ c := by exact_mod_cast h
    simp [newTier, this]
  · intro h1 h2
    have h1' : (10 : Rat) ≤ c := by exact_mod_cast h1
    have h2' : ¬ (50 : Rat) ≤ c := by
      rw [not_le]
      exact_mod_cast h2
    simp [newTier, h1', h2']
  · intro h
    have h1 : ¬ (10 : Rat) ≤ c := by
      rw [not_le]
      exact_mod_cast h
    have h2 : ¬ (50 : Rat) ≤ c := by
      intro h50
      exact h1 (le_trans (by norm_num) h50)
    simp [newTier, h1, h2]
  · simp [newTier]
    norm_num
  · simp [newTier]
    norm_num
  · simp [newTier]
    norm_num
  · simp [newTier]
  · intro fault s uid profile doc hu hp hc hok
    by_cases hsame : profile.loyaltyTier = some (newTier c)
    · have hrun : updateLoyaltyTier fault s = s := by
        simp [updateLoyaltyTier, hu, hp, hc, orZero, hsame]
      rw [hrun]
      exact ⟨⟨profile, hp, hsame⟩, fun h => absurd hsame h⟩
    · rcases hok with hok | ⟨hfault, hdoc⟩
      · exact absurd hok hsame
      · subst hfault
        obtain ⟨users, hupd, hget⟩ := updateDoc_of_getDoc s.db.users uid
          (fun d => { d with loyaltyTier := some (newTier c) }) doc hdoc
        have hne : ¬ some (newTier c) = profile.loyaltyTier := fun h => hsame h.symm
        have hrun : updateLoyaltyTier none s
            = { s with
                  db := { s.db with users := users }
                  userProfile := some { profile with loyaltyTier := some (newTier c) } } := by
          simp [updateLoyaltyTier, hu, hp, hc, orZero, hne, hupd]
        rw [hrun]
        exact ⟨⟨_, rfl, rfl⟩, fun _ => ⟨_, hget, rfl⟩⟩

/-- The statement of C10 at the count 10 on a stored BRONZE profile. -/
theorem updateLoyaltyTier_tier_witness :
    newTier 10 = "SILVER" ∧
    ∃ p, (updateLoyaltyTier none
        { sampleState 0 with
            userProfile := some { sampleProfile 0 with transactionCount := some 10 } }).userProfile
        = some p ∧ p.loyaltyTier = some (newTier ((10 : Nat) : Rat)) :=
  ⟨(updateLoyaltyTier_tier 10).2.2.2.2.1,
   ((updateLoyaltyTier_tier 10).2.2.2.2.2.2.2 none
      { sampleState 0 with
          userProfile := some { sampleProfile 0 with transactionCount := some 10 } }
      "u1" { sampleProfile 0 with transactionCount := some 10 } (sampleProfile 0) rfl rfl
      (by simp) (Or.inr ⟨rfl, by simp [sampleState, getDoc]⟩)).1⟩

/-- C11: the tier computed by `updateLoyaltyTier` is monotonic in the transaction count:
for counts `c1 <= c2` the tier of `c1` is not above the tier of `c2` in the order
BRONZE < SILVER < GOLD. -/
theorem newTier_monotone (c1 c2 : Rat) (h : c1 ≤ c2) :
    tierRank "BRONZE" < tierRank "SILVER" ∧ tierRank "SILVER" < tierRank "GOLD" ∧
    tierRank (newTier c1) ≤ tierRank (newTier c2) := by
  refine ⟨by decide, by decide, ?_⟩
  unfold newTier
  by_cases h50 : c2 ≥ 50
  · rw [if_pos h50]
    split_ifs <;> decide
  · have h50' : ¬ c1 ≥ 50 := fun hc => h50 (le_trans hc h)
    rw [if_neg h50, if_neg h50']
    by_cases h10 : c2 ≥ 10
    · rw [if_pos h10]
      split_ifs <;> decide
    · have h10' : ¬ c1 ≥ 10 := fun hc => h10 (le_trans hc h)
      rw [if_neg h10, if_neg h10']

/-- The statement of C11 for the counts 9 and 10. -/
theorem newTier_monotone_witness :
    (9 : Rat) ≤ 10 ∧ tierRank (newTier 9) ≤ tierRank (newTier 10) :=
  ⟨by norm_num, (newTier_monotone 9 10 (by norm_num)).2.2⟩

/-- The state after `updateLoyaltyTier` when the call has changed it: the user and the
counts are as before and the local profile holds the recomputed tier. -/
theorem updateLoyaltyTier_cases (fault : StoreFault) (s : AuthState) :
    updateLoyaltyTier fault s = s ∨
    ∃ uid profile users,
      s.user = some uid ∧ s.userProfile = some profile ∧
      updateLoyaltyTier fault s
        = { s with
              db := { s.db with users := users }
              userProfile := some { profile with
                loyaltyTier := some (newTier (orZero profile.transactionCount)) } } := by
  cases hu : s.user with
  | none => exact Or.inl (by simp [updateLoyaltyTier, hu])
  | some uid =>
    cases hp : s.userProfile with
    | none => exact Or.inl (by simp [updateLoyaltyTier, hu, hp])
    | some profile =>
      by_cases hsame : some (newTier (orZero profile.transactionCount)) = profile.loyaltyTier
      · exact Or.inl (by simp [updateLoyaltyTier, hu, hp, hsame])
      · cases fault with
        | some msg => exact Or.inl (by simp [updateLoyaltyTier, hu, hp, hsame])
        | none =>
          cases hupd : updateDoc s.db.users uid (fun d =>
              { d with loyaltyTier := some (newTier (orZero profile.transactionCount)) }) with
          | none => exact Or.inl (by simp [updateLoyaltyTier, hu, hp, hsame, hupd])
          | some users =>
            refine Or.inr ⟨uid, profile, users, rfl, rfl, ?_⟩
            simp [updateLoyaltyTier, hu, hp, hsame, hupd]

/-- C12: when the recomputed tier equals the profile's current `loyaltyTier`,
`updateLoyaltyTier` returns the state as it was whatever the store would answer, so no
write is made; of two calls in a row at most one changes the state (either the first
leaves it as it was or the second does), and a second call under the same store
answer leaves the state that the first call left. -/
theorem updateLoyaltyTier_idempotent (s : AuthState) (f1 f2 : StoreFault) :
    (∀ uid profile, s.user = some uid → s.userProfile = some profile →
      profile.loyaltyTier = some (newTier (orZero profile.transactionCount)) →
      updateLoyaltyTier f1 s = s ∧ (updateLoyaltyTier f1 s).db = s.db) ∧
    (updateLoyaltyTier f1 s = s ∨
      updateLoyaltyTier f2 (updateLoyaltyTier f1 s) = updateLoyaltyTier f1 s) ∧
    updateLoyaltyTier f1 (updateLoyaltyTier f1 s) = updateLoyaltyTier f1 s := by
  have hsecond : updateLoyaltyTier f1 s = s ∨
      ∀ f, updateLoyaltyTier f (updateLoyaltyTier f1 s) = updateLoyaltyTier f1 s := by
    rcases updateLoyaltyTier_cases f1 s with h | ⟨uid, profile, users, hu, hp, h⟩
    · exact Or.inl h
    · refine Or.inr (fun f => ?_)
      rw [h]
      simp [updateLoyaltyTier, hu]
  refine ⟨?_, ?_, ?_⟩
  · intro uid profile hu hp hsame
    have h : updateLoyaltyTier f1 s = s := by
      simp [updateLoyaltyTier, hu, hp, hsame]
    exact ⟨h, by rw [h]⟩
  · rcases hsecond with h | h
    · exact Or.inl h
    · exact Or.inr (h f2)
  · rcases hsecond with h | h
    · rw [h, h]
    · exact h f1

/-- The statement of C12 on a stored BRONZE profile with 10 transactions: the first call
writes SILVER, the second call changes nothing. -/
theorem updateLoyaltyTier_idempotent_witness :
    updateLoyaltyTier none (updateLoyaltyTier none
        { sampleState 0 with
            userProfile := some { sampleProfile 0 with transactionCount := some 10 } })
      = updateLoyaltyTier none
        { sampleState 0 with
            userProfile := some { sampleProfile 0 with transactionCount := some 10 } } ∧
    (updateLoyaltyTier (some "unavailable") (sampleState 0)).db = (sampleState 0).db :=
  ⟨(updateLoyaltyTier_idempotent _ none none).2.2,
   ((updateLoyaltyTier_idempotent (sampleState 0) (some "unavailable") none).1 "u1"
      (sampleProfile 0) rfl rfl (by simp [sampleProfile, newTier, orZero]; norm_num)).2⟩

/-! ## NUBAN check digit -/

theorem isDigit_toNat (c : Char) (h : c.isDigit = true) : 48 ≤ c.toNat ∧ c.toNat ≤ 57 := by
  simp only [Char.isDigit, Bool.and_eq_true, decide_eq_true_eq] at h
  exact h

/-- A list of ten characters, spelled out. -/
theorem length_eq_ten (cs : List Char) (h : cs.length = 10) :
    ∃ c0 c1 c2 c3 c4 c5 c6 c7 c8 c9, cs = [c0, c1, c2, c3, c4, c5, c6, c7, c8, c9] := by
  match cs, h with
  | [c0, c1, c2, c3, c4, c5, c6, c7, c8, c9], _ => exact ⟨_, _, _, _, _, _, _, _, _, _, rfl⟩

/-- The entry of `digits` for a decimal digit. -/
theorem digits_of_isDigit (c : Char) (h : c.isDigit = true) :
    (if c.toNat > 0xFFFF then [none, none] else [NubanAPI.Number c])
      = [some (c.toNat - 48)] := by
  have hc := isDigit_toNat c h
  rw [if_neg (by omega)]
  simp [NubanAPI.Number, h]

/-- The check that `validateNubanAlgorithm` makes agrees with the closed formula. -/
theorem calculatedCheckDigit_eq (sum d : Nat) :
    (NubanAPI.calculatedCheckDigit sum == d) = true ↔ (10 - sum % 10) % 10 = d := by
  simp only [NubanAPI.calculatedCheckDigit, beq_iff_eq]
  split_ifs with h <;> omega

/-- C13: for every string of exactly ten decimal digits `d0 .. d9`,
`validateNubanAlgorithm` returns `true` if and only if
`(10 - ((3*d0 + 7*d1 + 3*d2 + 3*d3 + 7*d4 + 3*d5 + 3*d6 + 7*d7 + 3*d8) mod 10)) mod 10 = d9`;
for `0123456789` the weighted sum is 156, the computed check digit is 4, and the number
is rejected (`validateAccountNumber` reports `isValid = false`). -/
theorem validateNubanAlgorithm_iff (accountNumber : String) (hlen : accountNumber.length = 10)
    (hdigits : ∀ c ∈ accountNumber.toList, c.isDigit = true) :
    (NubanAPI.validateNubanAlgorithm accountNumber = true ↔
      (10 - ((3 * NubanAPI.digitAt accountNumber 0 + 7 * NubanAPI.digitAt accountNumber 1
        + 3 * NubanAPI.digitAt accountNumber 2 + 3 * NubanAPI.digitAt accountNumber 3
        + 7 * NubanAPI.digitAt accountNumber 4 + 3 * NubanAPI.digitAt accountNumber 5
        + 3 * NubanAPI.digitAt accountNumber 6 + 7 * NubanAPI.digitAt accountNumber 7
        + 3 * NubanAPI.digitAt accountNumber 8) % 10)) % 10
        = NubanAPI.digitAt accountNumber 9) ∧
    NubanAPI.weightedSum (NubanAPI.digits "0123456789") = some 156 ∧
    NubanAPI.calculatedCheckDigit 156 = 4 ∧
    NubanAPI.validateNubanAlgorithm "0123456789" = false ∧
    NubanAPI.validateAccountNumber "0123456789"
      = .ok { accountNumber := "0123456789"
              isValid := false
              message := "Invalid account number format" } := by
  have hrej : NubanAPI.validateNubanAlgorithm "0123456789" = false := by decide
  have hacc : NubanAPI.validateAccountNumber "0123456789"
      = .ok { accountNumber := "0123456789"
              isValid := false
              message := "Invalid account number format" } := by
    have hne : ¬ ("0123456789" = "") := by decide
    have hfmt : "0123456789".length = 10 ∧ "0123456789".toList.all Char.isDigit = true := by decide
    unfold NubanAPI.validateAccountNumber
    rw [if_neg hne, if_neg (not_not.mpr hfmt), hrej]
    rfl
  refine ⟨?_, by decide, by decide, hrej, hacc⟩
  obtain ⟨cs⟩ := accountNumber
  obtain ⟨c0, c1, c2, c3, c4, c5, c6, c7, c8, c9, rfl⟩ := length_eq_ten cs hlen
  have h0 := digits_of_isDigit c0 (hdigits c0 (by simp))
  have h1 := digits_of_isDigit c1 (hdigits c1 (by simp))
  have h2 := digits_of_isDigit c2 (hdigits c2 (by simp))
  have h3 := digits_of_isDigit c3 (hdigits c3 (by simp))
  have h4 := digits_of_isDigit c4 (hdigits c4 (by simp))
  have h5 := digits_of_isDigit c5 (hdigits c5 (by simp))
  have h6 := digits_of_isDigit c6 (hdigits c6 (by simp))
  have h7 := digits_of_isDigit c7 (hdigits c7 (by simp))
  have h8 := digits_of_isDigit c8 (hdigits c8 (by simp))
  have h9 := digits_of_isDigit c9 (hdigits c9 (by simp))
  have hds : NubanAPI.digits ⟨[c0, c1, c2, c3, c4, c5, c6, c7, c8, c9]⟩
      = [some (c0.toNat - 48), some (c1.toNat - 48), some (c2.toNat - 48),
         some (c3.toNat - 48), some (c4.toNat - 48), some (c5.toNat - 48),
         some (c6.toNat - 48), some (c7.toNat - 48), some (c8.toNat - 48),
         some (c9.toNat - 48)] := by
    simp only [NubanAPI.digits, String.toList, List.flatMap_cons, List.flatMap_nil, h0, h1, h2,
      h3, h4, h5, h6, h7, h8, h9, List.singleton_append, List.append_nil]
  have hrange : List.range 9 = [0, 1, 2, 3, 4, 5, 6, 7, 8] := by decide
  have hsum : NubanAPI.weightedSum
      [some (c0.toNat - 48), some (c1.toNat - 48), some (c2.toNat - 48),
       some (c3.toNat - 48), some (c4.toNat - 48), some (c5.toNat - 48),
       some (c6.toNat - 48), some (c7.toNat - 48), some (c8.toNat - 48),
       some (c9.toNat - 48)]
      = some (0 + (c0.toNat - 48) * 3 + (c1.toNat - 48) * 7 + (c2.toNat - 48) * 3
          + (c3.toNat - 48) * 3 + (c4.toNat - 48) * 7 + (c5.toNat - 48) * 3
          + (c6.toNat - 48) * 3 + (c7.toNat - 48) * 7 + (c8.toNat - 48) * 3) := by
    simp [NubanAPI.weightedSum, hrange, NubanAPI.weights]
  have hcheck : ([some (c0.toNat - 48), some (c1.toNat - 48), some (c2.toNat - 48),
       some (c3.toNat - 48), some (c4.toNat - 48), some (c5.toNat - 48),
       some (c6.toNat - 48), some (c7.toNat - 48), some (c8.toNat - 48),
       some (c9.toNat - 48)].get? 9).join = some (c9.toNat - 48) := rfl
  have hrun : NubanAPI.validateNubanAlgorithm ⟨[c0, c1, c2, c3, c4, c5, c6, c7, c8, c9]⟩
      = (NubanAPI.calculatedCheckDigit
          (0 + (c0.toNat - 48) * 3 + (c1.toNat - 48) * 7 + (c2.toNat - 48) * 3
          + (c3.toNat - 48) * 3 + (c4.toNat - 48) * 7 + (c5.toNat - 48) * 3
          + (c6.toNat - 48) * 3 + (c7.toNat - 48) * 7 + (c8.toNat - 48) * 3)
          == (c9.toNat - 48)) := by
    unfold NubanAPI.validateNubanAlgorithm
    simp only [hds, hsum, hcheck]
  rw [hrun, calculatedCheckDigit_eq]
  simp only [NubanAPI.digitAt, String.toList, List.getD_cons_succ, List.getD_cons_zero]
  have hS : 0 + (c0.toNat - 48) * 3 + (c1.toNat - 48) * 7 + (c2.toNat - 48) * 3
      + (c3.toNat - 48) * 3 + (c4.toNat - 48) * 7 + (c5.toNat - 48) * 3
      + (c6.toNat - 48) * 3 + (c7.toNat - 48) * 7 + (c8.toNat - 48) * 3
      = 3 * (c0.toNat - 48) + 7 * (c1.toNat - 48) + 3 * (c2.toNat - 48)
      + 3 * (c3.toNat - 48) + 7 * (c4.toNat - 48) + 3 * (c5.toNat - 48)
      + 3 * (c6.toNat - 48) + 7 * (c7.toNat - 48) + 3 * (c8.toNat - 48) := by ring
  rw [hS]

/-- The statement of C13 on the account number `0123456784`, which is accepted. -/
theorem validateNubanAlgorithm_iff_witness :
    "0123456784".length = 10 ∧
    (NubanAPI.validateNubanAlgorithm "0123456784" = true ↔
      (10 - ((3 * NubanAPI.digitAt "0123456784" 0 + 7 * NubanAPI.digitAt "0123456784" 1
        + 3 * NubanAPI.digitAt "0123456784" 2 + 3 * NubanAPI.digitAt "0123456784" 3
        + 7 * NubanAPI.digitAt "0123456784" 4 + 3 * NubanAPI.digitAt "0123456784" 5
        + 3 * NubanAPI.digitAt "0123456784" 6 + 7 * NubanAPI.digitAt "0123456784" 7
        + 3 * NubanAPI.digitAt "0123456784" 8) % 10)) % 10
        = NubanAPI.digitAt "0123456784" 9) :=
  ⟨by decide, (validateNubanAlgorithm_iff "0123456784" (by decide) (by decide)).1⟩

/-! ## Rate mutation -/

/-- An amount that `validateAmount` accepts parses to a number that is at least 10. -/
theorem validateAmount_isValid (parseFloat : String → Option Rat) (amount : String)
    (h : (validateAmount parseFloat amount).isValid = true) :
    ∃ n, parseFloat amount = some n ∧ 10 ≤ n := by
  unfold validateAmount at h
  by_cases hempty : amount = ""
  · simp [hempty] at h
  · cases hn : parseFloat amount with
    | none => simp [hempty, hn] at h
    | some n =>
      refine ⟨n, rfl, ?_⟩
      by_cases h0 : n ≤ 0
      · simp [hempty, hn, h0] at h
      · by_cases h10 : n < 10
        · simp [hempty, hn, h0, h10] at h
        · exact not_lt.mp h10

/-- What a rate form that `validateForm` accepts satisfies: both texts pass
`validateAmount`, they parse to rates in `(0, 1]` with the sell rate above the buy
rate, and a card type is selected. -/
theorem rateForm_accepted (parseFloat : String → Option Rat) (form : RateForm)
    (h : (RateManagementScreen.validateForm parseFloat form).1 = true) :
    (validateAmount parseFloat form.buyRate).isValid = true ∧
    (validateAmount parseFloat form.sellRate).isValid = true ∧
    form.selectedCard ≠ "" ∧
    ∃ b s, parseFloat form.buyRate = some b ∧ parseFloat form.sellRate = some s ∧
      (0 < b ∧ b ≤ 1) ∧ (0 < s ∧ s ≤ 1) ∧ b < s := by
  simp only [RateManagementScreen.validateForm, Bool.and_eq_true] at h
  obtain ⟨⟨hbuy, hsell⟩, hcard⟩ := h
  by_cases hvb : (validateAmount parseFloat form.buyRate).isValid = true
  swap
  · simp [hvb] at hbuy
  by_cases hvs : (validateAmount parseFloat form.sellRate).isValid = true
  swap
  · simp [hvs] at hsell
  obtain ⟨b, hb, -⟩ := validateAmount_isValid parseFloat form.buyRate hvb
  obtain ⟨sr, hs, -⟩ := validateAmount_isValid parseFloat form.sellRate hvs
  by_cases hbr : b ≤ 0 ∨ b > 1
  · simp [hvb, hb, hbr] at hbuy
  by_cases hsr : sr ≤ 0 ∨ sr > 1
  · simp [hvs, hs, hsr] at hsell
  by_cases hle : sr ≤ b
  · simp [hvs, hs, hsr, hb, hle] at hsell
  by_cases hcard' : form.selectedCard = ""
  · simp [hcard'] at hcard
  rw [not_or, not_le, not_lt] at hbr hsr
  exact ⟨hvb, hvs, hcard', b, sr, hb, hs, hbr, hsr, not_le.mp hle⟩

/-- C14 (counterexample): `updateRate` itself checks nothing.  Called with the buy rate
0.85 and the sell rate 0.80 on the `Amazon` record it returns success, and the record
then holds these rates. -/
theorem updateRate_stores_invalid_bounds :
    (updateRate none none sampleRates "Amazon"
      { buyRate := 0.85, sellRate := 0.80, status := "active" }).2
      = .ok "Rate updated for Amazon" ∧
    getDoc (updateRate none none sampleRates "Amazon"
      { buyRate := 0.85, sellRate := 0.80, status := "active" }).1.giftCardRates "Amazon"
      = some { amazonRate with buyRate := 0.85, sellRate := 0.80, updatedBy := some "system" } := by
  have hrun : updateRate none none sampleRates "Amazon"
      { buyRate := 0.85, sellRate := 0.80, status := "active" }
      = (logRateChange none
          { sampleRates with giftCardRates :=
              [("Amazon", mergeRateData { buyRate := 0.85, sellRate := 0.80, status := "active" }
                amazonRate)] }
          "Amazon" { buyRate := 0.85, sellRate := 0.80, status := "active" },
         .ok "Rate updated for Amazon") := by
    simp [updateRate, sampleRates, updateDoc]
  rw [hrun]
  refine ⟨rfl, ?_⟩
  simp [logRateChange, getDoc, mergeRateData, amazonRate, orStr]

/-- C14 (amended): the bounds are enforced before `updateRate` is called.  When the buy
rate is not in `(0, 1]`, the sell rate is not in `(0, 1]`, or the sell rate is not
above the buy rate, `validateForm` rejects the form and `handleUpdateRate` returns
without running `processRateUpdate`: the store is left as it was, whatever the
administrator and the store would answer. -/
theorem handleUpdateRate_rejects_invalid_bounds (parseFloat : String → Option Rat)
    (fault logFault : StoreFault) (confirm : Bool) (user : Option String) (form : RateForm)
    (db : Store)
    (h : (∀ b, parseFloat form.buyRate = some b → ¬ (0 < b ∧ b ≤ 1)) ∨
      (∀ sr, parseFloat form.sellRate = some sr → ¬ (0 < sr ∧ sr ≤ 1)) ∨
      (∀ b sr, parseFloat form.buyRate = some b → parseFloat form.sellRate = some sr →
        sr ≤ b)) :
    (RateManagementScreen.validateForm parseFloat { form with error := "" }).1 = false ∧
    (RateManagementScreen.handleUpdateRate parseFloat fault logFault confirm user form db).2
      = db := by
  have hrej : (RateManagementScreen.validateForm parseFloat { form with error := "" }).1
      = false := by
    cases hv : (RateManagementScreen.validateForm parseFloat { form with error := "" }).1 with
    | false => rfl
    | true =>
      exfalso
      obtain ⟨-, -, -, b, sr, hb, hs, hbr, hsr, hlt⟩ := rateForm_accepted parseFloat _ hv
      simp only at hb hs
      rcases h with h | h | h
      · exact h b hb hbr
      · exact h sr hs hsr
      · exact absurd (h b sr hb hs) (not_le.mpr hlt)
  refine ⟨hrej, ?_⟩
  unfold RateManagementScreen.handleUpdateRate
  simp only [hrej]
  simp

/-- The statement of C14 (amended) for the buy rate 0.85 and the sell rate 0.80. -/
theorem handleUpdateRate_rejects_invalid_bounds_witness :
    (RateManagementScreen.handleUpdateRate rateParseFloat none none true (some "admin")
      { sampleRateForm with buyRate := "0.85", sellRate := "0.80" } sampleRates).2
      = sampleRates :=
  (handleUpdateRate_rejects_invalid_bounds rateParseFloat none none true (some "admin")
    { sampleRateForm with buyRate := "0.85", sellRate := "0.80" } sampleRates
    (Or.inr (Or.inr (fun b sr hb hs => by
      simp [rateParseFloat, sampleRateForm] at hb hs
      rw [← hb, ← hs]
      norm_num)))).2

/-- C15 (the code): `validateForm` of the rate screen accepts no form at all.  A text
passes `validateAmount` only if it reads as a number of at least 10, and is then
rejected as a rate above 1; for the buy rate 0.82 and the sell rate 0.85 with `Amazon`
selected the form is rejected with `Please enter a valid buy rate` and `Please enter a
valid sell rate`. -/
theorem rateForm_never_accepted (parseFloat : String → Option Rat) (form : RateForm) :
    (RateManagementScreen.validateForm parseFloat form).1 = false ∧
    RateManagementScreen.validateForm rateParseFloat sampleRateForm
      = (false, { sampleRateForm with
                    buyRateError := "Please enter a valid buy rate"
                    sellRateError := "Please enter a valid sell rate" }) := by
  constructor
  · cases hv : (RateManagementScreen.validateForm parseFloat form).1 with
    | false => rfl
    | true =>
      exfalso
      obtain ⟨hvb, -, -, b, sr, hb, -, hbr, -, -⟩ := rateForm_accepted parseFloat form hv
      obtain ⟨n, hn, h10⟩ := validateAmount_isValid parseFloat form.buyRate hvb
      rw [hb] at hn
      injection hn with hn
      subst hn
      linarith [hbr.2]
  · have hb : (validateAmount rateParseFloat "0.82").isValid = false := by
      simp [validateAmount, rateParseFloat]
      norm_num
    have hs : (validateAmount rateParseFloat "0.85").isValid = false := by
      simp [validateAmount, rateParseFloat]
      norm_num
    simp [RateManagementScreen.validateForm, sampleRateForm, hb, hs]

/-- C16: when the write to the rate record succeeds (the record exists and the write is
not rejected), `updateRate` returns success and the record holds the new values,
whether the write of the history record succeeds or is rejected; a rejected history
write leaves the history as it was. -/
theorem updateRate_audit_best_effort (logFault : StoreFault) (db : Store) (cardType : String)
    (rateData : RateData) (rate : Rate)
    (hrate : getDoc db.giftCardRates cardType = some rate) :
    (updateRate none logFault db cardType rateData).2 = .ok ("Rate updated for " ++ cardType) ∧
    getDoc (updateRate none logFault db cardType rateData).1.giftCardRates cardType
      = some (mergeRateData rateData rate) ∧
    (mergeRateData rateData rate).buyRate = rateData.buyRate ∧
    (mergeRateData rateData rate).sellRate = rateData.sellRate ∧
    (mergeRateData rateData rate).status = rateData.status ∧
    (logFault ≠ none →
      (updateRate none logFault db cardType rateData).1.rateHistory = db.rateHistory) := by
  obtain ⟨rates, hupd, hget⟩ := updateDoc_of_getDoc db.giftCardRates cardType
    (mergeRateData rateData) rate hrate
  have hrun : updateRate none logFault db cardType rateData
      = (logRateChange logFault { db with giftCardRates := rates } cardType rateData,
         .ok ("Rate updated for " ++ cardType)) := by
    simp [updateRate, hupd]
  rw [hrun]
  refine ⟨rfl, ?_, rfl, rfl, rfl, ?_⟩
  · cases logFault <;> simpa [logRateChange] using hget
  · intro hne
    cases logFault with
    | none => exact absurd rfl hne
    | some msg => rfl

/-- The statement of C16 on the `Amazon` record with a rejected history write. -/
theorem updateRate_audit_best_effort_witness :
    getDoc sampleRates.giftCardRates "Amazon" = some amazonRate ∧
    (updateRate none (some "unavailable") sampleRates "Amazon"
      { buyRate := 0.80, sellRate := 0.85, status := "active" }).2
      = .ok ("Rate updated for " ++ "Amazon") :=
  ⟨by simp [sampleRates, getDoc],
   (updateRate_audit_best_effort (some "unavailable") sampleRates "Amazon"
      { buyRate := 0.80, sellRate := 0.85, status := "active" } amazonRate
      (by simp [sampleRates, getDoc])).1⟩

/-! ## Referral settlement -/

/-- The names `getDocs`, `query` and `where` do not resolve in `AuthContext.js`, so
`completeReferralBonus` ends in its `catch` block with the store as it was. -/
theorem completeReferralBonus_eq (failAt : Option Nat) (db : Store) (referredUserId : String) :
    completeReferralBonus failAt db referredUserId = db := by
  have h : ¬ ("getDocs" ∈ firestoreImports ∧ "query" ∈ firestoreImports ∧
      "where" ∈ firestoreImports) := by decide
  unfold completeReferralBonus
  rw [if_neg h]

/-- Without a pending referral the body of `completeReferralBonus` changes nothing. -/
theorem completeReferralBonusBody_no_pending (failAt : Option Nat) (db : Store)
    (referredUserId : String) (h : pendingReferrals db referredUserId = []) :
    completeReferralBonusBody failAt db referredUserId = db := by
  unfold completeReferralBonusBody
  rw [h]
  split_ifs <;> rfl

theorem getDoc_isSome_of_mem {α : Type} (coll : List (String × α)) (id : String) (v : α)
    (h : (id, v) ∈ coll) : ∃ w, getDoc coll id = some w := by
  induction coll with
  | nil => cases h
  | cons kv rest ih =>
    obtain ⟨k, w⟩ := kv
    by_cases hk : k = id
    · exact ⟨w, by simp [getDoc, hk]⟩
    · rcases List.mem_cons.mp h with heq | hmem
      · injection heq with h1 h2
        exact absurd h1.symm hk
      · obtain ⟨w', hw'⟩ := ih hmem
        exact ⟨w', by simp [getDoc, hk, hw']⟩

/-- The store after the body of `completeReferralBonus` when no store call is rejected,
a pending referral is found and the referrer's profile exists: the referrer's document
and the referral are updated and one transaction is appended. -/
theorem completeReferralBonusBody_settles (db : Store) (referredUserId referralId : String)
    (referral : Referral) (rest : List (String × Referral)) (referrer : UserProfile)
    (hpending : pendingReferrals db referredUserId = (referralId, referral) :: rest)
    (hreferrer : getDoc db.users referral.referrerId = some referrer) :
    ∃ users referrals stored,
      updateDoc db.users referral.referrerId (fun d =>
        { d with
            walletBalance := some (orZero referrer.walletBalance + REFERRAL_BONUS)
            referralEarnings := some (orZero referrer.referralEarnings + REFERRAL_BONUS)
            totalReferrals := some (orZero referrer.totalReferrals + 1) }) = some users ∧
      getDoc db.referrals referralId = some stored ∧
      updateDoc db.referrals referralId (fun r => { r with status := "completed" })
        = some referrals ∧
      completeReferralBonusBody none db referredUserId
        = { db with
              users := users
              referrals := referrals
              transactions := db.transactions ++
                [{ userId := referral.referrerId
                   type := "referral_bonus"
                   amount := REFERRAL_BONUS
                   status := "completed"
                   description := "Referral bonus earned" }] } := by
  obtain ⟨users, hupd, -⟩ := updateDoc_of_getDoc db.users referral.referrerId (fun d =>
    { d with
        walletBalance := some (orZero referrer.walletBalance + REFERRAL_BONUS)
        referralEarnings := some (orZero referrer.referralEarnings + REFERRAL_BONUS)
        totalReferrals := some (orZero referrer.totalReferrals + 1) }) referrer hreferrer
  have hmem : (referralId, referral) ∈ db.referrals := by
    have : (referralId, referral) ∈ pendingReferrals db referredUserId := by
      rw [hpending]
      exact List.mem_cons_self _ _
    exact (List.mem_filter.mp this).1
  obtain ⟨stored, hstored⟩ := getDoc_isSome_of_mem db.referrals referralId referral hmem
  obtain ⟨referrals, hupd2, -⟩ := updateDoc_of_getDoc db.referrals referralId
    (fun r => { r with status := "completed" }) stored hstored
  refine ⟨users, referrals, stored, hupd, hstored, hupd2, ?_⟩
  simp [completeReferralBonusBody, hpending, hreferrer, hupd, hupd2]

/-- The documents of a collection with distinct ids after an update: the documents with
another id, unchanged, and the updated document. -/
theorem updateDoc_mem {α : Type} (coll coll' : List (String × α)) (id : String) (f : α → α)
    (hids : (coll.map Prod.fst).Nodup) (h : updateDoc coll id f = some coll') :
    ∀ kv ∈ coll', (kv ∈ coll ∧ kv.1 ≠ id) ∨ ∃ v, (id, v) ∈ coll ∧ kv = (id, f v) := by
  induction coll generalizing coll' with
  | nil => simp [updateDoc] at h
  | cons head rest ih =>
    obtain ⟨k, w⟩ := head
    rw [List.map_cons, List.nodup_cons] at hids
    obtain ⟨hk, hrest⟩ := hids
    unfold updateDoc at h
    by_cases hid : k = id
    · rw [if_pos hid] at h
      injection h with h
      subst h
      intro kv hkv
      rcases List.mem_cons.mp hkv with heq | hmem
      · exact Or.inr ⟨w, by rw [hid]; exact List.mem_cons_self _ _, by rw [heq, hid]⟩
      · refine Or.inl ⟨List.mem_cons_of_mem _ hmem, ?_⟩
        intro hkey
        apply hk
        rw [hid, ← hkey]
        exact List.mem_map.mpr ⟨kv, hmem, rfl⟩
    · rw [if_neg hid] at h
      cases hr : updateDoc rest id f with
      | none => simp [hr] at h
      | some r =>
        simp only [hr, Option.map_some', Option.some.injEq] at h
        subst h
        intro kv hkv
        rcases List.mem_cons.mp hkv with heq | hmem
        · exact Or.inl ⟨by rw [heq]; exact List.mem_cons_self _ _, by rw [heq]; exact hid⟩
        · rcases ih r hrest hr kv hmem with ⟨h1, h2⟩ | ⟨v, hv, hkv'⟩
          · exact Or.inl ⟨List.mem_cons_of_mem _ h1, h2⟩
          · exact Or.inr ⟨v, List.mem_cons_of_mem _ hv, hkv'⟩

/-- A second run of the body of `completeReferralBonus` changes nothing when no store
call is rejected, the referral ids are distinct and no user has been referred twice. -/
theorem completeReferralBonusBody_idempotent (db : Store) (referredUserId : String)
    (hids : (db.referrals.map Prod.fst).Nodup)
    (hone : ∀ a ∈ db.referrals, ∀ b ∈ db.referrals,
      a.2.referredUserId = b.2.referredUserId → a = b) :
    completeReferralBonusBody none (completeReferralBonusBody none db referredUserId)
      referredUserId = completeReferralBonusBody none db referredUserId := by
  cases hp : pendingReferrals db referredUserId with
  | nil =>
    rw [completeReferralBonusBody_no_pending none db referredUserId hp,
      completeReferralBonusBody_no_pending none db referredUserId hp]
  | cons head rest =>
    obtain ⟨rid, rd⟩ := head
    cases href : getDoc db.users rd.referrerId with
    | none =>
      have hrun : completeReferralBonusBody none db referredUserId = db := by
        simp [completeReferralBonusBody, hp, href]
      rw [hrun, hrun]
    | some referrer =>
      obtain ⟨users, referrals, stored, -, -, hupd2, hrun⟩ :=
        completeReferralBonusBody_settles db referredUserId rid rd rest referrer hp href
      rw [hrun]
      apply completeReferralBonusBody_no_pending
      have hmem : (rid, rd) ∈ pendingReferrals db referredUserId := by
        rw [hp]
        exact List.mem_cons_self _ _
      obtain ⟨hmem1, hmem2⟩ := List.mem_filter.mp hmem
      simp only [decide_eq_true_eq] at hmem2
      unfold pendingReferrals
      rw [List.filter_eq_nil_iff]
      intro kv hkv
      simp only [decide_eq_true_eq, not_and]
      intro huser
      rcases updateDoc_mem db.referrals referrals rid _ hids hupd2 kv hkv with
        ⟨h1, h2⟩ | ⟨v, -, hv⟩
      · have : kv = (rid, rd) := hone kv h1 (rid, rd) hmem1 (by rw [huser, hmem2.1])
        rw [this] at h2
        exact absurd rfl h2
      · rw [hv]
        simp

/-- C17 (the code): `completeReferralBonus` changes nothing in any store, because its
query names `getDocs`, `query` and `where`, which `AuthContext.js` does not import.  On
the store with the pending referral `r1` of `u2` by `u1` (balance 100) the call leaves
the balance at 100 and the referral pending, whereas the body of the function, with the
names bound, would store the balance 105, the earnings 5, one referral, the status
`completed` and one `referral_bonus` transaction of 5. -/
theorem completeReferralBonus_never_settles (failAt : Option Nat) (db : Store)
    (referredUserId : String) :
    completeReferralBonus failAt db referredUserId = db ∧
    pendingReferrals (referralStore 100) "u2"
      = [("r1", { referrerId := "u1"
                  referredUserId := "u2"
                  referralCode := "ABCDEFU1"
                  status := "pending"
                  bonusAmount := REFERRAL_BONUS })] ∧
    getDoc (referralStore 100).users "u1" = some (sampleProfile 100) ∧
    completeReferralBonus none (referralStore 100) "u2" = referralStore 100 ∧
    completeReferralBonusBody none (referralStore 100) "u2"
      = { users := [("u1", { sampleProfile 100 with
                               walletBalance := some 105
                               referralEarnings := some 5
                               totalReferrals := some 1 })]
          referrals := [("r1", { referrerId := "u1"
                                 referredUserId := "u2"
                                 referralCode := "ABCDEFU1"
                                 status := "completed"
                                 bonusAmount := REFERRAL_BONUS })]
          transactions := [{ userId := "u1"
                             type := "referral_bonus"
                             amount := 5
                             status := "completed"
                             description := "Referral bonus earned" }] } := by
  refine ⟨completeReferralBonus_eq failAt db referredUserId, ?_, ?_,
    completeReferralBonus_eq none _ _, ?_⟩
  · simp [pendingReferrals, referralStore]
  · simp [referralStore, getDoc]
  · simp [completeReferralBonusBody, pendingReferrals, referralStore, getDoc, updateDoc,
      sampleProfile, REFERRAL_BONUS, orZero]
    norm_num

/-- C18 (the code): a referral is not settled exactly once.  Any number of
`completeReferralBonus` calls, whatever the store answers, leaves every store as it was:
on the store with the pending referral `r1` of `u2` by `u1` the referral stays `pending`
and `u1` keeps the balance 100, so the referral is settled zero times.  The body of the
function, with its names bound, does not settle exactly once either when a store call
is rejected: after a first run whose write of the referral status is rejected and a
second run without a rejection, `u1` has been credited twice for the one referral
(balance 110, earnings 10, two referrals). -/
theorem referral_not_settled_once (calls : List (Option Nat)) (db : Store)
    (referredUserId : String) :
    settleRepeatedly completeReferralBonus calls db referredUserId = db ∧
    (getDoc (settleRepeatedly completeReferralBonus calls (referralStore 100) "u2").referrals
      "r1").map (fun r => r.status) = some "pending" ∧
    (getDoc (settleRepeatedly completeReferralBonus calls (referralStore 100) "u2").users
      "u1").bind (fun p => p.walletBalance) = some 100 ∧
    settleRepeatedly completeReferralBonusBody [some 3, none] (referralStore 100) "u2"
      = { users := [("u1", { sampleProfile 100 with
                               walletBalance := some 110
                               referralEarnings := some 10
                               totalReferrals := some 2 })]
          referrals := [("r1", { referrerId := "u1"
                                 referredUserId := "u2"
                                 referralCode := "ABCDEFU1"
                                 status := "completed"
                                 bonusAmount := REFERRAL_BONUS })]
          transactions := [{ userId := "u1"
                             type := "referral_bonus"
                             amount := 5
                             status := "completed"
                             description := "Referral bonus earned" }] } := by
  have hnoop : ∀ (calls : List (Option Nat)) (db : Store) (referredUserId : String),
      settleRepeatedly completeReferralBonus calls db referredUserId = db := by
    intro calls db referredUserId
    unfold settleRepeatedly
    induction calls with
    | nil => rfl
    | cons failAt rest ih =>
      rw [List.foldl_cons, completeReferralBonus_eq]
      exact ih
  refine ⟨hnoop calls db referredUserId, ?_, ?_, ?_⟩
  · rw [hnoop]
    simp [referralStore, getDoc]
  · rw [hnoop]
    simp [referralStore, getDoc, sampleProfile]
  · simp [settleRepeatedly, completeReferralBonusBody, pendingReferrals, referralStore, getDoc,
      updateDoc, sampleProfile, REFERRAL_BONUS, orZero]
    norm_num

/-! ## Referral bonus and identity verification -/

/-- The collections that `handleKycAction` leaves alone: referrals and transactions are
never touched, so an approval settles no referral. -/
theorem handleKycAction_referrals (fault userFault : StoreFault) (user : Option String)
    (db : Store) (kycId action : String) (reason : Option String) :
    (handleKycAction fault userFault user db kycId action reason).1.referrals = db.referrals ∧
    (handleKycAction fault userFault user db kycId action reason).1.transactions
      = db.transactions := by
  unfold handleKycAction
  repeat' split
  all_goals try dsimp only
  repeat' split
  all_goals exact ⟨rfl, rfl⟩

/-- The settlement is wired to the submission of the identity documents, not to their
approval.  For a referred user `uid` whose documents are submitted and stored and who
presses `OK`, `handleSubmitKYC` applies the settlement function to a store in which the
user's `kycStatus` has just been set to `pending`; with the body of
`completeReferralBonus` as that function the sample run would end with the referral of
`u2` completed and `u1` credited to 105 while `u2` is still `pending`; with
`completeReferralBonus` itself the referral stays pending (its query never resolves);
and `handleKycAction`, the approval, never touches a referral or a transaction. -/
theorem settlement_on_kyc_submission (settle : Store → String → Store) (s : AuthState)
    (uid newId idType idNumber : String) (doc : UserProfile) (hu : s.user = some uid)
    (hreferred : wasReferred s.userProfile = true)
    (hdoc : getDoc s.db.users uid = some doc) :
    (∃ users,
      getDoc users uid = some { doc with kycStatus := "pending" } ∧
      (handleSubmitKYC settle true true newId none none none true idType idNumber s).1.db
        = settle
            { s.db with
                kycSubmissions := addDoc s.db.kycSubmissions newId
                  { userId := uid, idType := idType, idNumber := idNumber.trim,
                    status := "pending" }
                users := users } uid) ∧
    ((getDoc (handleSubmitKYC (completeReferralBonusBody none) true true "k1" none none none
        true "nin" "12345678" kycReferralState).1.db.users "u2").map (fun p => p.kycStatus)
        = some "pending" ∧
      (getDoc (handleSubmitKYC (completeReferralBonusBody none) true true "k1" none none none
        true "nin" "12345678" kycReferralState).1.db.referrals "r1").map (fun r => r.status)
        = some "completed" ∧
      (getDoc (handleSubmitKYC (completeReferralBonusBody none) true true "k1" none none none
        true "nin" "12345678" kycReferralState).1.db.users "u1").bind
          (fun p => p.walletBalance) = some 105) ∧
    (handleSubmitKYC (completeReferralBonus none) true true "k1" none none none
        true "nin" "12345678" kycReferralState).1.db.referrals
      = kycReferralState.db.referrals ∧
    (∀ (fault userFault : StoreFault) (user : Option String) (db : Store)
        (kycId action : String) (reason : Option String),
      (handleKycAction fault userFault user db kycId action reason).1.referrals
        = db.referrals ∧
      (handleKycAction fault userFault user db kycId action reason).1.transactions
        = db.transactions) := by
  have hgeneral : ∀ (settle : Store → String → Store) (s : AuthState)
      (uid newId idType idNumber : String) (doc : UserProfile), s.user = some uid →
      wasReferred s.userProfile = true → getDoc s.db.users uid = some doc →
      ∃ users,
        getDoc users uid = some { doc with kycStatus := "pending" } ∧
        (handleSubmitKYC settle true true newId none none none true idType idNumber s).1.db
          = settle
              { s.db with
                  kycSubmissions := addDoc s.db.kycSubmissions newId
                    { userId := uid, idType := idType, idNumber := idNumber.trim,
                      status := "pending" }
                  users := users } uid := by
    intro settle s uid newId idType idNumber doc hu hreferred hdoc
    obtain ⟨users, hupd, hget⟩ := updateDoc_of_getDoc s.db.users uid
      (fun p => { p with kycStatus := "pending" }) doc hdoc
    refine ⟨users, hget, ?_⟩
    simp [handleSubmitKYC, hu, hreferred, updateUserProfile, hupd, loadUserProfile, hget]
  have hu2 : getDoc kycReferralState.db.users "u2" = some referredProfile := by
    simp [kycReferralState, getDoc]
  obtain ⟨users', -, hrun'⟩ := hgeneral (completeReferralBonus none) kycReferralState
    "u2" "k1" "nin" "12345678" referredProfile rfl (by simp [wasReferred, kycReferralState,
      referredProfile]) hu2
  refine ⟨hgeneral settle s uid newId idType idNumber doc hu hreferred hdoc, ?_, ?_,
    fun fault userFault user db kycId action reason =>
      handleKycAction_referrals fault userFault user db kycId action reason⟩
  · simp [handleSubmitKYC, kycReferralState, referredProfile, wasReferred, updateUserProfile,
      loadUserProfile, updateDoc, getDoc, addDoc, completeReferralBonusBody, pendingReferrals,
      referralStore, sampleProfile, REFERRAL_BONUS, orZero]
    norm_num
  · rw [hrun', completeReferralBonus_eq]

/-! ## Transaction records -/

/-- The transaction log is not touched by `updateWalletBalance`. -/
theorem updateWalletBalance_transactions (fault : StoreFault) (s : AuthState)
    (amount : Option Rat) (type : String) :
    (updateWalletBalance fault s amount type).1.db.transactions = s.db.transactions := by
  cases hres : (updateWalletBalance fault s amount type).2 with
  | error e => rw [updateWalletBalance_error fault s amount type e hres]
  | ok nb =>
    cases hu : s.user with
    | none => simp [updateWalletBalance, hu] at hres
    | some uid =>
      cases hp : s.userProfile with
      | none => simp [updateWalletBalance, hu, hp] at hres
      | some profile =>
        by_cases hlt : ltZero (newBalance (orZero profile.walletBalance) amount type) = true
        · simp [updateWalletBalance, hu, hp, hlt] at hres
        · cases fault with
          | some msg => simp [updateWalletBalance, hu, hp, hlt] at hres
          | none =>
            cases hupd : updateDoc s.db.users uid (fun d =>
                { d with
                    walletBalance := newBalance (orZero profile.walletBalance) amount type }) with
            | none => simp [updateWalletBalance, hu, hp, hlt, hupd] at hres
            | some users => simp [updateWalletBalance, hu, hp, hlt, hupd]

/-- The transaction log is not touched by `processWithdrawal`. -/
theorem processWithdrawal_transactions (parseFloat : String → Option Rat)
    (transfer : Except String Unit) (fault : StoreFault) (form : WithdrawForm)
    (s : AuthState) :
    (processWithdrawal parseFloat transfer fault form s).auth.db.transactions
      = s.db.transactions := by
  cases transfer with
  | error e => rfl
  | ok u =>
    rw [(processWithdrawal_of_transfer parseFloat fault form s).1]
    exact updateWalletBalance_transactions fault s _ _

/-- The profiles and the transaction log are not touched by `handleGiftCardAction`. -/
theorem handleGiftCardAction_untouched (fault : StoreFault) (user : Option String)
    (db : Store) (submissionId action : String) (amount : Rat) :
    (handleGiftCardAction fault user db submissionId action amount).1.transactions
      = db.transactions ∧
    (handleGiftCardAction fault user db submissionId action amount).1.users = db.users := by
  unfold handleGiftCardAction
  repeat' split
  all_goals exact ⟨rfl, rfl⟩

/-- The transaction log after the body of `completeReferralBonus`: as before, or with
one record appended. -/
theorem completeReferralBonusBody_transactions (failAt : Option Nat) (db : Store)
    (referredUserId : String) :
    (completeReferralBonusBody failAt db referredUserId).transactions = db.transactions ∨
    ∃ record, (completeReferralBonusBody failAt db referredUserId).transactions
      = db.transactions ++ [record] := by
  unfold completeReferralBonusBody
  repeat' split
  all_goals try dsimp only
  repeat' split
  all_goals first
    | exact Or.inl rfl
    | exact Or.inr ⟨_, rfl⟩

/-- C20 (the code): a withdrawal debit and a gift-card approval append no transaction
record.  `processWithdrawal` and `handleGiftCardAction` never touch the transaction log
(the approval does not touch the profiles either), and `completeReferralBonus` leaves it
as it is because its query never resolves.  With amount 1000, fee 50 and balance 1050
the withdrawal ends in `Withdrawal Initiated` with the stored balance at 0 and the log
still empty.  The only code that writes a transaction is the body of
`completeReferralBonus`, which appends at most one record and changes none. -/
theorem withdrawal_appends_no_transaction :
    (∀ (parseFloat : String → Option Rat) (transfer : Except String Unit) (fault : StoreFault)
        (form : WithdrawForm) (s : AuthState),
      (processWithdrawal parseFloat transfer fault form s).auth.db.transactions
        = s.db.transactions) ∧
    (∀ (fault : StoreFault) (user : Option String) (db : Store) (submissionId action : String)
        (amount : Rat),
      (handleGiftCardAction fault user db submissionId action amount).1.transactions
        = db.transactions ∧
      (handleGiftCardAction fault user db submissionId action amount).1.users = db.users) ∧
    (∀ (failAt : Option Nat) (db : Store) (referredUserId : String),
      (completeReferralBonus failAt db referredUserId).transactions = db.transactions) ∧
    ((processWithdrawal sampleParseFloat (.ok ()) none sampleForm (sampleState 1050)).alert
        = some "Withdrawal Initiated" ∧
      storedBalance
        (processWithdrawal sampleParseFloat (.ok ()) none sampleForm (sampleState 1050)).auth.db
        "u1" = 0 ∧
      (processWithdrawal sampleParseFloat (.ok ()) none sampleForm
        (sampleState 1050)).auth.db.transactions = []) ∧
    (completeReferralBonusBody none (referralStore 100) "u2").transactions
      = [{ userId := "u1"
           type := "referral_bonus"
           amount := REFERRAL_BONUS
           status := "completed"
           description := "Referral bonus earned" }] ∧
    (∀ (failAt : Option Nat) (db : Store) (referredUserId : String),
      (completeReferralBonusBody failAt db referredUserId).transactions = db.transactions ∨
      ∃ record, (completeReferralBonusBody failAt db referredUserId).transactions
        = db.transactions ++ [record]) := by
  refine ⟨processWithdrawal_transactions, handleGiftCardAction_untouched, ?_, ?_, ?_,
    completeReferralBonusBody_transactions⟩
  · intro failAt db referredUserId
    rw [completeReferralBonus_eq]
  · have hwallet : updateWalletBalance none (sampleState 1050)
        ((sampleParseFloat sampleForm.amount).map (fun a => a + sampleForm.transferFee))
        "subtract" = (sampleState 0, .ok (some 0)) := by
      simp [updateWalletBalance, sampleState, sampleParseFloat, sampleForm, sampleProfile,
        newBalance, ltZero, orZero, updateDoc]
      norm_num
    obtain ⟨hauth, hok, -⟩ := processWithdrawal_of_transfer sampleParseFloat none sampleForm
      (sampleState 1050)
    rw [hwallet] at hauth hok
    refine ⟨(hok _ rfl).1, ?_, ?_⟩
    · rw [hauth]
      simp [storedBalance, sampleState, sampleProfile, getDoc, orZero]
    · rw [hauth]
      rfl
  · simp [completeReferralBonusBody, pendingReferrals, referralStore, getDoc, updateDoc,
      sampleProfile, REFERRAL_BONUS, orZero]

/-! ## Approval of a gift-card submission -/

/-- C21 (the code): an approval by `handleGiftCardAction` with a positive amount moves
the submission to `approved` and records `approvedAmount`, and that is all it writes:
the `users` collection, and with it the wallet balance of the submitting user, is left
as it was, and no transaction is recorded (the credit is a `TODO` in the source). -/
theorem giftCard_approval_credits_no_wallet (admin : String) (db : Store)
    (submissionId : String) (g : GiftCardSubmission) (amount : Rat)
    (hg : getDoc db.giftCardSubmissions submissionId = some g) (hamount : amount > 0) :
    ∃ db', handleGiftCardAction none (some admin) db submissionId "approved" amount
        = (db', none) ∧
      getDoc db'.giftCardSubmissions submissionId
        = some { g with
                  status := "approved"
                  reviewedBy := some admin
                  approvedAmount := some amount } ∧
      getDoc db'.users g.userId = getDoc db.users g.userId ∧
      db'.users = db.users ∧ db'.transactions = db.transactions := by
  obtain ⟨coll, hupd, hget⟩ := updateDoc_of_getDoc db.giftCardSubmissions submissionId
    (fun g : GiftCardSubmission =>
      { g with
          status := "approved"
          reviewedBy := some admin
          approvedAmount :=
            if "approved" = "approved" ∧ amount > 0 then some amount else g.approvedAmount })
    g hg
  simp only [hamount, and_self, if_true] at hupd hget
  refine ⟨{ db with giftCardSubmissions := coll }, ?_, hget, rfl, rfl, rfl⟩
  simp only [handleGiftCardAction, hamount, and_self, if_true, hupd]

/-- The statement of C21 (the code) on the sample: the submission `g1` of `u1` is
approved at 82 and the wallet of `u1` is not touched. -/
theorem giftCard_approval_credits_no_wallet_witness :
    ∃ db', handleGiftCardAction none (some "admin") giftCardStore "g1" "approved" 82
        = (db', none) ∧
      getDoc db'.giftCardSubmissions "g1"
        = some { sampleSubmission with
                  status := "approved"
                  reviewedBy := some "admin"
                  approvedAmount := some 82 } ∧
      getDoc db'.users sampleSubmission.userId = getDoc giftCardStore.users sampleSubmission.userId ∧
      db'.users = giftCardStore.users ∧ db'.transactions = giftCardStore.transactions :=
  giftCard_approval_credits_no_wallet "admin" giftCardStore "g1" sampleSubmission 82
    (by simp [giftCardStore, getDoc]) (by norm_num)

/-! ## Preconditions of the exchange calculation -/

/-- A missing rate record makes `calculateExchange` fail with the message of
`getRateByType`. -/
theorem calculateExchange_of_missing_rate (db : Store) (cardType : String) (v : Rat)
    (t : String) (hrate : getDoc db.giftCardRates cardType = none) :
    ∃ e, calculateExchange none db cardType v t = .error e := by
  simp [calculateExchange, getRateByType, hrate]

/-- C22 (the code): the `status` of the rate record is not read.  For every store in
which the rate record of `cardType` exists with status `inactive`, `calculateExchange`
returns a success result with the exchange amount computed from that record. -/
theorem calculateExchange_ignores_status (db : Store) (cardType : String) (rate : Rate)
    (v : Rat) (t : String) (hrate : getDoc db.giftCardRates cardType = some rate)
    (hstatus : rate.status = "inactive") :
    ∃ d, calculateExchange none db cardType v t = .ok d ∧
      d.exchangeAmount
        = toFixed (mulDouble v (mulDouble rate.buyRate (tierMultiplier t))) 2 ∧
      (getDoc db.giftCardRates cardType).map (fun r => r.status) = some "inactive" := by
  refine ⟨_, calculateExchange_of_rate db cardType rate v t hrate, rfl, ?_⟩
  rw [hrate, Option.map_some', hstatus]

/-- The statement of C22 (the code) on the store with the inactive `Amazon` record. -/
theorem calculateExchange_ignores_status_witness :
    ∃ d, calculateExchange none inactiveRates "Amazon" 100 "BRONZE" = .ok d ∧
      d.exchangeAmount
        = toFixed (mulDouble 100
            (mulDouble ({ amazonRate with status := "inactive" } : Rate).buyRate
              (tierMultiplier "BRONZE"))) 2 ∧
      (getDoc inactiveRates.giftCardRates "Amazon").map (fun r => r.status)
        = some "inactive" :=
  calculateExchange_ignores_status inactiveRates "Amazon"
    { amazonRate with status := "inactive" } 100 "BRONZE"
    (by simp [inactiveRates, getDoc]) rfl

/-- The value of `toFixed` on a negative number, from the two bounds that pin down the
rounded integer of its absolute value. -/
theorem toFixed_eq_of_neg_bounds (x : Rat) (d : Nat) (n : Int) (hx : x < 0)
    (hlo : (n : Rat) ≤ -x * 10 ^ d + 1 / 2) (hhi : -x * 10 ^ d + 1 / 2 < (n : Rat) + 1) :
    toFixed x d = -(n : Rat) / 10 ^ d := by
  unfold toFixed
  rw [if_pos hx]
  have h : ⌊-x * 10 ^ d + 1 / 2⌋ = n := by
    rw [Int.floor_eq_iff]
    exact ⟨hlo, hhi⟩
  rw [h]

/-- C23 (counterexample): for the card value -100 and the `Amazon` record at 0.82,
`calculateExchange` returns a success result with the exchange amount -82. -/
theorem calculateExchange_accepts_negative_value :
    calculateExchange none sampleRates "Amazon" (-100) "BRONZE" = .ok
      { cardType := "Amazon"
        cardValue := -100
        exchangeRate := 0.82
        exchangeAmount := -82
        tierBonus := 0
        userTier := "BRONZE"
        currency := "NGN" } := by
  have hrate : getDoc sampleRates.giftCardRates "Amazon" = some amazonRate := by
    simp [sampleRates, getDoc]
  have hrate4 : toFixed (mulDouble 0.82 1) 4 = 0.82 := by
    rw [mulDouble_rate_bronze,
      toFixed_eq_of_bounds _ 4 8200 (by norm_num) (by norm_num) (by norm_num)]
    norm_num
  have hamount : toFixed (mulDouble (-100) (mulDouble 0.82 1)) 2 = -82 := by
    rw [mulDouble_rate_bronze, mulDouble_negHundred_bronze,
      toFixed_eq_of_neg_bounds _ 2 8200 (by norm_num) (by norm_num) (by norm_num)]
    norm_num
  have hbonus : toFixed (subDouble (mulDouble (mulDouble (-100) (mulDouble 0.82 1)) 1)
      (mulDouble (-100) 0.82)) 2 = 0 := by
    have hsub : subDouble (-82) (-82) = 0 := by
      unfold subDouble
      rw [sub_self, toDouble_zero]
    rw [mulDouble_rate_bronze, mulDouble_negHundred_bronze, mulDouble_negEightyTwo_one,
      mulDouble_negHundred_buyRate, hsub,
      toFixed_eq_of_bounds _ 2 0 (by norm_num) (by norm_num) (by norm_num)]
    norm_num
  rw [calculateExchange_of_rate sampleRates "Amazon" amazonRate (-100) "BRONZE" hrate]
  simp only [tierMultiplier_bronze, amazonRate, hrate4, hamount, hbonus]
  simp [orStr]

/-- C23 (amended): `calculateExchange` does not check `cardValue`.  For a card value
`v <= 0` it returns a success result whenever the rate record is read, with the exchange
amount that `toFixed(2)` prints for the product `v * (buyRate * multiplier)` of the
source, and it fails only when the rate lookup fails; a card value text that reads as
`v <= 0` is rejected by `validateForm` of `GiftCardScreen`, the check that runs before a
submission. -/
theorem calculateExchange_unchecked_value (parseFloat : String → Option Rat)
    (form : GiftCardForm) (fault : StoreFault) (db : Store) (cardType : String) (v : Rat)
    (t : String) (hparse : parseFloat form.cardValue = some v) (hv : v ≤ 0) :
    (∀ rate, getDoc db.giftCardRates cardType = some rate →
      ∃ d, calculateExchange none db cardType v t = .ok d ∧
        d.cardValue = v ∧
        d.exchangeAmount
          = toFixed (mulDouble v (mulDouble rate.buyRate (tierMultiplier t))) 2) ∧
    (∀ e, calculateExchange fault db cardType v t = .error e →
      ∃ e', getRateByType fault db cardType = .error e') ∧
    (GiftCardScreen.validateForm parseFloat form).1 = false := by
  refine ⟨?_, ?_, ?_⟩
  · intro rate hrate
    exact ⟨_, calculateExchange_of_rate db cardType rate v t hrate, rfl, rfl⟩
  · intro e he
    unfold calculateExchange at he
    cases hr : getRateByType fault db cardType with
    | error e' => exact ⟨e', rfl⟩
    | ok rate => simp [hr] at he
  · have hval : (validateAmount parseFloat form.cardValue).isValid = false := by
      unfold validateAmount
      split
      · rfl
      · simp [hparse, hv]
    simp [GiftCardScreen.validateForm, hval]

/-- The statement of C23 (amended) on the card value text `-100`. -/
theorem calculateExchange_unchecked_value_witness :
    (∀ rate, getDoc sampleRates.giftCardRates "Amazon" = some rate →
      ∃ d, calculateExchange none sampleRates "Amazon" (-100) "BRONZE" = .ok d ∧
        d.cardValue = -100 ∧
        d.exchangeAmount
          = toFixed (mulDouble (-100) (mulDouble rate.buyRate (tierMultiplier "BRONZE"))) 2) ∧
    (∀ e, calculateExchange none sampleRates "Amazon" (-100) "BRONZE" = .error e →
      ∃ e', getRateByType none sampleRates "Amazon" = .error e') ∧
    (GiftCardScreen.validateForm giftCardParseFloat (sampleGiftCardForm "-100")).1 = false :=
  calculateExchange_unchecked_value giftCardParseFloat (sampleGiftCardForm "-100") none
    sampleRates "Amazon" (-100) "BRONZE" (by simp [giftCardParseFloat, sampleGiftCardForm])
    (by norm_num)

/-- C24: `calculateExchange` is a function of the card type, the card value, the tier and
the `buyRate` and `currency` of the rate record.  Two stores whose rate records for
`cardType` agree on `buyRate` and `currency` give the same result, whatever else the
records and the stores hold. -/
theorem calculateExchange_deterministic (fault : StoreFault) (db1 db2 : Store)
    (cardType : String) (r1 r2 : Rate) (v : Rat) (t : String)
    (h1 : getDoc db1.giftCardRates cardType = some r1)
    (h2 : getDoc db2.giftCardRates cardType = some r2)
    (hbuy : r1.buyRate = r2.buyRate) (hcurrency : r1.currency = r2.currency) :
    calculateExchange fault db1 cardType v t = calculateExchange fault db2 cardType v t := by
  cases fault with
  | some msg => simp [calculateExchange, getRateByType]
  | none =>
    rw [calculateExchange_of_rate db1 cardType r1 v t h1,
      calculateExchange_of_rate db2 cardType r2 v t h2, hbuy, hcurrency]

/-- The statement of C24 on two stores whose `Amazon` records differ in `sellRate` and
`status`, the second store holding a user and a submission as well. -/
theorem calculateExchange_deterministic_witness :
    calculateExchange none sampleRates "Amazon" 100 "GOLD"
      = calculateExchange none otherRates "Amazon" 100 "GOLD" :=
  calculateExchange_deterministic none sampleRates otherRates "Amazon" amazonRate
    { amazonRate with sellRate := 0.9, status := "inactive" } 100 "GOLD"
    (by simp [sampleRates, getDoc]) (by simp [otherRates, getDoc]) rfl rfl

/-! ## Single-digit errors in account numbers -/

/-- The value of a decimal digit, written without a subtraction. -/
theorem digit_value (c : Char) (h : c.isDigit = true) : ∃ n, c.toNat = n + 48 ∧ n ≤ 9 := by
  have hc := isDigit_toNat c h
  exact ⟨c.toNat - 48, by omega, by omega⟩

/-- Two characters with the same code are the same character. -/
theorem char_eq_of_toNat (a b : Char) (h : a.toNat = b.toNat) : a = b := by
  apply Char.ext
  apply UInt32.ext
  exact h

/-- The run of `validateNubanAlgorithm` on ten decimal digits. -/
theorem validateNubanAlgorithm_of_digits (c0 c1 c2 c3 c4 c5 c6 c7 c8 c9 : Char)
    (h0 : c0.isDigit = true) (h1 : c1.isDigit = true) (h2 : c2.isDigit = true)
    (h3 : c3.isDigit = true) (h4 : c4.isDigit = true) (h5 : c5.isDigit = true)
    (h6 : c6.isDigit = true) (h7 : c7.isDigit = true) (h8 : c8.isDigit = true)
    (h9 : c9.isDigit = true) :
    NubanAPI.validateNubanAlgorithm ⟨[c0, c1, c2, c3, c4, c5, c6, c7, c8, c9]⟩ = true ↔
      (10 - (0 + (c0.toNat - 48) * 3 + (c1.toNat - 48) * 7 + (c2.toNat - 48) * 3
          + (c3.toNat - 48) * 3 + (c4.toNat - 48) * 7 + (c5.toNat - 48) * 3
          + (c6.toNat - 48) * 3 + (c7.toNat - 48) * 7 + (c8.toNat - 48) * 3) % 10) % 10
        = c9.toNat - 48 := by
  have g0 := digits_of_isDigit c0 h0
  have g1 := digits_of_isDigit c1 h1
  have g2 := digits_of_isDigit c2 h2
  have g3 := digits_of_isDigit c3 h3
  have g4 := digits_of_isDigit c4 h4
  have g5 := digits_of_isDigit c5 h5
  have g6 := digits_of_isDigit c6 h6
  have g7 := digits_of_isDigit c7 h7
  have g8 := digits_of_isDigit c8 h8
  have g9 := digits_of_isDigit c9 h9
  have hds : NubanAPI.digits ⟨[c0, c1, c2, c3, c4, c5, c6, c7, c8, c9]⟩
      = [some (c0.toNat - 48), some (c1.toNat - 48), some (c2.toNat - 48),
         some (c3.toNat - 48), some (c4.toNat - 48), some (c5.toNat - 48),
         some (c6.toNat - 48), some (c7.toNat - 48), some (c8.toNat - 48),
         some (c9.toNat - 48)] := by
    simp only [NubanAPI.digits, String.toList, List.flatMap_cons, List.flatMap_nil, g0, g1, g2,
      g3, g4, g5, g6, g7, g8, g9, List.singleton_append, List.append_nil]
  have hrange : List.range 9 = [0, 1, 2, 3, 4, 5, 6, 7, 8] := by decide
  have hsum : NubanAPI.weightedSum
      [some (c0.toNat - 48), some (c1.toNat - 48), some (c2.toNat - 48),
       some (c3.toNat - 48), some (c4.toNat - 48), some (c5.toNat - 48),
       some (c6.toNat - 48), some (c7.toNat - 48), some (c8.toNat - 48),
       some (c9.toNat - 48)]
      = some (0 + (c0.toNat - 48) * 3 + (c1.toNat - 48) * 7 + (c2.toNat - 48) * 3
          + (c3.toNat - 48) * 3 + (c4.toNat - 48) * 7 + (c5.toNat - 48) * 3
          + (c6.toNat - 48) * 3 + (c7.toNat - 48) * 7 + (c8.toNat - 48) * 3) := by
    simp [NubanAPI.weightedSum, hrange, NubanAPI.weights]
  have hcheck : ([some (c0.toNat - 48), some (c1.toNat - 48), some (c2.toNat - 48),
       some (c3.toNat - 48), some (c4.toNat - 48), some (c5.toNat - 48),
       some (c6.toNat - 48), some (c7.toNat - 48), some (c8.toNat - 48),
       some (c9.toNat - 48)].get? 9).join = some (c9.toNat - 48) := rfl
  have hrun : NubanAPI.validateNubanAlgorithm ⟨[c0, c1, c2, c3, c4, c5, c6, c7, c8, c9]⟩
      = (NubanAPI.calculatedCheckDigit
          (0 + (c0.toNat - 48) * 3 + (c1.toNat - 48) * 7 + (c2.toNat - 48) * 3
          + (c3.toNat - 48) * 3 + (c4.toNat - 48) * 7 + (c5.toNat - 48) * 3
          + (c6.toNat - 48) * 3 + (c7.toNat - 48) * 7 + (c8.toNat - 48) * 3)
          == (c9.toNat - 48)) := by
    unfold NubanAPI.validateNubanAlgorithm
    simp only [hds, hsum, hcheck]
  rw [hrun, calculatedCheckDigit_eq]

/-- A weight of 3 or 7 lets the check digit tell two digits apart: with the rest `S` of
the weighted sum fixed, equal check digits come from equal digits. -/
theorem checkDigit_injective (S n m d w : Nat) (hw : w = 3 ∨ w = 7) (hn : n ≤ 9)
    (hm : m ≤ 9) (h1 : (10 - (S + n * w) % 10) % 10 = d)
    (h2 : (10 - (S + m * w) % 10) % 10 = d) : n = m := by
  rcases hw with rfl | rfl <;> omega

/-- C27: the check digit detects every single-digit error.  For every string of ten
decimal digits that `validateNubanAlgorithm` accepts, every position `i` of the ten and
every decimal digit `c` other than the one at position `i`, the string with `c` at
position `i` is rejected. -/
theorem nuban_detects_single_digit_error (accountNumber : String) (i : Nat) (c : Char)
    (hlen : accountNumber.length = 10)
    (hdigits : ∀ c ∈ accountNumber.toList, c.isDigit = true)
    (hvalid : NubanAPI.validateNubanAlgorithm accountNumber = true)
    (hi : i < 10) (hc : c.isDigit = true) (hne : c ≠ accountNumber.toList.getD i '0') :
    NubanAPI.validateNubanAlgorithm ⟨accountNumber.toList.set i c⟩ = false := by
  obtain ⟨cs⟩ := accountNumber
  obtain ⟨c0, c1, c2, c3, c4, c5, c6, c7, c8, c9, rfl⟩ := length_eq_ten cs hlen
  have h0 : c0.isDigit = true := hdigits c0 (by simp)
  have h1 : c1.isDigit = true := hdigits c1 (by simp)
  have h2 : c2.isDigit = true := hdigits c2 (by simp)
  have h3 : c3.isDigit = true := hdigits c3 (by simp)
  have h4 : c4.isDigit = true := hdigits c4 (by simp)
  have h5 : c5.isDigit = true := hdigits c5 (by simp)
  have h6 : c6.isDigit = true := hdigits c6 (by simp)
  have h7 : c7.isDigit = true := hdigits c7 (by simp)
  have h8 : c8.isDigit = true := hdigits c8 (by simp)
  have h9 : c9.isDigit = true := hdigits c9 (by simp)
  obtain ⟨n, e, b⟩ := digit_value c hc
  obtain ⟨n0, e0, b0⟩ := digit_value c0 h0
  obtain ⟨n1, e1, b1⟩ := digit_value c1 h1
  obtain ⟨n2, e2, b2⟩ := digit_value c2 h2
  obtain ⟨n3, e3, b3⟩ := digit_value c3 h3
  obtain ⟨n4, e4, b4⟩ := digit_value c4 h4
  obtain ⟨n5, e5, b5⟩ := digit_value c5 h5
  obtain ⟨n6, e6, b6⟩ := digit_value c6 h6
  obtain ⟨n7, e7, b7⟩ := digit_value c7 h7
  obtain ⟨n8, e8, b8⟩ := digit_value c8 h8
  obtain ⟨n9, e9, b9⟩ := digit_value c9 h9
  have k0 : c ≠ c0 → n ≠ n0 := fun h hn => h (char_eq_of_toNat c c0 (by rw [e, e0, hn]))
  have k1 : c ≠ c1 → n ≠ n1 := fun h hn => h (char_eq_of_toNat c c1 (by rw [e, e1, hn]))
  have k2 : c ≠ c2 → n ≠ n2 := fun h hn => h (char_eq_of_toNat c c2 (by rw [e, e2, hn]))
  have k3 : c ≠ c3 → n ≠ n3 := fun h hn => h (char_eq_of_toNat c c3 (by rw [e, e3, hn]))
  have k4 : c ≠ c4 → n ≠ n4 := fun h hn => h (char_eq_of_toNat c c4 (by rw [e, e4, hn]))
  have k5 : c ≠ c5 → n ≠ n5 := fun h hn => h (char_eq_of_toNat c c5 (by rw [e, e5, hn]))
  have k6 : c ≠ c6 → n ≠ n6 := fun h hn => h (char_eq_of_toNat c c6 (by rw [e, e6, hn]))
  have k7 : c ≠ c7 → n ≠ n7 := fun h hn => h (char_eq_of_toNat c c7 (by rw [e, e7, hn]))
  have k8 : c ≠ c8 → n ≠ n8 := fun h hn => h (char_eq_of_toNat c c8 (by rw [e, e8, hn]))
  have k9 : c ≠ c9 → n ≠ n9 := fun h hn => h (char_eq_of_toNat c c9 (by rw [e, e9, hn]))
  have hv := (validateNubanAlgorithm_of_digits c0 c1 c2 c3 c4 c5 c6 c7 c8 c9 h0 h1 h2 h3 h4 h5
    h6 h7 h8 h9).mp hvalid
  simp only [e0, e1, e2, e3, e4, e5, e6, e7, e8, e9, Nat.add_sub_cancel] at hv
  rw [← Bool.not_eq_true]
  intro hcon
  interval_cases i
  · simp only [String.toList, List.set, List.getD_cons_zero, List.getD_cons_succ] at hne hcon
    have hw := (validateNubanAlgorithm_of_digits c c1 c2 c3 c4 c5 c6 c7 c8 c9
      hc h1 h2 h3 h4 h5 h6 h7 h8 h9).mp hcon
    simp only [e, e0, e1, e2, e3, e4, e5, e6, e7, e8, e9, Nat.add_sub_cancel] at hw
    have hs1 : 0 + n0 * 3 + n1 * 7 + n2 * 3 + n3 * 3 + n4 * 7 + n5 * 3 + n6 * 3 + n7 * 7 + n8 * 3
        = (n1 * 7 + n2 * 3 + n3 * 3 + n4 * 7 + n5 * 3 + n6 * 3 + n7 * 7 + n8 * 3) + n0 * 3 := by ring
    have hs2 : 0 + n * 3 + n1 * 7 + n2 * 3 + n3 * 3 + n4 * 7 + n5 * 3 + n6 * 3 + n7 * 7 + n8 * 3
        = (n1 * 7 + n2 * 3 + n3 * 3 + n4 * 7 + n5 * 3 + n6 * 3 + n7 * 7 + n8 * 3) + n * 3 := by ring
    rw [hs1] at hv
    rw [hs2] at hw
    exact k0 hne (checkDigit_injective _ n n0 n9 3 (by decide) b b0 hw hv)
  · simp only [String.toList, List.set, List.getD_cons_zero, List.getD_cons_succ] at hne hcon
    have hw := (validateNubanAlgorithm_of_digits c0 c c2 c3 c4 c5 c6 c7 c8 c9
      h0 hc h2 h3 h4 h5 h6 h7 h8 h9).mp hcon
    simp only [e, e0, e1, e2, e3, e4, e5, e6, e7, e8, e9, Nat.add_sub_cancel] at hw
    have hs1 : 0 + n0 * 3 + n1 * 7 + n2 * 3 + n3 * 3 + n4 * 7 + n5 * 3 + n6 * 3 + n7 * 7 + n8 * 3
        = (n0 * 3 + n2 * 3 + n3 * 3 + n4 * 7 + n5 * 3 + n6 * 3 + n7 * 7 + n8 * 3) + n1 * 7 := by ring
    have hs2 : 0 + n0 * 3 + n * 7 + n2 * 3 + n3 * 3 + n4 * 7 + n5 * 3 + n6 * 3 + n7 * 7 + n8 * 3
        = (n0 * 3 + n2 * 3 + n3 * 3 + n4 * 7 + n5 * 3 + n6 * 3 + n7 * 7 + n8 * 3) + n * 7 := by ring
    rw [hs1] at hv
    rw [hs2] at hw
    exact k1 hne (checkDigit_injective _ n n1 n9 7 (by decide) b b1 hw hv)
  · simp only [String.toList, List.set, List.getD_cons_zero, List.getD_cons_succ] at hne hcon
    have hw := (validateNubanAlgorithm_of_digits c0 c1 c c3 c4 c5 c6 c7 c8 c9
      h0 h1 hc h3 h4 h5 h6 h7 h8 h9).mp hcon
    simp only [e, e0, e1, e2, e3, e4, e5, e6, e7, e8, e9, Nat.add_sub_cancel] at hw
    have hs1 : 0 + n0 * 3 + n1 * 7 + n2 * 3 + n3 * 3 + n4 * 7 + n5 * 3 + n6 * 3 + n7 * 7 + n8 * 3
        = (n0 * 3 + n1 * 7 + n3 * 3 + n4 * 7 + n5 * 3 + n6 * 3 + n7 * 7 + n8 * 3) + n2 * 3 := by ring
    have hs2 : 0 + n0 * 3 + n1 * 7 + n * 3 + n3 * 3 + n4 * 7 + n5 * 3 + n6 * 3 + n7 * 7 + n8 * 3
        = (n0 * 3 + n1 * 7 + n3 * 3 + n4 * 7 + n5 * 3 + n6 * 3 + n7 * 7 + n8 * 3) + n * 3 := by ring
    rw [hs1] at hv
    rw [hs2] at hw
    exact k2 hne (checkDigit_injective _ n n2 n9 3 (by decide) b b2 hw hv)
  · simp only [String.toList, List.set, List.getD_cons_zero, List.getD_cons_succ] at hne hcon
    have hw := (validateNubanAlgorithm_of_digits c0 c1 c2 c c4 c5 c6 c7 c8 c9
      h0 h1 h2 hc h4 h5 h6 h7 h8 h9).mp hcon
    simp only [e, e0, e1, e2, e3, e4, e5, e6, e7, e8, e9, Nat.add_sub_cancel] at hw
    have hs1 : 0 + n0 * 3 + n1 * 7 + n2 * 3 + n3 * 3 + n4 * 7 + n5 * 3 + n6 * 3 + n7 * 7 + n8 * 3
        = (n0 * 3 + n1 * 7 + n2 * 3 + n4 * 7 + n5 * 3 + n6 * 3 + n7 * 7 + n8 * 3) + n3 * 3 := by ring
    have hs2 : 0 + n0 * 3 + n1 * 7 + n2 * 3 + n * 3 + n4 * 7 + n5 * 3 + n6 * 3 + n7 * 7 + n8 * 3
        = (n0 * 3 + n1 * 7 + n2 * 3 + n4 * 7 + n5 * 3 + n6 * 3 + n7 * 7 + n8 * 3) + n * 3 := by ring
    rw [hs1] at hv
    rw [hs2] at hw
    exact k3 hne (checkDigit_injective _ n n3 n9 3 (by decide) b b3 hw hv)
  · simp only [String.toList, List.set, List.getD_cons_zero, List.getD_cons_succ] at hne hcon
    have hw := (validateNubanAlgorithm_of_digits c0 c1 c2 c3 c c5 c6 c7 c8 c9
      h0 h1 h2 h3 hc h5 h6 h7 h8 h9).mp hcon
    simp only [e, e0, e1, e2, e3, e4, e5, e6, e7, e8, e9, Nat.add_sub_cancel] at hw
    have hs1 : 0 + n0 * 3 + n1 * 7 + n2 * 3 + n3 * 3 + n4 * 7 + n5 * 3 + n6 * 3 + n7 * 7 + n8 * 3
        = (n0 * 3 + n1 * 7 + n2 * 3 + n3 * 3 + n5 * 3 + n6 * 3 + n7 * 7 + n8 * 3) + n4 * 7 := by ring
    have hs2 : 0 + n0 * 3 + n1 * 7 + n2 * 3 + n3 * 3 + n * 7 + n5 * 3 + n6 * 3 + n7 * 7 + n8 * 3
        = (n0 * 3 + n1 * 7 + n2 * 3 + n3 * 3 + n5 * 3 + n6 * 3 + n7 * 7 + n8 * 3) + n * 7 := by ring
    rw [hs1] at hv
    rw [hs2] at hw
    exact k4 hne (checkDigit_injective _ n n4 n9 7 (by decide) b b4 hw hv)
  · simp only [String.toList, List.set, List.getD_cons_zero, List.getD_cons_succ] at hne hcon
    have hw := (validateNubanAlgorithm_of_digits c0 c1 c2 c3 c4 c c6 c7 c8 c9
      h0 h1 h2 h3 h4 hc h6 h7 h8 h9).mp hcon
    simp only [e, e0, e1, e2, e3, e4, e5, e6, e7, e8, e9, Nat.add_sub_cancel] at hw
    have hs1 : 0 + n0 * 3 + n1 * 7 + n2 * 3 + n3 * 3 + n4 * 7 + n5 * 3 + n6 * 3 + n7 * 7 + n8 * 3
        = (n0 * 3 + n1 * 7 + n2 * 3 + n3 * 3 + n4 * 7 + n6 * 3 + n7 * 7 + n8 * 3) + n5 * 3 := by ring
    have hs2 : 0 + n0 * 3 + n1 * 7 + n2 * 3 + n3 * 3 + n4 * 7 + n * 3 + n6 * 3 + n7 * 7 + n8 * 3
        = (n0 * 3 + n1 * 7 + n2 * 3 + n3 * 3 + n4 * 7 + n6 * 3 + n7 * 7 + n8 * 3) + n * 3 := by ring
    rw [hs1] at hv
    rw [hs2] at hw
    exact k5 hne (checkDigit_injective _ n n5 n9 3 (by decide) b b5 hw hv)
  · simp only [String.toList, List.set, List.getD_cons_zero, List.getD_cons_succ] at hne hcon
    have hw := (validateNubanAlgorithm_of_digits c0 c1 c2 c3 c4 c5 c c7 c8 c9
      h0 h1 h2 h3 h4 h5 hc h7 h8 h9).mp hcon
    simp only [e, e0, e1, e2, e3, e4, e5, e6, e7, e8, e9, Nat.add_sub_cancel] at hw
    have hs1 : 0 + n0 * 3 + n1 * 7 + n2 * 3 + n3 * 3 + n4 * 7 + n5 * 3 + n6 * 3 + n7 * 7 + n8 * 3
        = (n0 * 3 + n1 * 7 + n2 * 3 + n3 * 3 + n4 * 7 + n5 * 3 + n7 * 7 + n8 * 3) + n6 * 3 := by ring
    have hs2 : 0 + n0 * 3 + n1 * 7 + n2 * 3 + n3 * 3 + n4 * 7 + n5 * 3 + n * 3 + n7 * 7 + n8 * 3
        = (n0 * 3 + n1 * 7 + n2 * 3 + n3 * 3 + n4 * 7 + n5 * 3 + n7 * 7 + n8 * 3) + n * 3 := by ring
    rw [hs1] at hv
    rw [hs2] at hw
    exact k6 hne (checkDigit_injective _ n n6 n9 3 (by decide) b b6 hw hv)
  · simp only [String.toList, List.set, List.getD_cons_zero, List.getD_cons_succ] at hne hcon
    have hw := (validateNubanAlgorithm_of_digits c0 c1 c2 c3 c4 c5 c6 c c8 c9
      h0 h1 h2 h3 h4 h5 h6 hc h8 h9).mp hcon
    simp only [e, e0, e1, e2, e3, e4, e5, e6, e7, e8, e9, Nat.add_sub_cancel] at hw
    have hs1 : 0 + n0 * 3 + n1 * 7 + n2 * 3 + n3 * 3 + n4 * 7 + n5 * 3 + n6 * 3 + n7 * 7 + n8 * 3
        = (n0 * 3 + n1 * 7 + n2 * 3 + n3 * 3 + n4 * 7 + n5 * 3 + n6 * 3 + n8 * 3) + n7 * 7 := by ring
    have hs2 : 0 + n0 * 3 + n1 * 7 + n2 * 3 + n3 * 3 + n4 * 7 + n5 * 3 + n6 * 3 + n * 7 + n8 * 3
        = (n0 * 3 + n1 * 7 + n2 * 3 + n3 * 3 + n4 * 7 + n5 * 3 + n6 * 3 + n8 * 3) + n * 7 := by ring
    rw [hs1] at hv
    rw [hs2] at hw
    exact k7 hne (checkDigit_injective _ n n7 n9 7 (by decide) b b7 hw hv)
  · simp only [String.toList, List.set, List.getD_cons_zero, List.getD_cons_succ] at hne hcon
    have hw := (validateNubanAlgorithm_of_digits c0 c1 c2 c3 c4 c5 c6 c7 c c9
      h0 h1 h2 h3 h4 h5 h6 h7 hc h9).mp hcon
    simp only [e, e0, e1, e2, e3, e4, e5, e6, e7, e8, e9, Nat.add_sub_cancel] at hw
    have hs1 : 0 + n0 * 3 + n1 * 7 + n2 * 3 + n3 * 3 + n4 * 7 + n5 * 3 + n6 * 3 + n7 * 7 + n8 * 3
        = (n0 * 3 + n1 * 7 + n2 * 3 + n3 * 3 + n4 * 7 + n5 * 3 + n6 * 3 + n7 * 7) + n8 * 3 := by ring
    have hs2 : 0 + n0 * 3 + n1 * 7 + n2 * 3 + n3 * 3 + n4 * 7 + n5 * 3 + n6 * 3 + n7 * 7 + n * 3
        = (n0 * 3 + n1 * 7 + n2 * 3 + n3 * 3 + n4 * 7 + n5 * 3 + n6 * 3 + n7 * 7) + n * 3 := by ring
    rw [hs1] at hv
    rw [hs2] at hw
    exact k8 hne (checkDigit_injective _ n n8 n9 3 (by decide) b b8 hw hv)
  · simp only [String.toList, List.set, List.getD_cons_zero, List.getD_cons_succ] at hne hcon
    have hw := (validateNubanAlgorithm_of_digits c0 c1 c2 c3 c4 c5 c6 c7 c8 c
      h0 h1 h2 h3 h4 h5 h6 h7 h8 hc).mp hcon
    simp only [e, e0, e1, e2, e3, e4, e5, e6, e7, e8, e9, Nat.add_sub_cancel] at hw
    rw [hv] at hw
    exact k9 hne hw.symm

/-- The statement of C27 on the accepted account number `0123456784` with its fourth
digit replaced by `9`. -/
theorem nuban_detects_single_digit_error_witness :
    NubanAPI.validateNubanAlgorithm "0123456784" = true ∧
    NubanAPI.validateNubanAlgorithm ⟨"0123456784".toList.set 3 '9'⟩ = false :=
  ⟨by decide,
   nuban_detects_single_digit_error "0123456784" 3 '9' (by decide) (by decide) (by decide)
    (by decide) (by decide) (by decide)⟩

/-! ## Default rates -/

/-- A document id that no document carries reads as missing. -/
theorem getDoc_eq_none_of_keys {α : Type} (coll : List (String × α)) (id : String)
    (h : ∀ kv ∈ coll, kv.1 ≠ id) : getDoc coll id = none := by
  induction coll with
  | nil => rfl
  | cons kv rest ih =>
    obtain ⟨k, v⟩ := kv
    unfold getDoc
    rw [if_neg (h (k, v) (List.mem_cons_self _ _))]
    exact ih (fun kv hkv => h kv (List.mem_cons_of_mem _ hkv))

/-- An update of a missing document is rejected. -/
theorem updateDoc_eq_none_of_getDoc {α : Type} (coll : List (String × α)) (id : String)
    (f : α → α) (h : getDoc coll id = none) : updateDoc coll id f = none := by
  cases hu : updateDoc coll id f with
  | none => rfl
  | some coll' =>
    obtain ⟨v, hv, -⟩ := getDoc_of_updateDoc coll coll' id f hu
    rw [h] at hv
    cases hv

/-- An update keeps the document ids of the collection. -/
theorem updateDoc_keys {α : Type} (coll coll' : List (String × α)) (id : String) (f : α → α)
    (h : updateDoc coll id f = some coll') : coll'.map Prod.fst = coll.map Prod.fst := by
  induction coll generalizing coll' with
  | nil => simp [updateDoc] at h
  | cons kv rest ih =>
    obtain ⟨k, v⟩ := kv
    unfold updateDoc at h
    split_ifs at h with hk
    · injection h with h
      subst h
      rfl
    · cases hr : updateDoc rest id f with
      | none => simp [hr] at h
      | some r =>
        simp [hr] at h
        subst h
        simp [ih r hr]

/-- The promise of a card type whose document is missing adds a document under the
generated id, when its `addDoc` completes. -/
theorem initializeRate_of_missing (w : RateWrite) (rates : List (String × Rate))
    (cardType : String) (rateData : RateData) (hmissing : getDoc rates cardType = none)
    (hadd : w.addFault = none) :
    initializeRate w rates cardType rateData
      = rates ++ [(w.newId,
          { buyRate := rateData.buyRate
            sellRate := rateData.sellRate
            currency := rateData.currency
            status := rateData.status
            cardType := some cardType })] := by
  unfold initializeRate
  cases hu : w.updateFault with
  | some msg => simp [hadd, addDoc]
  | none => simp [updateDoc_eq_none_of_getDoc rates cardType _ hmissing, hadd, addDoc]

/-- The promise of a card type whose document is missing leaves the collection as it
was, when its `addDoc` is rejected. -/
theorem initializeRate_of_rejected (w : RateWrite) (rates : List (String × Rate))
    (cardType : String) (rateData : RateData) (hmissing : getDoc rates cardType = none)
    (hadd : w.addFault ≠ none) : initializeRate w rates cardType rateData = rates := by
  unfold initializeRate
  cases ha : w.addFault with
  | none => exact absurd ha hadd
  | some msg =>
    cases hu : w.updateFault with
    | some msg' => simp
    | none => simp [updateDoc_eq_none_of_getDoc rates cardType _ hmissing]

/-- No promise of `initializeDefaultRates` creates a document named after a card type:
the ids of the collection stay outside `GIFT_CARD_TYPES` when the generated ids are. -/
theorem initializeRate_keys (w : RateWrite) (rates : List (String × Rate)) (cardType : String)
    (rateData : RateData) (hkeys : ∀ kv ∈ rates, kv.1 ∉ GIFT_CARD_TYPES)
    (hid : w.newId ∉ GIFT_CARD_TYPES) :
    ∀ kv ∈ initializeRate w rates cardType rateData, kv.1 ∉ GIFT_CARD_TYPES := by
  have hadd : ∀ r : Rate, ∀ kv ∈ addDoc rates w.newId r, kv.1 ∉ GIFT_CARD_TYPES := by
    intro r kv hkv
    unfold addDoc at hkv
    rcases List.mem_append.mp hkv with h | h
    · exact hkeys kv h
    · rw [List.mem_singleton] at h
      rw [h]
      exact hid
  have hupd : ∀ (f : Rate → Rate) (rates' : List (String × Rate)),
      updateDoc rates cardType f = some rates' → ∀ kv ∈ rates', kv.1 ∉ GIFT_CARD_TYPES := by
    intro f rates' hu kv hkv
    have hk : kv.1 ∈ rates'.map Prod.fst := List.mem_map.mpr ⟨kv, hkv, rfl⟩
    rw [updateDoc_keys rates rates' cardType f hu] at hk
    obtain ⟨kv', hkv', heq⟩ := List.mem_map.mp hk
    rw [← heq]
    exact hkeys kv' hkv'
  unfold initializeRate
  cases hu : w.updateFault with
  | some msg =>
    cases ha : w.addFault with
    | some msg' => simpa using hkeys
    | none => simpa using hadd _
  | none =>
    dsimp only
    split
    · next rates' hr => exact hupd _ rates' hr
    · cases ha : w.addFault with
      | some msg' => simpa using hkeys
      | none => simpa using hadd _

/-- The ids of the collection after the promises of the entries `entries`. -/
theorem initializeRates_keys (writes : String → RateWrite) (entries : List (String × RateData))
    (rates : List (String × Rate)) (hkeys : ∀ kv ∈ rates, kv.1 ∉ GIFT_CARD_TYPES)
    (hids : ∀ c, (writes c).newId ∉ GIFT_CARD_TYPES) :
    ∀ kv ∈ entries.foldl
        (fun rates entry => initializeRate (writes entry.1) rates entry.1 entry.2) rates,
      kv.1 ∉ GIFT_CARD_TYPES := by
  induction entries generalizing rates with
  | nil => exact hkeys
  | cons entry rest ih =>
    rw [List.foldl_cons]
    exact ih _ (initializeRate_keys (writes entry.1) rates entry.1 entry.2 hkeys (hids entry.1))

/-- The collection after the promises of the entries `entries`, all named after card
types, when every `addDoc` completes: each entry has been added under its generated
id. -/
theorem initializeRates_added (writes : String → RateWrite) (entries : List (String × RateData))
    (rates : List (String × Rate)) (hkeys : ∀ kv ∈ rates, kv.1 ∉ GIFT_CARD_TYPES)
    (hids : ∀ c, (writes c).newId ∉ GIFT_CARD_TYPES)
    (hentries : ∀ entry ∈ entries, entry.1 ∈ GIFT_CARD_TYPES)
    (hadd : ∀ c, (writes c).addFault = none) :
    entries.foldl (fun rates entry => initializeRate (writes entry.1) rates entry.1 entry.2)
        rates
      = rates ++ entries.map (fun entry =>
          ((writes entry.1).newId,
            ({ buyRate := entry.2.buyRate
               sellRate := entry.2.sellRate
               currency := entry.2.currency
               status := entry.2.status
               cardType := some entry.1 } : Rate))) := by
  induction entries generalizing rates with
  | nil => simp
  | cons entry rest ih =>
    have hmissing : getDoc rates entry.1 = none :=
      getDoc_eq_none_of_keys rates entry.1 (fun kv hkv heq =>
        hkeys kv hkv (heq ▸ hentries entry (List.mem_cons_self _ _)))
    rw [List.foldl_cons, initializeRate_of_missing (writes entry.1) rates entry.1 entry.2
      hmissing (hadd entry.1)]
    rw [ih _ _ (fun e he => hentries e (List.mem_cons_of_mem _ he))]
    · simp
    · intro kv hkv
      rcases List.mem_append.mp hkv with h | h
      · exact hkeys kv h
      · rw [List.mem_singleton] at h
        rw [h]
        exact hids entry.1

/-- The collection stays empty under the promises of the entries `entries` when every
`addDoc` is rejected. -/
theorem initializeRates_rejected (writes : String → RateWrite)
    (entries : List (String × RateData)) (hadd : ∀ c, (writes c).addFault ≠ none) :
    entries.foldl (fun rates entry => initializeRate (writes entry.1) rates entry.1 entry.2) []
      = [] := by
  induction entries with
  | nil => rfl
  | cons entry rest ih =>
    rw [List.foldl_cons, initializeRate_of_rejected (writes entry.1) [] entry.1 entry.2 rfl
      (hadd entry.1)]
    exact ih

/-- C25 (the code): starting from an empty `giftCardRates` collection, with generated
ids that are not names of card types, `getRateByType(t)` fails with
`Rate not found for t` after `initializeDefaultRates`, for every `t` in
`GIFT_CARD_TYPES` and whatever the outcomes of the writes; when every `addDoc`
completes the collection holds the ten default records, each under its generated id
with the card type as a field. -/
theorem initializeDefaultRates_rate_not_found (writes : String → RateWrite) (db : Store)
    (hempty : db.giftCardRates = []) (hids : ∀ c, (writes c).newId ∉ GIFT_CARD_TYPES) :
    (∀ t ∈ GIFT_CARD_TYPES,
      getRateByType none (initializeDefaultRates writes db) t
        = .error ("Rate not found for " ++ t)) ∧
    ((∀ c, (writes c).addFault = none) →
      (initializeDefaultRates writes db).giftCardRates
        = defaultRates.map (fun entry =>
            ((writes entry.1).newId,
              ({ buyRate := entry.2.buyRate
                 sellRate := entry.2.sellRate
                 currency := entry.2.currency
                 status := entry.2.status
                 cardType := some entry.1 } : Rate)))) := by
  have hnil : ∀ kv ∈ ([] : List (String × Rate)), kv.1 ∉ GIFT_CARD_TYPES := by
    intro kv hkv
    cases hkv
  constructor
  · intro t ht
    have hkeys := initializeRates_keys writes defaultRates [] hnil hids
    have hmissing : getDoc (initializeDefaultRates writes db).giftCardRates t = none := by
      unfold initializeDefaultRates
      rw [hempty]
      exact getDoc_eq_none_of_keys _ t (fun kv hkv heq => hkeys kv hkv (heq ▸ ht))
    have hmsg : "Rate not found for " ++ t ≠ "" := by
      intro h
      have hlen := congrArg String.length h
      simp only [String.length_append] at hlen
      have h19 : "Rate not found for ".length = 19 := by decide
      rw [h19] at hlen
      have h0 : "".length = 0 := by decide
      omega
    simp [getRateByType, hmissing, orStr, hmsg]
  · intro hadd
    unfold initializeDefaultRates
    rw [hempty]
    have hentries : ∀ entry ∈ defaultRates, entry.1 ∈ GIFT_CARD_TYPES := by decide
    rw [initializeRates_added writes defaultRates [] hnil hids hentries hadd]
    simp

/-- The statement of C25 (the code) on the empty store with every write completing:
the lookup of `Amazon` fails. -/
theorem initializeDefaultRates_rate_not_found_witness :
    getRateByType none (initializeDefaultRates acceptWrites {}) "Amazon"
      = .error ("Rate not found for " ++ "Amazon") :=
  (initializeDefaultRates_rate_not_found acceptWrites {} rfl
    (by
      intro c h
      have hdata : ∀ t ∈ GIFT_CARD_TYPES, (acceptWrites c).newId.toList.head? ≠ t.toList.head? := by
        simp [acceptWrites, GIFT_CARD_TYPES]
      exact hdata _ h rfl)).1 "Amazon" (by decide)

/-! ## Termination of `getCurrentRates` -/

/-- A rejected read ends `getCurrentRates` with a failure result. -/
theorem getCurrentRates_of_read_fault (fuel : Nat) (env : Nat → RatesRound) (round : Nat)
    (db : Store) (msg : String) (hread : (env round).readFault = some msg) :
    getCurrentRates (fuel + 1) env round db
      = some (db, .error (orStr msg "Failed to fetch rates")) := by
  simp [getCurrentRates, hread]

/-- On a collection that is not empty `getCurrentRates` returns its documents. -/
theorem getCurrentRates_of_rates (fuel : Nat) (env : Nat → RatesRound) (round : Nat)
    (db : Store) (hread : (env round).readFault = none) (hrates : db.giftCardRates ≠ []) :
    getCurrentRates (fuel + 1) env round db = some (db, .ok db.giftCardRates) := by
  simp [getCurrentRates, hread, hrates]

/-- On an empty collection, when the writes of `initializeDefaultRates` complete,
`getCurrentRates` returns in its second run with the ten added documents. -/
theorem getCurrentRates_after_initialisation (fuel : Nat) (env : Nat → RatesRound)
    (round : Nat) (db : Store) (hempty : db.giftCardRates = [])
    (hread : (env round).readFault = none) (hnext : (env (round + 1)).readFault = none)
    (hadd : ∀ c, ((env round).writes c).addFault = none)
    (hids : ∀ c, ((env round).writes c).newId ∉ GIFT_CARD_TYPES) :
    ∃ db', getCurrentRates (fuel + 2) env round db = some (db', .ok db'.giftCardRates) ∧
      db'.giftCardRates.length = 10 := by
  have hnil : ∀ kv ∈ ([] : List (String × Rate)), kv.1 ∉ GIFT_CARD_TYPES := by
    intro kv hkv
    cases hkv
  have hentries : ∀ entry ∈ defaultRates, entry.1 ∈ GIFT_CARD_TYPES := by decide
  have hlen : (initializeDefaultRates (env round).writes db).giftCardRates.length = 10 := by
    unfold initializeDefaultRates
    rw [hempty, initializeRates_added (env round).writes defaultRates [] hnil hids hentries hadd]
    simp [defaultRates]
  have hrates : (initializeDefaultRates (env round).writes db).giftCardRates ≠ [] := by
    intro h
    rw [h] at hlen
    cases hlen
  refine ⟨initializeDefaultRates (env round).writes db, ?_, hlen⟩
  rw [getCurrentRates]
  simp only [hread, hempty, List.length_nil, if_true]
  exact getCurrentRates_of_rates fuel env (round + 1) _ hnext hrates

/-- C30 (the code): on an empty `giftCardRates` collection, with every read completing
and every `addDoc` of `initializeDefaultRates` rejected, `getCurrentRates` returns
nothing: every run of its body ends in a further call, however many runs are allowed. -/
theorem getCurrentRates_never_returns (fuel : Nat) (env : Nat → RatesRound) (round : Nat)
    (db : Store) (hempty : db.giftCardRates = []) (hread : ∀ n, (env n).readFault = none)
    (hwrites : ∀ n c, ((env n).writes c).addFault ≠ none) :
    getCurrentRates fuel env round db = none := by
  induction fuel generalizing round db with
  | zero => rfl
  | succ fuel ih =>
    unfold getCurrentRates
    simp only [hread round, hempty, List.length_nil, if_true]
    apply ih
    unfold initializeDefaultRates
    rw [hempty]
    exact initializeRates_rejected (env round).writes defaultRates (hwrites round)

/-- The statement of C30 (the code) on the empty store with every write rejected: a
thousand runs of the body do not reach a result. -/
theorem getCurrentRates_never_returns_witness :
    getCurrentRates 1000 denyRounds 0 {} = none :=
  getCurrentRates_never_returns 1000 denyRounds 0 {} rfl (fun _ => rfl)
    (fun _ _ => by simp [denyRounds, denyWrites])

/-! ## Approval of an identity check -/

/-- C26 (the code): `handleKycAction(kycId, 'approved')` writes `kycStatus` to the
profile document named `kycId`, the id of the submission, not to the one named by the
field `userId` of the submission.  For a submission stored under an id that names no
profile, as the ids that `addDoc` generates do, the call marks the submission as
approved, fails on the profile write with the message of its `catch` block, and leaves
every profile, that of the submitting user included, as it was. -/
theorem kyc_approval_misses_submitter (admin : String) (db : Store) (kycId : String)
    (k : KycSubmission) (p : UserProfile)
    (hk : getDoc db.kycSubmissions kycId = some k)
    (hp : getDoc db.users k.userId = some p)
    (hid : getDoc db.users kycId = none) :
    ∃ db', handleKycAction none none (some admin) db kycId "approved" none
        = (db', some "Failed to approved KYC submission") ∧
      getDoc db'.kycSubmissions kycId
        = some { k with status := "approved", reviewedBy := some admin } ∧
      db'.users = db.users ∧
      getDoc db'.users k.userId = some p := by
  obtain ⟨coll, hupd, hget⟩ := updateDoc_of_getDoc db.kycSubmissions kycId
    (fun k : KycSubmission =>
      { k with
          status := "approved"
          reviewedBy := some admin
          rejectionReason :=
            if "approved" = "rejected" ∧ (none : Option String).getD "" ≠ "" then none
            else k.rejectionReason })
    k hk
  have hfalse : ¬ ("approved" = "rejected" ∧ (none : Option String).getD "" ≠ "") := by
    intro h
    exact absurd h.1 (by decide)
  simp only [if_neg hfalse] at hupd hget
  have hmiss : ∀ f : UserProfile → UserProfile, updateDoc db.users kycId f = none :=
    fun f => updateDoc_eq_none_of_getDoc db.users kycId f hid
  refine ⟨{ db with kycSubmissions := coll }, ?_, hget, rfl, hp⟩
  simp only [handleKycAction, if_neg hfalse, hupd, hmiss, if_true]
  rfl

/-- The statement of C26 (the code) on the submission `k1` that `handleSubmitKYC` stores
for the user `u2`: after the approval of `k1` the profile of `u2` is still `pending`. -/
theorem kyc_approval_misses_submitter_witness :
    ∃ db', handleKycAction none none (some "admin")
        (handleSubmitKYC (completeReferralBonus none) true true "k1" none none none true "nin"
          "12345678" kycReferralState).1.db "k1" "approved" none
        = (db', some "Failed to approved KYC submission") ∧
      getDoc db'.kycSubmissions "k1"
        = some { ({ userId := "u2", idType := "nin", idNumber := "12345678".trim,
                    status := "pending" } : KycSubmission) with
                  status := "approved", reviewedBy := some "admin" } ∧
      db'.users = (handleSubmitKYC (completeReferralBonus none) true true "k1" none none none
          true "nin" "12345678" kycReferralState).1.db.users ∧
      getDoc db'.users
          ({ userId := "u2", idType := "nin", idNumber := "12345678".trim,
             status := "pending" } : KycSubmission).userId
        = some { referredProfile with kycStatus := "pending" } :=
  kyc_approval_misses_submitter "admin"
    (handleSubmitKYC (completeReferralBonus none) true true "k1" none none none true "nin"
      "12345678" kycReferralState).1.db "k1"
    { userId := "u2", idType := "nin", idNumber := "12345678".trim, status := "pending" }
    { referredProfile with kycStatus := "pending" }
    (by
      simp [handleSubmitKYC, kycReferralState, wasReferred, referredProfile, updateUserProfile,
        loadUserProfile, updateDoc, getDoc, addDoc, completeReferralBonus_eq, referralStore])
    (by
      simp [handleSubmitKYC, kycReferralState, wasReferred, referredProfile, updateUserProfile,
        loadUserProfile, updateDoc, getDoc, addDoc, completeReferralBonus_eq, referralStore])
    (by
      simp [handleSubmitKYC, kycReferralState, wasReferred, referredProfile, updateUserProfile,
        loadUserProfile, updateDoc, getDoc, addDoc, completeReferralBonus_eq, referralStore])

/-! ## Referral codes -/

/-- Every position of the alphabet of `generateReferralCode` holds a capital letter or
a digit. -/
theorem charAt_chars (n : Nat) (h : n < 36) :
    ∃ c, charAt "ABCDEFGHIJKLMNOPQRSTUVWXYZ0123456789" (n : Int) = ⟨[c]⟩ ∧
      (c.isUpper || c.isDigit) = true := by
  interval_cases n <;> exact ⟨_, rfl, rfl⟩

/-- The character that one round of the loop of `generateReferralCode` appends. -/
theorem charAt_random (r : Rat) (h0 : 0 ≤ r) (h1 : r < 1) :
    ∃ c, charAt "ABCDEFGHIJKLMNOPQRSTUVWXYZ0123456789"
        ⌊r * ("ABCDEFGHIJKLMNOPQRSTUVWXYZ0123456789".length : Nat)⌋ = ⟨[c]⟩ ∧
      (c.isUpper || c.isDigit) = true := by
  have hlen : "ABCDEFGHIJKLMNOPQRSTUVWXYZ0123456789".length = 36 := by decide
  rw [hlen]
  have hlo : 0 ≤ ⌊r * ((36 : Nat) : Rat)⌋ := Int.floor_nonneg.mpr (by positivity)
  have hhi : ⌊r * ((36 : Nat) : Rat)⌋ < 36 := by
    rw [Int.floor_lt]
    push_cast
    linarith
  obtain ⟨n, hn⟩ := Int.eq_ofNat_of_zero_le hlo
  rw [hn] at hhi ⊢
  exact charAt_chars n (by omega)

/-- The upper-cased form of an ASCII letter or digit is a capital letter or a digit. -/
theorem toUpper_isUpper_or_isDigit (c : Char) (h : c.isAlphanum = true) :
    (c.toUpper.isUpper || c.toUpper.isDigit) = true := by
  have hc : c = Char.ofNat c.toNat := (Char.ofNat_toNat c).symm
  simp only [Char.isAlphanum, Char.isAlpha, Char.isUpper, Char.isLower, Char.isDigit,
    Bool.or_eq_true, Bool.and_eq_true, decide_eq_true_eq] at h
  have hrange : (65 ≤ c.toNat ∧ c.toNat ≤ 90) ∨ (97 ≤ c.toNat ∧ c.toNat ≤ 122) ∨
      (48 ≤ c.toNat ∧ c.toNat ≤ 57) := by
    rcases h with (h | h) | h
    · exact Or.inl h
    · exact Or.inr (Or.inl h)
    · exact Or.inr (Or.inr h)
  generalize c.toNat = n at hc hrange
  subst hc
  rcases hrange with ⟨h1, h2⟩ | ⟨h1, h2⟩ | ⟨h1, h2⟩ <;> interval_cases n <;> decide

/-- C28: for every `userId` that ends in two ASCII letters or digits `a`, `b` and for
all values of the six calls of `Math.random()`, the code that `generateReferralCode`
returns is eight characters long, ends with the upper-cased `a` and `b`, and is
accepted by `validateReferralCode`; it is the code that `register` stores in the
profile of the new user. -/
theorem generateReferralCode_valid (random : Nat → Rat) (userId : String) (front : List Char)
    (a b : Char) (hrandom : ∀ i, i < 6 → 0 ≤ random i ∧ random i < 1)
    (hid : userId.toList = front ++ [a, b])
    (ha : a.isAlphanum = true) (hb : b.isAlphanum = true) :
    (generateReferralCode random userId).length = 8 ∧
    (generateReferralCode random userId).toList.drop 6 = [a.toUpper, b.toUpper] ∧
    (validateReferralCode (generateReferralCode random userId)).isValid = true ∧
    ∀ (queryFault addFault : StoreFault) (referralId : String) (s : AuthState)
      (referralCode : Option String),
      (register random (.ok userId) queryFault addFault referralId none s
        referralCode).1.userProfile.map (fun p => p.referralCode)
        = some (generateReferralCode random userId) := by
  obtain ⟨c0, e0, g0⟩ := charAt_random (random 0) (hrandom 0 (by decide)).1 (hrandom 0 (by decide)).2
  obtain ⟨c1, e1, g1⟩ := charAt_random (random 1) (hrandom 1 (by decide)).1 (hrandom 1 (by decide)).2
  obtain ⟨c2, e2, g2⟩ := charAt_random (random 2) (hrandom 2 (by decide)).1 (hrandom 2 (by decide)).2
  obtain ⟨c3, e3, g3⟩ := charAt_random (random 3) (hrandom 3 (by decide)).1 (hrandom 3 (by decide)).2
  obtain ⟨c4, e4, g4⟩ := charAt_random (random 4) (hrandom 4 (by decide)).1 (hrandom 4 (by decide)).2
  obtain ⟨c5, e5, g5⟩ := charAt_random (random 5) (hrandom 5 (by decide)).1 (hrandom 5 (by decide)).2
  have hslice : sliceLast userId 2 = ⟨[a, b]⟩ := by
    have hlen : userId.length = front.length + 2 := by
      have h := congrArg List.length hid
      rw [List.length_append] at h
      exact h
    unfold sliceLast
    rw [hlen, hid, Nat.add_sub_cancel, List.drop_left]
  have hrange : List.range 6 = [0, 1, 2, 3, 4, 5] := by decide
  have hcode : generateReferralCode random userId
      = ⟨[c0, c1, c2, c3, c4, c5, a.toUpper, b.toUpper]⟩ := by
    unfold generateReferralCode
    simp only [hrange, List.foldl_cons, List.foldl_nil, Nat.cast_zero, Nat.cast_one,
      Nat.cast_ofNat, e0, e1, e2, e3, e4, e5, hslice, toUpperCase]
    apply String.ext
    simp [String.toList]
  have ga := toUpper_isUpper_or_isDigit a ha
  have gb := toUpper_isUpper_or_isDigit b hb
  have hvalid : (validateReferralCode ⟨[c0, c1, c2, c3, c4, c5, a.toUpper, b.toUpper]⟩).isValid
      = true := by
    have hne : (⟨[c0, c1, c2, c3, c4, c5, a.toUpper, b.toUpper]⟩ : String) ≠ "" := by
      intro h
      have hl := congrArg String.length h
      simp [String.length] at hl
    unfold validateReferralCode
    rw [if_neg hne, if_neg]
    simp only [String.length, String.toList, List.length_cons, List.length_nil, List.all_cons,
      List.all_nil, g0, g1, g2, g3, g4, g5, ga, gb]
    simp
  rw [hcode]
  refine ⟨rfl, rfl, hvalid, ?_⟩
  intro queryFault addFault referralId s referralCode
  rw [← hcode]
  unfold register
  dsimp only
  split <;> rfl

/-- The statement of C28 on the user id `abcxYz9k` with the sample random values: the
code is `AFKPUZ9K`. -/
theorem generateReferralCode_valid_witness :
    generateReferralCode sampleRandom "abcxYz9k" = "AFKPUZ9K" ∧
    (generateReferralCode sampleRandom "abcxYz9k").length = 8 ∧
    (generateReferralCode sampleRandom "abcxYz9k").toList.drop 6
      = ['9'.toUpper, 'k'.toUpper] ∧
    (validateReferralCode (generateReferralCode sampleRandom "abcxYz9k")).isValid = true :=
  have h := generateReferralCode_valid sampleRandom "abcxYz9k" ['a', 'b', 'c', 'x', 'Y', 'z']
    '9' 'k'
    (by
      intro i hi
      unfold sampleRandom
      interval_cases i <;> norm_num)
    (by decide) (by decide) (by decide)
  ⟨by
    have hlen : "ABCDEFGHIJKLMNOPQRSTUVWXYZ0123456789".length = 36 := by decide
    have hrange : List.range 6 = [0, 1, 2, 3, 4, 5] := by decide
    have f0 : ⌊sampleRandom 0 * ((36 : Nat) : Rat)⌋ = 0 := by
      rw [Int.floor_eq_iff]
      norm_num [sampleRandom]
    have f1 : ⌊sampleRandom 1 * ((36 : Nat) : Rat)⌋ = 5 := by
      rw [Int.floor_eq_iff]
      norm_num [sampleRandom]
    have f2 : ⌊sampleRandom 2 * ((36 : Nat) : Rat)⌋ = 10 := by
      rw [Int.floor_eq_iff]
      norm_num [sampleRandom]
    have f3 : ⌊sampleRandom 3 * ((36 : Nat) : Rat)⌋ = 15 := by
      rw [Int.floor_eq_iff]
      norm_num [sampleRandom]
    have f4 : ⌊sampleRandom 4 * ((36 : Nat) : Rat)⌋ = 20 := by
      rw [Int.floor_eq_iff]
      norm_num [sampleRandom]
    have f5 : ⌊sampleRandom 5 * ((36 : Nat) : Rat)⌋ = 25 := by
      rw [Int.floor_eq_iff]
      norm_num [sampleRandom]
    unfold generateReferralCode
    simp only [hlen, hrange, List.foldl_cons, List.foldl_nil, f0, f1, f2, f3, f4, f5]
    decide,
   h.1, h.2.1, h.2.2.1⟩

/-! ## Referral statistics -/

/-- A document written by `setDoc` reads back. -/
theorem getDoc_setDoc {α : Type} (coll : List (String × α)) (id : String) (data : α) :
    getDoc (setDoc coll id data) id = some data := by
  induction coll with
  | nil => simp [setDoc, getDoc]
  | cons kv rest ih =>
    obtain ⟨k, v⟩ := kv
    unfold setDoc
    split_ifs with hk
    · simp [getDoc, hk]
    · simp [getDoc, hk, ih]

/-- What a read returns after an update: the merged document under the updated id,
every other document as before. -/
theorem getDoc_updateDoc {α : Type} (coll coll' : List (String × α)) (id k : String)
    (f : α → α) (h : updateDoc coll id f = some coll') :
    getDoc coll' k = if k = id then (getDoc coll k).map f else getDoc coll k := by
  induction coll generalizing coll' with
  | nil => simp [updateDoc] at h
  | cons kv rest ih =>
    obtain ⟨k0, v⟩ := kv
    unfold updateDoc at h
    split_ifs at h with hk0
    · injection h with h
      subst h
      subst hk0
      by_cases hk : k0 = k
      · subst hk
        simp [getDoc]
      · have hk' : ¬ k = k0 := fun h => hk h.symm
        simp [getDoc, hk, hk']
    · cases hr : updateDoc rest id f with
      | none => simp [hr] at h
      | some r =>
        simp [hr] at h
        subst h
        by_cases hk : k0 = k
        · subst hk
          have hne : ¬ k0 = id := hk0
          simp [getDoc, hne]
        · simp [getDoc, hk, ih r hr]

/-- The query of `processReferral` never resolves: every call ends in its `catch` block
and leaves the store as it was. -/
theorem processReferral_eq (queryFault addFault : StoreFault) (newId : String) (db : Store)
    (referralCode newUserId : String) :
    processReferral queryFault addFault newId db referralCode newUserId
      = (db, .error (referenceError "getDocs")) := by
  unfold processReferral
  rw [if_neg]
  intro h
  exact absurd h.1 (by decide)

/-- The profile that a successful `register` stores, and the collections it leaves. -/
theorem register_ok (random : Nat → Rat) (uid : String) (queryFault addFault : StoreFault)
    (referralId : String) (s : AuthState) (referralCode : Option String) :
    (register random (.ok uid) queryFault addFault referralId none s referralCode).1.db.referrals
      = s.db.referrals ∧
    getDoc (register random (.ok uid) queryFault addFault referralId none s
        referralCode).1.db.users uid
      = some
        { uid := uid
          walletBalance := some 0
          loyaltyTier := some "BRONZE"
          transactionCount := some 0
          kycStatus := "pending"
          referralCode := generateReferralCode random uid
          referredBy := none
          referralEarnings := some 0
          totalReferrals := some 0 } := by
  unfold register
  simp only [processReferral_eq]
  by_cases hcode : referralCode.getD "" ≠ ""
  · simp only [if_pos hcode]
    exact ⟨trivial, getDoc_setDoc _ _ _⟩
  · simp only [if_neg hcode]
    exact ⟨trivial, getDoc_setDoc _ _ _⟩

/-- A call of `updateWalletBalance` leaves the referrals, and it leaves the profiles or
updates one of them without touching its referral fields. -/
theorem updateWalletBalance_step (fault : StoreFault) (s : AuthState) (amount : Option Rat)
    (type : String) :
    (updateWalletBalance fault s amount type).1.db.referrals = s.db.referrals ∧
    ((updateWalletBalance fault s amount type).1.db.users = s.db.users ∨
      ∃ id f, updateDoc s.db.users id f
          = some (updateWalletBalance fault s amount type).1.db.users ∧
        ∀ p : UserProfile, (f p).referralEarnings = p.referralEarnings ∧
          (f p).totalReferrals = p.totalReferrals) := by
  cases hres : (updateWalletBalance fault s amount type).2 with
  | error e =>
    rw [updateWalletBalance_error fault s amount type e hres]
    exact ⟨rfl, Or.inl rfl⟩
  | ok nb =>
    cases hu : s.user with
    | none => simp [updateWalletBalance, hu] at hres
    | some uid =>
      cases hp : s.userProfile with
      | none => simp [updateWalletBalance, hu, hp] at hres
      | some profile =>
        by_cases hlt : ltZero (newBalance (orZero profile.walletBalance) amount type) = true
        · simp [updateWalletBalance, hu, hp, hlt] at hres
        · cases fault with
          | some msg => simp [updateWalletBalance, hu, hp, hlt] at hres
          | none =>
            cases hupd : updateDoc s.db.users uid (fun d =>
                { d with
                    walletBalance := newBalance (orZero profile.walletBalance) amount type }) with
            | none => simp [updateWalletBalance, hu, hp, hlt, hupd] at hres
            | some users =>
              have hrun : (updateWalletBalance none s amount type).1
                  = { s with
                        db := { s.db with users := users }
                        userProfile := some { profile with
                          walletBalance :=
                            newBalance (orZero profile.walletBalance) amount type } } := by
                simp [updateWalletBalance, hu, hp, hlt, hupd]
              rw [hrun]
              exact ⟨rfl, Or.inr ⟨uid, _, hupd, fun p => ⟨rfl, rfl⟩⟩⟩

/-- A call of `updateLoyaltyTier` leaves the referrals, and it leaves the profiles or
updates one of them without touching its referral fields. -/
theorem updateLoyaltyTier_step (fault : StoreFault) (s : AuthState) :
    (updateLoyaltyTier fault s).db.referrals = s.db.referrals ∧
    ((updateLoyaltyTier fault s).db.users = s.db.users ∨
      ∃ id f, updateDoc s.db.users id f = some (updateLoyaltyTier fault s).db.users ∧
        ∀ p : UserProfile, (f p).referralEarnings = p.referralEarnings ∧
          (f p).totalReferrals = p.totalReferrals) := by
  cases hu : s.user with
  | none => simp [updateLoyaltyTier, hu]
  | some uid =>
    cases hp : s.userProfile with
    | none => simp [updateLoyaltyTier, hu, hp]
    | some profile =>
      by_cases htier : some (newTier (orZero profile.transactionCount)) ≠ profile.loyaltyTier
      · cases fault with
        | some msg => simp [updateLoyaltyTier, hu, hp, htier]
        | none =>
          cases hupd : updateDoc s.db.users uid (fun d =>
              { d with loyaltyTier := some (newTier (orZero profile.transactionCount)) }) with
          | none => simp [updateLoyaltyTier, hu, hp, htier, hupd]
          | some users =>
            have hrun : updateLoyaltyTier none s
                = { s with
                      db := { s.db with users := users }
                      userProfile := some { profile with
                        loyaltyTier := some (newTier (orZero profile.transactionCount)) } } := by
              simp [updateLoyaltyTier, hu, hp, htier, hupd]
            rw [hrun]
            exact ⟨rfl, Or.inr ⟨uid, _, hupd, fun p => ⟨rfl, rfl⟩⟩⟩
      · simp [updateLoyaltyTier, hu, hp, htier]

/-- Every operation on a registered profile leaves the referrals and the referral
fields of the stored profile of `uid`. -/
theorem applyProfileOp_stats (s : AuthState) (op : ProfileOp) (uid : String) (p : UserProfile)
    (hp : getDoc s.db.users uid = some p) :
    (applyProfileOp s op).db.referrals = s.db.referrals ∧
    ∃ p', getDoc (applyProfileOp s op).db.users uid = some p' ∧
      p'.referralEarnings = p.referralEarnings ∧ p'.totalReferrals = p.totalReferrals := by
  have hstep : ∀ s' : AuthState, (s'.db.referrals = s.db.referrals ∧
      (s'.db.users = s.db.users ∨
        ∃ id f, updateDoc s.db.users id f = some s'.db.users ∧
          ∀ p : UserProfile, (f p).referralEarnings = p.referralEarnings ∧
            (f p).totalReferrals = p.totalReferrals)) →
      s'.db.referrals = s.db.referrals ∧
      ∃ p', getDoc s'.db.users uid = some p' ∧
        p'.referralEarnings = p.referralEarnings ∧ p'.totalReferrals = p.totalReferrals := by
    intro s' h
    refine ⟨h.1, ?_⟩
    rcases h.2 with h | ⟨id, f, hupd, hf⟩
    · rw [h]
      exact ⟨p, hp, rfl, rfl⟩
    · rw [getDoc_updateDoc s.db.users s'.db.users id uid f hupd, hp]
      by_cases hid : uid = id
      · rw [if_pos hid]
        exact ⟨f p, rfl, (hf p).1, (hf p).2⟩
      · rw [if_neg hid]
        exact ⟨p, rfl, rfl, rfl⟩
  cases op with
  | completeReferralBonus failAt referredUserId =>
    simp only [applyProfileOp, completeReferralBonus_eq]
    exact ⟨trivial, p, hp, rfl, rfl⟩
  | updateWalletBalance fault amount type =>
    exact hstep _ (updateWalletBalance_step fault s amount type)
  | updateLoyaltyTier fault =>
    exact hstep _ (updateLoyaltyTier_step fault s)

/-- A run of operations leaves the referrals and the referral fields of the stored
profile of `uid`. -/
theorem runProfileOps_stats (ops : List ProfileOp) (s : AuthState) (uid : String)
    (p : UserProfile) (hp : getDoc s.db.users uid = some p) :
    (runProfileOps s ops).db.referrals = s.db.referrals ∧
    ∃ p', getDoc (runProfileOps s ops).db.users uid = some p' ∧
      p'.referralEarnings = p.referralEarnings ∧ p'.totalReferrals = p.totalReferrals := by
  induction ops generalizing s p with
  | nil => exact ⟨rfl, p, hp, rfl, rfl⟩
  | cons op rest ih =>
    obtain ⟨href, p1, hp1, he1, ht1⟩ := applyProfileOp_stats s op uid p hp
    obtain ⟨href2, p2, hp2, he2, ht2⟩ := ih (applyProfileOp s op) p1 hp1
    unfold runProfileOps at href2 hp2 ⊢
    rw [List.foldl_cons]
    exact ⟨href2.trans href, p2, hp2, he2.trans he1, ht2.trans ht1⟩

/-- The statistics that `loadReferralStats` computes for a user whom no referral names
as referrer. -/
theorem loadReferralStats_of_no_referral (db : Store) (uid : String) (stats : ReferralStats)
    (hnone : ∀ r ∈ db.referrals, r.2.referrerId ≠ uid) :
    loadReferralStats none db uid stats
      = { totalReferrals := 0, pendingReferrals := 0, completedReferrals := 0,
          totalEarnings := 0 } := by
  have hfilter : db.referrals.filter (fun r => r.2.referrerId = uid) = [] := by
    rw [List.filter_eq_nil_iff]
    intro r hr
    simpa using hnone r hr
  simp [loadReferralStats, hfilter]

/-- The counter `completedReferrals` after the loop of `loadReferralStats` over the
documents `l`, started at `acc`. -/
theorem loadReferralStats_fold (l : List (String × Referral)) (acc : ReferralStats) :
    (l.foldl
      (fun (acc : ReferralStats) (doc : String × Referral) =>
        let data := doc.2
        let acc := { acc with totalReferrals := acc.totalReferrals + 1 }
        if data.status = "pending" then
          { acc with pendingReferrals := acc.pendingReferrals + 1 }
        else if data.status = "completed" then
          { acc with
              completedReferrals := acc.completedReferrals + 1
              totalEarnings := acc.totalEarnings + data.bonusAmount }
        else acc) acc).completedReferrals
      = acc.completedReferrals + (l.filter (fun r => r.2.status = "completed")).length := by
  induction l generalizing acc with
  | nil => simp
  | cons kv rest ih =>
    rw [List.foldl_cons, ih]
    by_cases h1 : kv.2.status = "pending"
    · have h2 : ¬ kv.2.status = "completed" := by
        rw [h1]
        decide
      simp [h1, h2, List.filter_cons]
    · by_cases h2 : kv.2.status = "completed"
      · simp [h1, h2, List.filter_cons]
        omega
      · simp [h1, h2, List.filter_cons]

/-- The number `completedReferrals` that `loadReferralStats` sets is the number of
referrals of the user with status `completed`. -/
theorem loadReferralStats_completedReferrals (db : Store) (uid : String) (stats : ReferralStats) :
    (loadReferralStats none db uid stats).completedReferrals
      = (db.referrals.filter
          (fun r => r.2.referrerId = uid ∧ r.2.status = "completed")).length := by
  unfold loadReferralStats
  simp only []
  rw [loadReferralStats_fold, List.filter_filter]
  simp only [Nat.zero_add, Bool.decide_and]
  congr 2
  funext a
  exact Bool.and_comm _ _

/-- With distinct document ids, a stored document reads back under its id. -/
theorem getDoc_of_mem_nodup {α : Type} (coll : List (String × α)) (id : String) (v : α)
    (hids : (coll.map Prod.fst).Nodup) (h : (id, v) ∈ coll) : getDoc coll id = some v := by
  induction coll with
  | nil => cases h
  | cons kv rest ih =>
    obtain ⟨k, w⟩ := kv
    rw [List.map_cons, List.nodup_cons] at hids
    unfold getDoc
    rcases List.mem_cons.mp h with heq | hmem
    · injection heq with h1 h2
      subst h1
      subst h2
      simp
    · have hk : k ≠ id := by
        intro hk
        apply hids.1
        rw [hk]
        exact List.mem_map.mpr ⟨(id, v), hmem, rfl⟩
      rw [if_neg hk]
      exact ih hids.2 hmem

/-- How an update changes the number of documents with a property `q`: the updated
document `v` is counted before if `q v`, and after if `q (f v)`. -/
theorem filter_length_updateDoc {α : Type} (q : α → Bool) (coll coll' : List (String × α))
    (id : String) (f : α → α) (v : α) (hget : getDoc coll id = some v)
    (h : updateDoc coll id f = some coll') :
    (coll'.filter (fun kv => q kv.2)).length + (if q v then 1 else 0)
      = (coll.filter (fun kv => q kv.2)).length + (if q (f v) then 1 else 0) := by
  induction coll generalizing coll' with
  | nil => simp [updateDoc] at h
  | cons kv rest ih =>
    obtain ⟨k, w⟩ := kv
    unfold updateDoc at h
    unfold getDoc at hget
    split_ifs at h hget with hk
    · injection h with h
      injection hget with hget
      subst h
      subst hget
      simp only [List.filter_cons]
      cases hq1 : q w <;> cases hq2 : q (f w) <;> simp
    · cases hr : updateDoc rest id f with
      | none => simp [hr] at h
      | some r =>
        simp [hr] at h
        subst h
        have hrest := ih r hget hr
        simp only [List.filter_cons]
        cases hqw : q w
        · simp only [Bool.false_eq_true, if_false]
          exact hrest
        · simp only [if_true, List.length_cons]
          omega

/-- The body of `completeReferralBonus`, run with every write completing on a store with
distinct referral ids, keeps the referral statistics consistent: it adds
`REFERRAL_BONUS` and 1 to the two fields of the referrer and completes one referral of
that referrer. -/
theorem completeReferralBonusBody_consistent (db : Store) (referredUserId : String)
    (hids : (db.referrals.map Prod.fst).Nodup) (h : ReferralStatsConsistent db) :
    ReferralStatsConsistent (completeReferralBonusBody none db referredUserId) := by
  cases hp : pendingReferrals db referredUserId with
  | nil =>
    rw [completeReferralBonusBody_no_pending none db referredUserId hp]
    exact h
  | cons head rest =>
    obtain ⟨rid, rd⟩ := head
    cases href : getDoc db.users rd.referrerId with
    | none =>
      have hrun : completeReferralBonusBody none db referredUserId = db := by
        simp [completeReferralBonusBody, hp, href]
      rw [hrun]
      exact h
    | some referrer =>
      obtain ⟨users, referrals, stored, hupd1, hstored, hupd2, hrun⟩ :=
        completeReferralBonusBody_settles db referredUserId rid rd rest referrer hp href
      rw [hrun]
      have hmem : (rid, rd) ∈ pendingReferrals db referredUserId := by
        rw [hp]
        exact List.mem_cons_self _ _
      obtain ⟨hmem1, hmem2⟩ := List.mem_filter.mp hmem
      simp only [decide_eq_true_eq] at hmem2
      have hst : getDoc db.referrals rid = some rd :=
        getDoc_of_mem_nodup db.referrals rid rd hids hmem1
      intro uid p hget
      rw [loadReferralStats_completedReferrals]
      have hcount := filter_length_updateDoc
        (fun r : Referral => decide (r.referrerId = uid ∧ r.status = "completed"))
        db.referrals referrals rid (fun r => { r with status := "completed" }) rd hst hupd2
      have hq : ¬ (rd.referrerId = uid ∧ rd.status = "completed") := by
        rw [hmem2.2]
        intro hc
        exact absurd hc.2 (by decide)
      simp only [hq, decide_False, Bool.false_eq_true, if_false, Nat.add_zero, and_true,
        decide_eq_true_eq] at hcount
      have hread := getDoc_updateDoc db.users users rd.referrerId uid _ hupd1
      change getDoc users uid = some p at hget
      change _ ∧ _ = (((List.filter _ referrals).length : Nat) : Rat)
      rw [hread] at hget
      by_cases hu : uid = rd.referrerId
      · rw [if_pos hu, hu, href] at hget
        injection hget with hget
        obtain ⟨he, ht⟩ := h rd.referrerId referrer href
        rw [loadReferralStats_completedReferrals] at ht
        rw [hu] at hcount ⊢
        rw [hcount, if_pos rfl, ← hget]
        simp only [orZero, Option.getD_some] at he ht ⊢
        constructor
        · rw [he]
          unfold REFERRAL_BONUS
          ring
        · rw [ht]
          push_cast
          ring
      · rw [if_neg hu] at hget
        obtain ⟨he, ht⟩ := h uid p hget
        rw [loadReferralStats_completedReferrals] at ht
        have hu' : ¬ rd.referrerId = uid := fun h => hu h.symm
        rw [hcount, if_neg hu', Nat.add_zero]
        exact ⟨he, ht⟩

/-- C29: the referral statistics of a registered profile stay consistent.  For a user
`uid` whom no referral names as referrer at registration, after `register` and any run
of `completeReferralBonus`, `updateWalletBalance` and `updateLoyaltyTier` calls the
stored profile has `referralEarnings = REFERRAL_BONUS * totalReferrals`, and
`totalReferrals` is the number of completed referrals of `uid` that
`loadReferralStats` counts.  (Both fields keep the value 0 of the registration, and no
referral is completed: none of the three functions writes the fields, the settlement
ending at its unresolved query.)  The body of `completeReferralBonus` by itself, run
with every write completing on a store with distinct referral ids, keeps the statistics
of all profiles consistent as well. -/
theorem referral_stats_consistent (random : Nat → Rat) (uid : String)
    (queryFault addFault : StoreFault) (referralId : String) (s : AuthState)
    (referralCode : Option String) (ops : List ProfileOp) (stats : ReferralStats)
    (hnew : ∀ r ∈ s.db.referrals, r.2.referrerId ≠ uid) :
    (∃ p,
      getDoc (runProfileOps
        (register random (.ok uid) queryFault addFault referralId none s referralCode).1
        ops).db.users uid = some p ∧
      orZero p.referralEarnings = REFERRAL_BONUS * orZero p.totalReferrals ∧
      orZero p.totalReferrals
        = ((loadReferralStats none (runProfileOps
            (register random (.ok uid) queryFault addFault referralId none s referralCode).1
            ops).db uid stats).completedReferrals : Rat)) ∧
    (∀ (db : Store) (referredUserId : String), (db.referrals.map Prod.fst).Nodup →
      ReferralStatsConsistent db →
      ReferralStatsConsistent (completeReferralBonusBody none db referredUserId)) := by
  obtain ⟨hreg, hdoc⟩ := register_ok random uid queryFault addFault referralId s referralCode
  obtain ⟨href, p, hp, he, ht⟩ := runProfileOps_stats ops _ uid _ hdoc
  refine ⟨⟨p, hp, ?_, ?_⟩, completeReferralBonusBody_consistent⟩
  · rw [he, ht]
    simp [orZero]
  · rw [loadReferralStats_of_no_referral _ uid stats (by rw [href, hreg]; exact hnew), ht]
    simp [orZero]

/-- The statement of C29 on the registration of the user `abcxYz9k` next to `u1`,
followed by a settlement call, a credit of 50 and a tier update. -/
theorem referral_stats_consistent_witness :
    ∃ p,
      getDoc (runProfileOps
        (register sampleRandom (.ok "abcxYz9k") none none "r2" none signedOutState
          (some "ABCDEFU1")).1
        [.completeReferralBonus none "u2", .updateWalletBalance none (some 50) "add",
         .updateLoyaltyTier none]).db.users "abcxYz9k" = some p ∧
      orZero p.referralEarnings = REFERRAL_BONUS * orZero p.totalReferrals ∧
      orZero p.totalReferrals
        = ((loadReferralStats none (runProfileOps
            (register sampleRandom (.ok "abcxYz9k") none none "r2" none signedOutState
              (some "ABCDEFU1")).1
            [.completeReferralBonus none "u2", .updateWalletBalance none (some 50) "add",
             .updateLoyaltyTier none]).db "abcxYz9k" noReferralStats).completedReferrals
            : Rat) :=
  (referral_stats_consistent sampleRandom "abcxYz9k" none none "r2" signedOutState
    (some "ABCDEFU1")
    [.completeReferralBonus none "u2", .updateWalletBalance none (some 50) "add",
     .updateLoyaltyTier none]
    noReferralStats
    (by
      intro r hr
      simp only [signedOutState, referralStore, List.mem_singleton] at hr
      rw [hr]
      decide)).1

/-! ## Referrals in the runs of the application -/

/-- A call of `loadUserProfile` leaves the store. -/
theorem loadUserProfile_db (fault : StoreFault) (s : AuthState) (userId : String) :
    (loadUserProfile fault s userId).db = s.db := by
  unfold loadUserProfile
  cases fault with
  | some msg => rfl
  | none =>
    cases getDoc s.db.users userId with
    | none => rfl
    | some data => rfl

/-- A call of `updateUserProfile` leaves the referrals. -/
theorem updateUserProfile_referrals (fault readFault : StoreFault) (s : AuthState)
    (updates : UserProfile → UserProfile) :
    (updateUserProfile fault readFault s updates).1.db.referrals = s.db.referrals := by
  unfold updateUserProfile
  cases hu : s.user with
  | none => rfl
  | some uid =>
    cases fault with
    | some msg => rfl
    | none =>
      cases hupd : updateDoc s.db.users uid updates with
      | none => simp only [hupd]
      | some users =>
        simp only [hupd]
        rw [loadUserProfile_db]

/-- A call of `register` leaves the referrals, whatever its outcome: the referral record
is written by `processReferral`, which ends at its unresolved query. -/
theorem register_referrals (random : Nat → Rat) (created : Except String String)
    (queryFault addFault : StoreFault) (referralId : String) (setFault : StoreFault)
    (s : AuthState) (referralCode : Option String) :
    (register random created queryFault addFault referralId setFault s
      referralCode).1.db.referrals = s.db.referrals := by
  unfold register
  cases created with
  | error msg => rfl
  | ok uid =>
    simp only [processReferral_eq]
    by_cases hcode : referralCode.getD "" ≠ ""
    · simp only [if_pos hcode]
      cases setFault with
      | some msg => rfl
      | none => rfl
    · simp only [if_neg hcode]
      cases setFault with
      | some msg => rfl
      | none => rfl

/-- A call of `handleSubmitKYC` with `completeReferralBonus` as handed out by `useAuth()`
leaves the referrals. -/
theorem handleSubmitKYC_referrals (failAt : Option Nat) (valid uploadOk : Bool)
    (newId : String) (addFault updFault readFault : StoreFault) (pressOk : Bool)
    (idType idNumber : String) (s : AuthState) :
    (handleSubmitKYC (completeReferralBonus failAt) valid uploadOk newId addFault updFault
      readFault pressOk idType idNumber s).1.db.referrals = s.db.referrals := by
  unfold handleSubmitKYC
  by_cases hvalid : ¬ valid
  · rw [if_pos hvalid]
  · rw [if_neg hvalid]
    cases hu : s.user with
    | none => rfl
    | some uid =>
      simp only
      by_cases hupload : ¬ uploadOk
      · rw [if_pos hupload]
      · rw [if_neg hupload]
        cases addFault with
        | some msg => rfl
        | none =>
          simp only [completeReferralBonus_eq]
          split_ifs <;> exact updateUserProfile_referrals _ _ _ _

/-- Every call of the application leaves the `referrals` collection as it was. -/
theorem applyAppOp_referrals (s : AuthState) (op : AppOp) :
    (applyAppOp s op).db.referrals = s.db.referrals := by
  cases op with
  | register random created queryFault addFault referralId setFault referralCode =>
    exact register_referrals random created queryFault addFault referralId setFault s
      referralCode
  | login signedIn fault =>
    simp only [applyAppOp]
    unfold login
    cases signedIn with
    | error msg => rfl
    | ok uid =>
      simp only
      rw [loadUserProfile_db]
  | logout fault =>
    simp only [applyAppOp]
    unfold logout
    cases fault with
    | some msg => rfl
    | none => rfl
  | handleSubmitKYC failAt valid uploadOk newId addFault updFault readFault pressOk idType
      idNumber =>
    exact handleSubmitKYC_referrals failAt valid uploadOk newId addFault updFault readFault
      pressOk idType idNumber s
  | handleKycAction fault userFault admin kycId action reason =>
    exact (handleKycAction_referrals fault userFault admin s.db kycId action reason).1
  | handleGiftCardAction fault admin submissionId action amount =>
    simp only [applyAppOp]
    unfold handleGiftCardAction
    repeat' split
    all_goals rfl
  | completeReferralBonus failAt referredUserId =>
    simp only [applyAppOp, completeReferralBonus_eq]
  | updateWalletBalance fault amount type =>
    exact (updateWalletBalance_step fault s amount type).1
  | updateLoyaltyTier fault =>
    exact (updateLoyaltyTier_step fault s).1
  | updateUserProfile fault readFault updates =>
    exact updateUserProfile_referrals fault readFault s updates
  | processWithdrawal parseFloat transfer fault form =>
    simp only [applyAppOp]
    cases transfer with
    | error e => rfl
    | ok u =>
      rw [(processWithdrawal_of_transfer parseFloat fault form s).1]
      exact (updateWalletBalance_step fault s _ _).1
  | updateRate fault logFault cardType rateData =>
    simp only [applyAppOp]
    unfold updateRate
    cases fault with
    | some msg => rfl
    | none =>
      cases hupd : updateDoc s.db.giftCardRates cardType (mergeRateData rateData) with
      | none => rfl
      | some rates =>
        simp only
        unfold logRateChange
        cases logFault with
        | some msg => rfl
        | none => rfl
  | initializeDefaultRates writes => rfl

/-- Every run of the application leaves the `referrals` collection as it was. -/
theorem runAppOps_referrals (ops : List AppOp) (s : AuthState) :
    (runAppOps s ops).db.referrals = s.db.referrals := by
  induction ops generalizing s with
  | nil => rfl
  | cons op rest ih =>
    unfold runAppOps at ih ⊢
    rw [List.foldl_cons, ih, applyAppOp_referrals]

/-- C19: in every state that the application reaches from a store without a completed
referral, a referral with status `completed` belongs to a referred user whose
`kycStatus` is `approved`.  No run of `register`, `login`, `logout`, `handleSubmitKYC`,
`handleKycAction`, `handleGiftCardAction`, `completeReferralBonus`,
`updateWalletBalance`, `updateLoyaltyTier`, `updateUserProfile`, `processWithdrawal`,
`updateRate` and `initializeDefaultRates` calls changes the `referrals` collection, so
no referral is ever completed and no bonus is paid before an approval. -/
theorem completed_referral_has_approved_kyc (s : AuthState) (ops : List AppOp)
    (hinit : ∀ r ∈ s.db.referrals, r.2.status ≠ "completed") :
    (runAppOps s ops).db.referrals = s.db.referrals ∧
    ∀ r ∈ (runAppOps s ops).db.referrals, r.2.status = "completed" →
      ∃ p, getDoc (runAppOps s ops).db.users r.2.referredUserId = some p ∧
        p.kycStatus = "approved" := by
  refine ⟨runAppOps_referrals ops s, ?_⟩
  intro r hr hstatus
  rw [runAppOps_referrals] at hr
  exact absurd hstatus (hinit r hr)

/-- The statement of C19 on the sample run: submission by `u2`, approval of `k1`, one
more settlement request. -/
theorem completed_referral_has_approved_kyc_witness :
    (runAppOps kycReferralState sampleRun).db.referrals = kycReferralState.db.referrals ∧
    ∀ r ∈ (runAppOps kycReferralState sampleRun).db.referrals, r.2.status = "completed" →
      ∃ p, getDoc (runAppOps kycReferralState sampleRun).db.users r.2.referredUserId
          = some p ∧
        p.kycStatus = "approved" :=
  completed_referral_has_approved_kyc kycReferralState sampleRun (by
    intro r hr
    simp only [kycReferralState, referralStore, List.mem_singleton] at hr
    rw [hr]
    decide)

end AndadoraExchange
